import Mathlib

/-!
# Resolver and estimator of alesr/impact

A shallow embedding of `internal/mapping/mapping.go`, of
`internal/estimate/estimate.go` and of `internal/pkg/strx/strx.go`, together
with the parts of the Go standard library they call, followed by theorems about
them.

## Conventions of the embedding

* A Go `string` that holds valid UTF-8 is a list of runes, `Str = List Char`.
  Byte-wise operations of package `strings` whose pattern is a single ASCII
  rune (`ReplaceAll`, `Split`) act rune-wise on such strings, and byte-wise
  lexicographic order (`strings.Compare`) coincides with the code-point order.
* `strings.ToLower` and `strings.EqualFold` act rune by rune.  On ASCII runes
  both are given concretely; what the Unicode tables do beyond ASCII is the
  parameter `CaseTables`, so every theorem holds for whatever those tables are.
* A finite `float64` value is the rational it stands for (`ℚ`), and an `int`
  is an integer (`ℤ`) between `-2 ^ 63` and `2 ^ 63 - 1`.  The resolver reads
  and compares such values and converts between the two types: `int(v)` is
  `intOfFloat64`, with the result of amd64 when `v` does not fit an `int`, and
  `float64(n)` is `float64OfInt`, which rounds above `2 ^ 53`.  The estimator
  multiplies, divides and adds them: there every `float64` operation is the
  exact operation followed by a rounding `fl : ℚ → ℚ`, a parameter of the
  estimator's functions, with `id` for exact arithmetic and `roundFloat64` for
  IEEE-754 binary64 as long as no result overflows (`maxFloat64`).
* `map[string]any` is an association list read with `List.lookup`; it is empty
  exactly when the Go map has length 0.
* A `(T, error)` result is `Except Error T`; a `*catalog.Product` is
  `Option Product`.
-/

set_option linter.dupNamespace false

namespace Impact

/-- Go strings holding valid UTF-8, as lists of runes. -/
abbrev Str := List Char

/-! ## Package `unicode` / `strings` -/

/-- What Unicode case mapping does to the runes beyond ASCII: `lower` is
`unicode.ToLower` there, and `fold` sends a rune to a fixed representative of its
`unicode.SimpleFold` orbit (the lower-case ASCII letter when the orbit has one). -/
structure CaseTables where
  lower : Char → Char
  fold : Char → Char

/-- Case tables that leave every rune beyond ASCII alone. -/
def CaseTables.ascii : CaseTables := ⟨id, id⟩

/-- ASCII part of `unicode.ToLower`: `'A'..'Z'` move to `'a'..'z'`. -/
def asciiLower (c : Char) : Char :=
  if 65 ≤ c.toNat ∧ c.toNat ≤ 90 then Char.ofNat (c.toNat + 32) else c

/-- Rune-level `unicode.ToLower`. -/
def toLowerRune (T : CaseTables) (c : Char) : Char :=
  if c.toNat < 128 then asciiLower c else T.lower c

/-- Key of a rune under simple case folding: two runes are equal under
`strings.EqualFold` exactly when their keys agree. -/
def foldRune (T : CaseTables) (c : Char) : Char :=
  if c.toNat < 128 then asciiLower c else T.fold c

/-- Rune test `unicode.IsSpace` (the Unicode White_Space property). -/
def isSpace (c : Char) : Bool :=
  let n := c.toNat
  (9 ≤ n && n ≤ 13) || n == 32 || n == 0x85 || n == 0xA0 || n == 0x1680 ||
    (0x2000 ≤ n && n ≤ 0x200A) || n == 0x2028 || n == 0x2029 || n == 0x202F ||
    n == 0x205F || n == 0x3000

/-- Go `strings.ToLower`. -/
def ToLower (T : CaseTables) (s : Str) : Str := s.map (toLowerRune T)

/-- Go `strings.TrimSpace`: drop leading and trailing white space. -/
def TrimSpace (s : Str) : Str := (s.dropWhile isSpace).rdropWhile isSpace

/-- Go `strings.ReplaceAll(s, old, new)` for a one-rune `old`. -/
def ReplaceAll : Str → Char → Str → Str
  | [], _, _ => []
  | c :: cs, old, new =>
    if c = old then new ++ ReplaceAll cs old new else c :: ReplaceAll cs old new

/-- Go `strings.HasPrefix`. -/
def HasPrefix (s pre : Str) : Bool := pre.isPrefixOf s

/-- Go `strings.TrimPrefix`. -/
def TrimPrefix (s pre : Str) : Str := if HasPrefix s pre then s.drop pre.length else s

/-- Go `strings.Contains`: `sub` occurs as a contiguous run of `s`. -/
def Contains : Str → Str → Bool
  | [], sub => sub.isEmpty
  | c :: cs, sub => HasPrefix (c :: cs) sub || Contains cs sub

/-- Go `strings.Split(s, sep)` for a one-rune `sep`; never the empty list. -/
def Split : Str → Char → List Str
  | [], _ => [[]]
  | c :: cs, sep =>
    if c = sep then [] :: Split cs sep
    else match Split cs sep with
      | [] => [[c]]
      | p :: ps => (c :: p) :: ps

/-- Go `strings.Join`. -/
def Join : List Str → Str → Str
  | [], _ => []
  | [a], _ => a
  | a :: b :: rest, sep => a ++ sep ++ Join (b :: rest) sep

/-- Go `strings.EqualFold`: equality under simple case folding, rune by rune. -/
def EqualFold (T : CaseTables) : Str → Str → Bool
  | [], [] => true
  | a :: s, b :: t => foldRune T a == foldRune T b && EqualFold T s t
  | _, _ => false

/-- Go `strings.Compare`: `-1`, `0` or `1` by lexicographic order. -/
def Compare : Str → Str → Int
  | [], [] => 0
  | [], _ :: _ => -1
  | _ :: _, [] => 1
  | a :: s, b :: t => if a < b then -1 else if b < a then 1 else Compare s t

/-! ## Data model (`internal/scw/catalog`, `internal/plan`) -/

/-- Go `catalog.Locality`; `Global` is a `*bool`. -/
structure Locality where
  Global : Option Bool := none
  Region : Str := []
  Zone : Str := []
  deriving DecidableEq

/-- Go `catalog.UnitOfMeasure`. -/
structure UnitOfMeasure where
  Unit : Str := []
  Size : Nat := 0
  deriving DecidableEq

/-- Go `catalog.EnvironmentalEstimation`; both rates are `*float64`. -/
structure EnvironmentalEstimation where
  KgCO2Equivalent : Option ℚ := none
  M3WaterUsage : Option ℚ := none
  deriving DecidableEq

/-- Go `catalog.Product` (the `EndOfLifeAt` time stamp is not read by the core
and is left out). -/
structure Product where
  SKU : Str := []
  ServiceCategory : Str := []
  ProductCategory : Str := []
  Product : Str := []
  Variant : Str := []
  Description : Str := []
  Locality : Locality := {}
  UnitOfMeasure : UnitOfMeasure := {}
  EnvironmentalImpactEstimation : Option EnvironmentalEstimation := none
  Status : Str := []
  Badges : List Str := []
  deriving DecidableEq

/-- A value of Go type `any` found in an attribute map. -/
inductive Value where
  | null
  | str (s : Str)
  | float (x : ℚ)
  | int (n : ℤ)
  | bool (b : Bool)
  | other
  deriving DecidableEq

/-- Go `map[string]any`. -/
abbrev Attrs := List (Str × Value)

/-- Go `plan.ResourceChange`; `Typ` is the Go field `Type`, a reserved word here. -/
structure ResourceChange where
  Address : Str := []
  Typ : Str := []
  Actions : List Str := []
  Before : Attrs := []
  After : Attrs := []
  Zone : Str := []
  Region : Str := []
  deriving DecidableEq

/-! ## `float64` and `int` values

A finite `float64` is the rational it stands for, and a `float64` operation is
the exact operation followed by a rounding `fl : ℚ → ℚ`, which the functions of
the estimator take as a parameter: `id` is exact arithmetic, `roundFloat64` is
the rounding of IEEE-754 binary64 (to nearest, ties to even, gradual underflow).
`roundFloat64 x` is the result of the hardware whenever that result is finite,
that is, whenever it does not exceed `maxFloat64` in absolute value. Beyond
that the hardware gives an infinity, and from infinities NaN, which `ℚ` does
not hold: a statement that a float64 result has a certain value carries that
bound as a hypothesis (`rowFinite`) or is the evaluation of an input within it,
and says nothing of a computation that overflows. The sign of zero is not
modelled. -/

/-- Nearest integer to a rational, the even one on a tie. -/
def roundHalfEven (q : ℚ) : ℤ :=
  let n := ⌊q⌋
  let r := q - n
  if r < 1 / 2 then n
  else if 1 / 2 < r then n + 1
  else if n % 2 = 0 then n else n + 1

/-- Number of times `n` can be halved before it falls below 2, `fuel` bounding
the count; `log2Floor n n` is the floor of the binary logarithm of `n ≥ 1`. -/
def log2Floor : Nat → Nat → Nat
  | 0, _ => 0
  | fuel + 1, n => if 2 ≤ n then log2Floor fuel (n / 2) + 1 else 0

/-- Binary exponent of a positive rational: the `e` with `2 ^ e ≤ q < 2 ^ (e + 1)`. -/
def binaryExponent (q : ℚ) : ℤ :=
  let e : ℤ := (log2Floor q.num.natAbs q.num.natAbs : ℤ) - (log2Floor q.den q.den : ℤ)
  if q < 2 ^ e then e - 1 else e

/-- Rounding of a rational to binary64: to the nearest multiple of the unit in the
last place of a 53-bit significand (of `2 ^ (-1074)` in the subnormal range), the
one with an even significand on a tie. -/
def roundFloat64 (x : ℚ) : ℚ :=
  if x = 0 then 0
  else
    let k := max (binaryExponent |x| - 52) (-1074)
    if x < 0 then -((roundHalfEven (|x| / 2 ^ k) : ℚ) * 2 ^ k)
    else (roundHalfEven (|x| / 2 ^ k) : ℚ) * 2 ^ k

/-- Go `math.MaxFloat64`, the largest finite binary64 value. -/
def maxFloat64 : ℚ := (2 ^ 53 - 1) * 2 ^ 971

/-- Go's conversion `float64(n)` of an `int`: the binary64 value nearest to `n`,
which is `n` itself up to `2 ^ 53` in absolute value. -/
def float64OfInt (n : Int) : ℚ := roundFloat64 (n : ℚ)

/-- Go's conversion `int(value)` of a finite `float64`, as compiled for amd64:
the value truncated towards zero when that fits the 64 bits of an `int`, and
`-2 ^ 63` otherwise (the language leaves the result of a conversion that does
not fit to the implementation; this is the result of the instruction CVTTSD2SQ). -/
def intOfFloat64 (value : ℚ) : Int :=
  let t : Int := if 0 ≤ value then ⌊value⌋ else ⌈value⌉
  if -2 ^ 63 ≤ t ∧ t < 2 ^ 63 then t else -2 ^ 63

/-! ## Package `mapping` -/

/-- Go `mapping.Match`. -/
structure Match where
  Product : Product
  Qty : ℚ
  deriving DecidableEq

/-- Go `mapping.Result`; the zero value is `{}`. -/
structure Result where
  Product : Option Product := none
  Qty : ℚ := 0
  Matches : List Match := []
  deriving DecidableEq

/-- Go `mapping.ErrorCode` with its three constants. -/
inductive ErrorCode where
  | NotImplemented
  | MissingRequiredAttribute
  | NoCatalogMatch
  deriving DecidableEq

/-- The string behind an `ErrorCode` constant. -/
def ErrorCode.toStr : ErrorCode → Str
  | .NotImplemented => "not_implemented".toList
  | .MissingRequiredAttribute => "missing_required_attribute".toList
  | .NoCatalogMatch => "no_catalog_match".toList

/-- Go `mapping.Error`. -/
structure Error where
  Code : ErrorCode
  Reason : Str
  deriving DecidableEq

/-- Go `getString`: the string under `key`, `""` when absent, nil or not a string. -/
def getString (attrs : Attrs) (key : Str) : Str :=
  match attrs.lookup key with
  | none => []
  | some .null => []
  | some (.str s) => s
  | some _ => []

/-- Go `getFloat`: the number under `key`, an `int` converted to `float64`;
`fallback` when absent, nil or not a number. -/
def getFloat (attrs : Attrs) (key : Str) (fallback : ℚ) : ℚ :=
  match attrs.lookup key with
  | none => fallback
  | some .null => fallback
  | some (.float x) => x
  | some (.int n) => float64OfInt n
  | some _ => fallback

/-- Go `normalizeToken`. -/
def normalizeToken (T : CaseTables) (v : Str) : Str :=
  let v := ToLower T (TrimSpace v)
  let v := ReplaceAll v '-' []
  let v := ReplaceAll v '_' []
  let v := ReplaceAll v ' ' []
  let v := ReplaceAll v '/' []
  v

/-- Go `isInstanceProduct`. -/
def isInstanceProduct (T : CaseTables) (product : Product) : Bool :=
  let category := normalizeToken T product.ProductCategory
  let sku := ToLower T product.SKU
  category == "instance".toList || category == "instances".toList ||
    Contains sku "/compute/".toList

/-- Go `isBaremetalProduct`. -/
def isBaremetalProduct (T : CaseTables) (product : Product) : Bool :=
  let category := normalizeToken T product.ProductCategory
  let sku := ToLower T product.SKU
  category == "elasticmetal".toList || category == "baremetal".toList ||
    Contains sku "/elastic-metal/".toList || Contains sku "/apple-silicon/".toList

/-- Go `isLoadBalancerProduct`. -/
def isLoadBalancerProduct (T : CaseTables) (product : Product) : Bool :=
  let category := normalizeToken T product.ProductCategory
  let sku := ToLower T product.SKU
  category == "loadbalancer".toList || Contains sku "/network/lb/".toList ||
    Contains sku "/loadbalancer/".toList

/-- Go `isBlockStorageProduct`. -/
def isBlockStorageProduct (T : CaseTables) (product : Product) : Bool :=
  let category := normalizeToken T product.ProductCategory
  let sku := ToLower T product.SKU
  category == "blockstorage".toList || Contains sku "/storage/block/".toList

/-- Go `isRDBProduct`. -/
def isRDBProduct (T : CaseTables) (product : Product) : Bool :=
  let sku := ToLower T product.SKU
  Contains sku "/storage/rdb/".toList

/-- Go `isRedisProduct`. -/
def isRedisProduct (T : CaseTables) (product : Product) : Bool :=
  let sku := ToLower T product.SKU
  Contains sku "/storage/redis/".toList

/-- Go `regionFromZone`: the first two hyphen-separated pieces of the trimmed,
lower-cased zone, `""` when there are fewer than two. -/
def regionFromZone (T : CaseTables) (zone : Str) : Str :=
  match Split (ToLower T (TrimSpace zone)) '-' with
  | p0 :: p1 :: _ => p0 ++ "-".toList ++ p1
  | _ => []

/-- Go `scoreLocality`, returning the pair `(score, ok)`. -/
def scoreLocality (T : CaseTables) (product : Product) (zone region : Str) : Int × Bool :=
  if zone ≠ [] then
    if EqualFold T product.Locality.Zone zone then (50, true)
    else
      let zoneRegion := regionFromZone T zone
      if zoneRegion ≠ [] ∧ EqualFold T product.Locality.Region zoneRegion then (35, true)
      else if EqualFold T product.Locality.Region region ∧ region ≠ [] then (35, true)
      else if EqualFold T (regionFromZone T product.Locality.Zone) zoneRegion ∧ zoneRegion ≠ [] then
        (30, true)
      else if product.Locality.Global = some true then (5, true)
      else (0, false)
  else if region ≠ [] then
    if EqualFold T product.Locality.Region region then (40, true)
    else if EqualFold T (regionFromZone T product.Locality.Zone) region then (35, true)
    else if product.Locality.Global = some true then (5, true)
    else (0, false)
  else (1, true)

/-- Go `matchesToken`. -/
def matchesToken (T : CaseTables) (product : Product) (token : Str) : Bool :=
  let haystack := normalizeToken T
    (product.SKU ++ " ".toList ++ product.Product ++ " ".toList ++ product.Variant ++
      " ".toList ++ product.Description)
  Contains haystack token

/-- Go `normalizeLoadBalancerType`. -/
def normalizeLoadBalancerType (T : CaseTables) (raw : Str) : Str :=
  let value := ToLower T (TrimSpace raw)
  if value = [] then []
  else
    let value := TrimPrefix value "lb-".toList
    let value := ReplaceAll value '_' "-".toList
    let value := ReplaceAll value ' ' []
    normalizeToken T ("loadbalancer-".toList ++ value)

/-- Go `products[bestIndex].SKU`, read only when `0 ≤ bestIndex < len(products)`. -/
def skuAt (products : List Product) (bestIndex : Int) : Str :=
  match products[bestIndex.toNat]? with
  | some p => p.SKU
  | none => []

/-- Lines 227-230 of `findBestProduct`: the entry at index `i` with score
`score` replaces the best so far, `(bestIndex, bestScore)`, when there is none
yet, when it scores higher, or when it ties with a smaller SKU. -/
def findBestUpdate (products : List Product) (i : Nat) (product : Product) (score : Int)
    (best : Int × Int) : Int × Int :=
  if best.1 < 0 ∨ score > best.2 ∨
      (score = best.2 ∧ Compare product.SKU (skuAt products best.1) < 0) then
    ((i : Int), score)
  else best

/-- One pass of the loop body of `findBestProduct` at index `i`, where `product`
is `products[i]`; the state is `(bestIndex, bestScore)` and `continue` leaves
it as it is. -/
def findBestStep (T : CaseTables) (products : List Product) (matchResource : Product → Bool)
    (zone region typeToken : Str) (requireType : Bool) (i : Nat) (product : Product)
    (best : Int × Int) : Int × Int :=
  if !matchResource product then best
  else
    let (localityScore, ok) := scoreLocality T product zone region
    if !ok then best
    else
      let score := localityScore
      if typeToken ≠ [] then
        if !matchesToken T product typeToken then
          if requireType then best
          else findBestUpdate products i product score best
        else findBestUpdate products i product (score + 100) best
      else findBestUpdate products i product score best

/-- The loop `for i := range products` of `findBestProduct`, run over the
entries `rest` that start at index `i`. -/
def findBestLoop (T : CaseTables) (products : List Product) (matchResource : Product → Bool)
    (zone region typeToken : Str) (requireType : Bool) :
    List Product → Nat → Int × Int → Int × Int
  | [], _, best => best
  | product :: rest, i, best =>
    findBestLoop T products matchResource zone region typeToken requireType rest (i + 1)
      (findBestStep T products matchResource zone region typeToken requireType i product best)

/-- Go `findBestProduct`. -/
def findBestProduct (T : CaseTables) (products : List Product) (matchResource : Product → Bool)
    (zone region typeToken : Str) (requireType : Bool) : Option Product :=
  let best := findBestLoop T products matchResource zone region typeToken requireType
    products 0 (-1, -1)
  if best.1 < 0 then none else products[best.1.toNat]?

/-- Go `findBestRedisRoleProduct`. -/
def findBestRedisRoleProduct (T : CaseTables) (products : List Product)
    (role zone region nodeTypeToken : Str) : Option Product :=
  let rolePath := "/storage/redis/".toList ++ ToLower T (TrimSpace role) ++ "/".toList
  let filtered := products.filter fun product => Contains (ToLower T product.SKU) rolePath
  findBestProduct T filtered (isRedisProduct T) zone region nodeTypeToken (nodeTypeToken ≠ [])

/-- Go `noCatalogMatchError`. -/
def noCatalogMatchError (zone region typeKey typeValue : Str) : Error :=
  let parts : List Str := []
  let parts := if typeKey ≠ [] then parts ++ [typeKey ++ "=".toList ++ typeValue] else parts
  let parts := if zone ≠ [] then parts ++ ["zone=".toList ++ zone] else parts
  let parts := if region ≠ [] then parts ++ ["region=".toList ++ region] else parts
  let reason := "no catalog match".toList
  let reason :=
    if parts.length > 0 then reason ++ (" (".toList ++ Join parts ", ".toList ++ ")".toList)
    else reason
  { Code := .NoCatalogMatch, Reason := reason }

/-- Go `normalizeCount`: values below 1 give 1, others are converted by
`int(value)`. -/
def normalizeCount (value : ℚ) : Int :=
  if value < 1 then 1 else intOfFloat64 value

/-- Go `Resolve`. In the redis branch `clusterSize - 1` is computed only when
`clusterSize > 1`, where the subtraction cannot wrap around. -/
def Resolve (T : CaseTables) (change : ResourceChange) (products : List Product) :
    Except Error Result :=
  let attrs := if change.After.length = 0 then change.Before else change.After
  let zone := getString attrs "zone".toList
  let region := getString attrs "region".toList
  let zone := if zone = [] then change.Zone else zone
  let region := if region = [] then change.Region else region
  let rawResourceType := TrimSpace (getString attrs "type".toList)
  let rawNodeType := TrimSpace (getString attrs "node_type".toList)
  let resourceTypeToken := normalizeToken T rawResourceType
  let nodeTypeToken := normalizeToken T rawNodeType
  if change.Typ = "scaleway_instance_server".toList then
    if resourceTypeToken = [] then
      .error ⟨.MissingRequiredAttribute, "missing required attribute: type".toList⟩
    else
      match findBestProduct T products (isInstanceProduct T) zone region resourceTypeToken
          (resourceTypeToken ≠ []) with
      | some product => .ok { Product := some product, Qty := 1 }
      | none => .error (noCatalogMatchError zone region "type".toList rawResourceType)
  else if change.Typ = "scaleway_baremetal_server".toList then
    match findBestProduct T products (isBaremetalProduct T) zone region resourceTypeToken
        (resourceTypeToken ≠ []) with
    | some product => .ok { Product := some product, Qty := 1 }
    | none => .error (noCatalogMatchError zone region "type".toList rawResourceType)
  else if change.Typ = "scaleway_k8s_pool".toList then
    if nodeTypeToken = [] then
      .error ⟨.MissingRequiredAttribute, "missing required attribute: node_type".toList⟩
    else
      let size := getFloat attrs "size".toList 1
      match findBestProduct T products (isInstanceProduct T) zone region nodeTypeToken
          (nodeTypeToken ≠ []) with
      | some product => .ok { Product := some product, Qty := size }
      | none => .error (noCatalogMatchError zone region "node_type".toList rawNodeType)
  else if change.Typ = "scaleway_lb".toList then
    if resourceTypeToken = [] then
      .error ⟨.MissingRequiredAttribute, "missing required attribute: type".toList⟩
    else
      let lbTypeToken := normalizeLoadBalancerType T rawResourceType
      match findBestProduct T products (isLoadBalancerProduct T) zone region lbTypeToken
          (lbTypeToken ≠ []) with
      | some product => .ok { Product := some product, Qty := 1 }
      | none => .error (noCatalogMatchError zone region "type".toList rawResourceType)
  else if change.Typ = "scaleway_block_volume".toList then
    let size := getFloat attrs "size_in_gb".toList 1
    match findBestProduct T products (isBlockStorageProduct T) zone region [] false with
    | some product => .ok { Product := some product, Qty := size }
    | none => .error (noCatalogMatchError zone region [] [])
  else if change.Typ = "scaleway_rdb_instance".toList then
    if nodeTypeToken = [] then
      .error ⟨.MissingRequiredAttribute, "missing required attribute: node_type".toList⟩
    else
      match findBestProduct T products (isRDBProduct T) zone region nodeTypeToken
          (nodeTypeToken ≠ []) with
      | some product => .ok { Product := some product, Qty := 1 }
      | none => .error (noCatalogMatchError zone region "node_type".toList rawNodeType)
  else if change.Typ = "scaleway_redis_cluster".toList then
    if nodeTypeToken = [] then
      .error ⟨.MissingRequiredAttribute, "missing required attribute: node_type".toList⟩
    else
      let clusterSize := normalizeCount (getFloat attrs "cluster_size".toList 1)
      match findBestRedisRoleProduct T products "main-node".toList zone region nodeTypeToken with
      | none => .error (noCatalogMatchError zone region "node_type".toList rawNodeType)
      | some mainNode =>
        let matchList : List Match := [{ Product := mainNode, Qty := 1 }]
        if clusterSize > 1 then
          match findBestRedisRoleProduct T products "additional-node".toList zone region
              nodeTypeToken with
          | none => .error (noCatalogMatchError zone region "node_type".toList rawNodeType)
          | some additionalNode =>
            let matchList := matchList ++
              [{ Product := additionalNode, Qty := float64OfInt (clusterSize - 1) }]
            .ok { Product := some mainNode, Qty := float64OfInt clusterSize, Matches := matchList }
        else
          .ok { Product := some mainNode, Qty := float64OfInt clusterSize, Matches := matchList }
  else
    .error ⟨.NotImplemented, "not implemented".toList⟩

deriving instance DecidableEq for Except

/-! ## Package `estimate`: action transitions -/

/-- Go `estimate.actionTransition`. -/
structure actionTransition where
  Change : ResourceChange
  Action : Str
  Multiplier : ℚ
  deriving DecidableEq

/-- Go `beforeChange`: the change with `After` set to nil. -/
def beforeChange (change : ResourceChange) : ResourceChange :=
  { change with After := [] }

/-- Go `afterChange`: the change with `Before` set to nil. -/
def afterChange (change : ResourceChange) : ResourceChange :=
  { change with Before := [] }

/-- Go `hasBeforeData`. -/
def hasBeforeData (change : ResourceChange) : Bool := change.Before.length > 0

/-- Go `hasAfterData`. -/
def hasAfterData (change : ResourceChange) : Bool := change.After.length > 0

/-- Go `actionTransitions`; a nil slice and an empty slice are both `[]`. -/
def actionTransitions (change : ResourceChange) : List actionTransition :=
  let hasCreate := change.Actions.contains "create".toList
  let hasDelete := change.Actions.contains "delete".toList
  let hasUpdate := change.Actions.contains "update".toList
  let transitions : List actionTransition := []
  let transitions :=
    if hasDelete then
      let before := beforeChange change
      if hasBeforeData before then
        transitions ++ [{ Change := before, Action := "delete".toList, Multiplier := -1 }]
      else transitions
    else transitions
  let transitions :=
    if hasCreate then
      let after := afterChange change
      if hasAfterData after then
        transitions ++ [{ Change := after, Action := "create".toList, Multiplier := 1 }]
      else transitions
    else transitions
  if transitions.length > 0 then transitions
  else
    let transitions :=
      if hasUpdate then
        let before := beforeChange change
        let transitions :=
          if hasBeforeData before then
            transitions ++ [{ Change := before, Action := "update".toList, Multiplier := -1 }]
          else transitions
        let after := afterChange change
        let transitions :=
          if hasAfterData after then
            transitions ++ [{ Change := after, Action := "update".toList, Multiplier := 1 }]
          else transitions
        transitions
      else transitions
    if transitions.length = 0 then [] else transitions

/-! ## Package `estimate`: rows, totals and `Build` -/

/-- Go `estimate.Row`; `Typ` is the Go field `Type`. -/
structure Row where
  Address : Str := []
  Typ : Str := []
  Action : Str := []
  SKU : Str := []
  KgCO2eMonth : ℚ := 0
  KgCO2eKnown : Bool := false
  M3WaterMonth : ℚ := 0
  M3WaterKnown : Bool := false
  deriving DecidableEq

/-- Go `estimate.UnsupportedResource`. -/
structure UnsupportedResource where
  Address : Str := []
  Code : Str := []
  Reason : Str := []
  deriving DecidableEq

/-- Go `estimate.Totals`. -/
structure Totals where
  KgCO2eMonth : ℚ := 0
  KgCO2eKnown : Bool := false
  M3WaterMonth : ℚ := 0
  M3WaterKnown : Bool := false
  UnknownRows : Int := 0
  deriving DecidableEq

/-- Go `estimate.Report`. -/
structure Report where
  Rows : List Row := []
  Unsupported : List UnsupportedResource := []
  Totals : Totals := {}
  deriving DecidableEq

/-- Go constant `monthlyHours`. -/
def monthlyHours : ℚ := 730

/-- Go `normalizeQtyByUnitSize`; `float64(size)` rounds the `uint64`. -/
def normalizeQtyByUnitSize (fl : ℚ → ℚ) (qty : ℚ) (size : Nat) : ℚ :=
  if size = 0 ∨ size = 1 then qty else fl (qty / fl (size : ℚ))

/-- Go `unitToMonthMultiplier`; the constant `1.0 / 12.0` is rounded once. -/
def unitToMonthMultiplier (T : CaseTables) (fl : ℚ → ℚ) (unit : Str) : ℚ :=
  let u := ToLower T unit
  if u = "hour".toList then monthlyHours
  else if u = "month".toList then 1
  else if u = "year".toList then fl (1 / 12)
  else 1

/-- Go `rowFromProduct`. -/
def rowFromProduct (T : CaseTables) (fl : ℚ → ℚ) (change : ResourceChange) (action : Str)
    (multiplier qty : ℚ) (product : Product) : Row :=
  let billedQty := normalizeQtyByUnitSize fl qty product.UnitOfMeasure.Size
  let (kg, kgKnown) : ℚ × Bool :=
    match product.EnvironmentalImpactEstimation with
    | some est =>
      match est.KgCO2Equivalent with
      | some v => (v, true)
      | none => (0, false)
    | none => (0, false)
  let (m3, m3Known) : ℚ × Bool :=
    match product.EnvironmentalImpactEstimation with
    | some est =>
      match est.M3WaterUsage with
      | some v => (v, true)
      | none => (0, false)
    | none => (0, false)
  let unitMultiplier := unitToMonthMultiplier T fl product.UnitOfMeasure.Unit
  { Address := change.Address
    Typ := change.Typ
    Action := action
    SKU := product.SKU
    KgCO2eMonth := fl (fl (fl (kg * billedQty) * unitMultiplier) * multiplier)
    KgCO2eKnown := kgKnown
    M3WaterMonth := fl (fl (fl (m3 * billedQty) * unitMultiplier) * multiplier)
    M3WaterKnown := m3Known }

/-- Go `rowsFromMatch`. With no matches it reads `*match.Product`; `Build` calls
it only when that pointer is set, and the nil case, where Go panics, is `[]`. -/
def rowsFromMatch (T : CaseTables) (fl : ℚ → ℚ) (change : ResourceChange) (action : Str)
    (multiplier : ℚ) (result : Result) : List Row :=
  if result.Matches.length = 0 then
    match result.Product with
    | some product => [rowFromProduct T fl change action multiplier result.Qty product]
    | none => []
  else
    result.Matches.map fun m => rowFromProduct T fl change action multiplier m.Qty m.Product

/-- Go `unsupportedFromError`; `err` is `none` for a nil error, and every
non-nil error `Resolve` returns is a `*mapping.Error`. -/
def unsupportedFromError (address : Str) (err : Option Error) : UnsupportedResource :=
  let unsupported : UnsupportedResource :=
    { Address := address
      Code := ErrorCode.NoCatalogMatch.toStr
      Reason := "no matching catalog product".toList }
  match err with
  | some mappingErr =>
    { unsupported with Code := mappingErr.Code.toStr, Reason := mappingErr.Reason }
  | none => unsupported

/-- The variables of `Build` that its loops update: the report and the two
counters `unknownKgRows` and `unknownWaterRows`. The counters hold whole
numbers, which a `float64` holds exactly below `2 ^ 53`, and are not rounded. -/
structure BuildState where
  report : Report := {}
  unknownKgRows : ℚ := 0
  unknownWaterRows : ℚ := 0
  deriving DecidableEq

/-- Body of the loop `for _, row := range rows` of `Build`. -/
def buildRow (fl : ℚ → ℚ) (st : BuildState) (row : Row) : BuildState :=
  let report := { st.report with Rows := st.report.Rows ++ [row] }
  let report :=
    if row.KgCO2eKnown then
      { report with Totals := { report.Totals with
          KgCO2eMonth := fl (report.Totals.KgCO2eMonth + row.KgCO2eMonth) } }
    else report
  let report :=
    if row.M3WaterKnown then
      { report with Totals := { report.Totals with
          M3WaterMonth := fl (report.Totals.M3WaterMonth + row.M3WaterMonth) } }
    else report
  let report :=
    if !row.KgCO2eKnown || !row.M3WaterKnown then
      { report with Totals := { report.Totals with UnknownRows := report.Totals.UnknownRows + 1 } }
    else report
  let unknownKgRows := if !row.KgCO2eKnown then st.unknownKgRows + 1 else st.unknownKgRows
  let unknownWaterRows :=
    if !row.M3WaterKnown then st.unknownWaterRows + 1 else st.unknownWaterRows
  { report := report, unknownKgRows := unknownKgRows, unknownWaterRows := unknownWaterRows }

/-- Body of the loop `for _, transition := range transitions` of `Build`, for a
transition of `change`. -/
def buildTransition (T : CaseTables) (fl : ℚ → ℚ) (products : List Product)
    (change : ResourceChange) (st : BuildState) (transition : actionTransition) : BuildState :=
  match Resolve T transition.Change products with
  | .error err =>
    { st with report := { st.report with
        Unsupported := st.report.Unsupported ++ [unsupportedFromError change.Address (some err)] } }
  | .ok result =>
    if result.Product = none ∧ result.Matches.length = 0 then
      { st with report := { st.report with
          Unsupported := st.report.Unsupported ++ [unsupportedFromError change.Address none] } }
    else
      (rowsFromMatch T fl transition.Change transition.Action transition.Multiplier
        result).foldl (buildRow fl) st

/-- Body of the loop `for _, change := range changes` of `Build`. -/
def buildChange (T : CaseTables) (fl : ℚ → ℚ) (products : List Product) (st : BuildState)
    (change : ResourceChange) : BuildState :=
  (actionTransitions change).foldl (buildTransition T fl products change) st

/-- Go `Build`. -/
def Build (T : CaseTables) (fl : ℚ → ℚ) (changes : List ResourceChange)
    (products : List Product) : Report :=
  let st := changes.foldl (buildChange T fl products) {}
  { st.report with Totals := { st.report.Totals with
      KgCO2eKnown := st.unknownKgRows == 0
      M3WaterKnown := st.unknownWaterRows == 0 } }

/-! ## Package `strx` -/

/-- The loop of Go `strings.FieldsFunc` over the runes of the string: `field` is
the field begun and not yet closed (`start >= 0` in the Go code), `none` when
the last rune read was a separator or no rune has been read. -/
def fieldsLoop (f : Char → Bool) : Str → Option Str → List Str
  | [], none => []
  | [], some field => [field]
  | c :: cs, none => if f c then fieldsLoop f cs none else fieldsLoop f cs (some [c])
  | c :: cs, some field =>
    if f c then field :: fieldsLoop f cs none else fieldsLoop f cs (some (field ++ [c]))

/-- Go `strings.FieldsFunc`: the maximal runs of runes that do not satisfy `f`. -/
def FieldsFunc (s : Str) (f : Char → Bool) : List Str := fieldsLoop f s none

/-- Body of the loop `for _, value := range values` of `ParseCSV`. -/
def parseCSVValue (out : List Str) (value : Str) : List Str :=
  (FieldsFunc value fun r => r == ',').foldl
    (fun out part =>
      let part := TrimSpace part
      if part = [] then out else out ++ [part])
    out

/-- Go `strx.ParseCSV`; `none` is the nil slice, `some out` a non-nil one. -/
def ParseCSV (values : List Str) : Option (List Str) :=
  let out := values.foldl parseCSVValue []
  if out.length = 0 then none else some out

/-! ## Statements taken from the specification -/

/-- An entry passes the filters of `findBestProduct`: the category filter, the
locality filter and, when the token is required, the token match. -/
def passesFilters (T : CaseTables) (matchResource : Product → Bool)
    (zone region typeToken : Str) (requireType : Bool) (p : Product) : Bool :=
  matchResource p && (scoreLocality T p zone region).2 &&
    (!requireType || matchesToken T p typeToken)

/-- Score of an entry: its locality score, plus 100 when the non-empty token is
found in the product. -/
def candidateScore (T : CaseTables) (zone region typeToken : Str) (p : Product) : Int :=
  (scoreLocality T p zone region).1 +
    (if typeToken ≠ [] ∧ matchesToken T p typeToken = true then 100 else 0)

/-- The string `v` with every `'-'`, `'_'`, space and `'/'` removed and nothing
else touched. -/
def stripSeparators (v : Str) : Str :=
  v.filter fun c => c != '-' && c != '_' && c != ' ' && c != '/'

/-- The attribute set `Resolve` reads: `after` if non-empty, else `before`. -/
def applicableAttrs (c : ResourceChange) : Attrs :=
  if c.After.length = 0 then c.Before else c.After

/-- The zone `Resolve` asks for: the `zone` attribute, or the plan-level zone
when the attribute gives no non-empty string. -/
def requestedZone (c : ResourceChange) : Str :=
  if getString (applicableAttrs c) "zone".toList = [] then c.Zone
  else getString (applicableAttrs c) "zone".toList

/-- The region `Resolve` asks for: the `region` attribute, or the plan-level
region when the attribute gives no non-empty string. -/
def requestedRegion (c : ResourceChange) : Str :=
  if getString (applicableAttrs c) "region".toList = [] then c.Region
  else getString (applicableAttrs c) "region".toList

/-- The trimmed string under `key` in the applicable attribute set. -/
def rawAttr (c : ResourceChange) (key : Str) : Str :=
  TrimSpace (getString (applicableAttrs c) key)

/-- The resource types that have a mapping rule. -/
def supportedTypes : List Str :=
  ["scaleway_instance_server".toList, "scaleway_baremetal_server".toList,
   "scaleway_k8s_pool".toList, "scaleway_lb".toList, "scaleway_block_volume".toList,
   "scaleway_rdb_instance".toList, "scaleway_redis_cluster".toList]

/-- The resource types resolved to a single product. -/
def singleProductTypes : List Str :=
  ["scaleway_instance_server".toList, "scaleway_baremetal_server".toList,
   "scaleway_k8s_pool".toList, "scaleway_lb".toList, "scaleway_block_volume".toList,
   "scaleway_rdb_instance".toList]

/-- Column "required attr" of the dispatch table. -/
def requiredAttribute (typ : Str) : Option Str :=
  if typ = "scaleway_instance_server".toList ∨ typ = "scaleway_lb".toList then
    some "type".toList
  else if typ = "scaleway_k8s_pool".toList ∨ typ = "scaleway_rdb_instance".toList ∨
      typ = "scaleway_redis_cluster".toList then
    some "node_type".toList
  else none

/-- Column "category filter" of the dispatch table, for the single-product rules. -/
def ruleFilter (T : CaseTables) (typ : Str) : Product → Bool :=
  if typ = "scaleway_instance_server".toList ∨ typ = "scaleway_k8s_pool".toList then
    isInstanceProduct T
  else if typ = "scaleway_baremetal_server".toList then isBaremetalProduct T
  else if typ = "scaleway_lb".toList then isLoadBalancerProduct T
  else if typ = "scaleway_block_volume".toList then isBlockStorageProduct T
  else isRDBProduct T

/-- The attribute a rule takes its type token from; `""` for block volume,
which uses none. -/
def ruleTokenKey (typ : Str) : Str :=
  if typ = "scaleway_instance_server".toList ∨ typ = "scaleway_baremetal_server".toList ∨
      typ = "scaleway_lb".toList then "type".toList
  else if typ = "scaleway_block_volume".toList then []
  else "node_type".toList

/-- Column "type token used" of the dispatch table. -/
def ruleToken (T : CaseTables) (c : ResourceChange) : Str :=
  if c.Typ = "scaleway_lb".toList then normalizeLoadBalancerType T (rawAttr c "type".toList)
  else if c.Typ = "scaleway_block_volume".toList then []
  else normalizeToken T (rawAttr c (ruleTokenKey c.Typ))

/-- Column "quantity source" of the dispatch table, for the single-product rules. -/
def ruleQty (c : ResourceChange) : ℚ :=
  if c.Typ = "scaleway_k8s_pool".toList then getFloat (applicableAttrs c) "size".toList 1
  else if c.Typ = "scaleway_block_volume".toList then
    getFloat (applicableAttrs c) "size_in_gb".toList 1
  else 1

/-- Reason of a `no_catalog_match` error in the form
`no catalog match (<attr>=<value>, zone=<zone>, region=<region>)`, where the
zone and the region are named only when non-empty. -/
def noMatchReason (attr value zone region : Str) : Str :=
  "no catalog match (".toList ++ attr ++ "=".toList ++ value ++
    (if zone ≠ [] then ", zone=".toList ++ zone else []) ++
    (if region ≠ [] then ", region=".toList ++ region else []) ++ ")".toList

/-- Reason of a `no_catalog_match` error of a rule that reads no type attribute:
only the non-empty zone and region are named, and nothing follows
`no catalog match` when both are empty. -/
def noMatchReasonUntyped (zone region : Str) : Str :=
  if zone ≠ [] ∧ region ≠ [] then
    "no catalog match (zone=".toList ++ zone ++ ", region=".toList ++ region ++ ")".toList
  else if zone ≠ [] then "no catalog match (zone=".toList ++ zone ++ ")".toList
  else if region ≠ [] then "no catalog match (region=".toList ++ region ++ ")".toList
  else "no catalog match".toList

/-- Two strings are equal up to letter case: rune by rune they have the same
key under simple case folding. -/
def sameFold (T : CaseTables) (a b : Str) : Prop :=
  a.map (foldRune T) = b.map (foldRune T)

instance (T : CaseTables) (a b : Str) : Decidable (sameFold T a b) :=
  inferInstanceAs (Decidable (a.map (foldRune T) = b.map (foldRune T)))

/-- The product is global: its `Global` flag is set and true. -/
def isGlobal (p : Product) : Prop := p.Locality.Global = some true

instance (p : Product) : Decidable (isGlobal p) :=
  inferInstanceAs (Decidable (p.Locality.Global = some true))

/-- Locality score for a requested zone `z` read from the specification with
`equals` as plain string equality and no guard on empty regions. -/
def scoreLocalityZoneClaimed (T : CaseTables) (p : Product) (z r : Str) : Int × Bool :=
  if p.Locality.Zone = z then (50, true)
  else if p.Locality.Region = regionFromZone T z then (35, true)
  else if p.Locality.Region = r then (35, true)
  else if regionFromZone T p.Locality.Zone = regionFromZone T z then (30, true)
  else if isGlobal p then (5, true)
  else (0, false)

/-- Locality score for a requested region `r` and no zone, read from the
specification with `equals` as plain string equality. -/
def scoreLocalityRegionClaimed (T : CaseTables) (p : Product) (r : Str) : Int × Bool :=
  if p.Locality.Region = r then (40, true)
  else if regionFromZone T p.Locality.Zone = r then (35, true)
  else if isGlobal p then (5, true)
  else (0, false)

/-- The product is accepted through a match of its zone with the requested zone. -/
def zoneMatch (T : CaseTables) (p : Product) (zone : Str) : Prop :=
  zone ≠ [] ∧ sameFold T p.Locality.Zone zone

instance (T : CaseTables) (p : Product) (zone : Str) : Decidable (zoneMatch T p zone) :=
  inferInstanceAs (Decidable (zone ≠ [] ∧ sameFold T p.Locality.Zone zone))

/-- The product is accepted through a region: its region, or the region derived
from its zone, is the requested region or the region derived from the
requested zone. -/
def regionMatch (T : CaseTables) (p : Product) (zone region : Str) : Prop :=
  if zone ≠ [] then
    (regionFromZone T zone ≠ [] ∧ sameFold T p.Locality.Region (regionFromZone T zone)) ∨
    (region ≠ [] ∧ sameFold T p.Locality.Region region) ∨
    (regionFromZone T zone ≠ [] ∧
      sameFold T (regionFromZone T p.Locality.Zone) (regionFromZone T zone))
  else
    region ≠ [] ∧ (sameFold T p.Locality.Region region ∨
      sameFold T (regionFromZone T p.Locality.Zone) region)

instance (T : CaseTables) (p : Product) (zone region : Str) :
    Decidable (regionMatch T p zone region) :=
  inferInstanceAs (Decidable (if zone ≠ [] then
    (regionFromZone T zone ≠ [] ∧ sameFold T p.Locality.Region (regionFromZone T zone)) ∨
    (region ≠ [] ∧ sameFold T p.Locality.Region region) ∨
    (regionFromZone T zone ≠ [] ∧
      sameFold T (regionFromZone T p.Locality.Zone) (regionFromZone T zone))
  else
    region ≠ [] ∧ (sameFold T p.Locality.Region region ∨
      sameFold T (regionFromZone T p.Locality.Zone) region)))

/-- What the state `(bestIndex, bestScore)` of `findBestProduct` stands for once
the entries `pre` have been visited: either no entry of `pre` passes and
`bestIndex` is `-1`, or `bestIndex` points at a passing entry of `products`
whose score is `bestScore` and which no passing entry of `pre` beats. -/
def BestSoFar (T : CaseTables) (products : List Product) (matchResource : Product → Bool)
    (zone region typeToken : Str) (requireType : Bool) (pre : List Product)
    (best : Int × Int) : Prop :=
  (best.1 = -1 ∧ ∀ q ∈ pre, passesFilters T matchResource zone region typeToken requireType q = false)
  ∨ ∃ (k : Nat) (p : Product), best.1 = (k : Int) ∧ products[k]? = some p ∧ p ∈ pre ∧
      passesFilters T matchResource zone region typeToken requireType p = true ∧
      best.2 = candidateScore T zone region typeToken p ∧
      ∀ q ∈ pre, passesFilters T matchResource zone region typeToken requireType q = true →
        candidateScore T zone region typeToken q ≤ candidateScore T zone region typeToken p ∧
        (candidateScore T zone region typeToken q = candidateScore T zone region typeToken p →
          Compare p.SKU q.SKU ≤ 0)

/-! ## Catalog entries used in the examples -/

/-- Instance SKU in zone `fr-par-2`. -/
def instPar2 : Product :=
  { SKU := "/compute/pop2_hc_2c_4g/run_fr-par-2".toList
    ProductCategory := "instances".toList
    Locality := { Zone := "fr-par-2".toList } }

/-- A second instance SKU in zone `fr-par-2`, with the same type and a larger SKU. -/
def instPar2b : Product :=
  { SKU := "/compute/pop2_hc_2c_4g/run_fr-par-2b".toList
    ProductCategory := "instances".toList
    Locality := { Zone := "fr-par-2".toList } }

/-- The same instance type offered in region `fr-par`. -/
def instParRegion : Product :=
  { SKU := "/compute/pop2_hc_2c_4g/run_fr-par".toList
    ProductCategory := "instances".toList
    Locality := { Region := "fr-par".toList } }

/-- The same instance type offered globally. -/
def instGlobal : Product :=
  { SKU := "/compute/pop2_hc_2c_4g/run_global".toList
    ProductCategory := "instances".toList
    Locality := { Global := some true } }

/-- Load balancer SKU of the repository test. -/
def lbPar1 : Product :=
  { SKU := "/network/lb/lb-s/fr-par-1".toList
    ProductCategory := "load_balancer".toList
    Locality := { Zone := "fr-par-1".toList }
    Product := "Load Balancer S".toList }

/-- An ASCII letter or digit. -/
def isAlnumChar (c : Char) : Bool :=
  (48 ≤ c.toNat && c.toNat ≤ 57) || (65 ≤ c.toNat && c.toNat ≤ 90) ||
    (97 ≤ c.toNat && c.toNat ≤ 122)

/-- One of the separators `'-'`, `'_'`, space and `'/'`. -/
def isSeparator (c : Char) : Bool :=
  c == '-' || c == '_' || c == ' ' || c == '/'

/-- An ASCII letter, a digit or a separator. -/
def isTokenChar (c : Char) : Bool := isAlnumChar c || isSeparator c

/-- An ASCII letter, a digit, `'-'` or `'_'`. -/
def isTypeChar (c : Char) : Bool := isAlnumChar c || c == '-' || c == '_'

/-- The string with the separators deleted and ASCII letters in lower case:
what is left of it "after deleting the separators and ignoring letter case". -/
def tokenKey (v : Str) : Str := (stripSeparators v).map asciiLower

/-- The number held by an attribute value, as a `float64`: a `float64` is
itself, an `int` is the `float64` nearest to it; `fallback` when the attribute
is absent, null or not a number. -/
def numberOr (v : Option Value) (fallback : ℚ) : ℚ :=
  match v with
  | some (.float x) => x
  | some (.int n) => float64OfInt n
  | _ => fallback

/-- The SKU path segment of a redis node role. -/
def redisRolePath (role : Str) : Str :=
  "/storage/redis/".toList ++ role ++ "/".toList

/-- A catalog entry matches a redis node role: its lower-cased SKU contains the
role segment and it passes the redis category filter, the locality filter and
the token match. -/
def redisRoleMatches (T : CaseTables) (role zone region token : Str) (p : Product) : Bool :=
  Contains (ToLower T p.SKU) (redisRolePath role) &&
    passesFilters T (isRedisProduct T) zone region token true p

/-- The redis node count of a change: `cluster_size`, default 1, through
`normalizeCount`. -/
def nodeCount (c : ResourceChange) : Int :=
  normalizeCount (getFloat (applicableAttrs c) "cluster_size".toList 1)

/-- The delete transition of a change. -/
def deleteTransition (c : ResourceChange) : actionTransition :=
  { Change := { c with After := [] }, Action := "delete".toList, Multiplier := -1 }

/-- The create transition of a change. -/
def createTransition (c : ResourceChange) : actionTransition :=
  { Change := { c with Before := [] }, Action := "create".toList, Multiplier := 1 }

/-- The "before" half of an update. -/
def updateBeforeTransition (c : ResourceChange) : actionTransition :=
  { Change := { c with After := [] }, Action := "update".toList, Multiplier := -1 }

/-- The "after" half of an update. -/
def updateAfterTransition (c : ResourceChange) : actionTransition :=
  { Change := { c with Before := [] }, Action := "update".toList, Multiplier := 1 }

/-- Elastic Metal SKU in zone `fr-par-1`. -/
def emPar1 : Product :=
  { SKU := "/elastic-metal/em-b112x-ssd/fr-par-1".toList
    ProductCategory := "elastic_metal".toList
    Locality := { Zone := "fr-par-1".toList } }

/-- A block-storage entry recognised by its category only. -/
def blockByCategory : Product :=
  { SKU := "/volumes/b_ssd/fr-par-1".toList
    ProductCategory := "block_storage".toList
    Locality := { Zone := "fr-par-1".toList } }

/-- Control-plane SKU of the repository test. -/
def kapsuleControlPlane : Product :=
  { SKU := "/kubernetes/kapsule/control-plane/fr-par".toList
    ProductCategory := "kubernetes".toList
    Locality := { Region := "fr-par".toList }
    Product := "Kapsule Control Plane".toList }

/-- A control-plane SKU filed under the category `instance`, in the region of
the repository test. -/
def controlPlaneInstance : Product :=
  { SKU := "/kubernetes/kapsule/control-plane/dev1-m/fr-par".toList
    ProductCategory := "instance".toList
    Locality := { Region := "fr-par".toList }
    Product := "Kapsule Control Plane".toList }

/-- Node SKU of the repository test. -/
def dev1mPar1 : Product :=
  { SKU := "/compute/dev1_m/run_par1".toList
    ProductCategory := "instances".toList
    Locality := { Zone := "fr-par-1".toList }
    Product := "DEV1-M".toList }

/-- Redis main-node SKU of the repository test. -/
def redisMain : Product :=
  { SKU := "/storage/redis/main-node/RED1-micro/fr-par-1".toList
    ProductCategory := "instance".toList
    Locality := { Zone := "fr-par-1".toList }
    Product := "Redis RED1-MICRO".toList }

/-- Redis additional-node SKU of the repository test. -/
def redisAdditional : Product :=
  { SKU := "/storage/redis/additional-node/RED1-micro/fr-par-1".toList
    ProductCategory := "instance".toList
    Locality := { Zone := "fr-par-1".toList }
    Product := "Redis RED1-MICRO".toList }

/-- A redis cluster change of the given size, as in the repository test. -/
def redisChange (size : ℚ) : ResourceChange :=
  { Typ := "scaleway_redis_cluster".toList
    After := [("zone".toList, .str "fr-par-1".toList),
              ("node_type".toList, .str "RED1-MICRO".toList),
              ("cluster_size".toList, .float size)] }

/-- A redis cluster of one node whose `node_type` is the string `-`. -/
def redisDash : ResourceChange :=
  { Typ := "scaleway_redis_cluster".toList
    After := [("zone".toList, .str "fr-par-1".toList),
              ("node_type".toList, .str "-".toList),
              ("cluster_size".toList, .float 1)] }

/-- Sum of `KgCO2eMonth` over the rows whose kg metric is known: the values are
added one at a time in row order, starting from 0, each sum rounded by `fl`. -/
def sumKnownKg (fl : ℚ → ℚ) (rows : List Row) : ℚ :=
  (rows.filter fun r => r.KgCO2eKnown).foldl (fun acc r => fl (acc + r.KgCO2eMonth)) 0

/-- Sum of `M3WaterMonth` over the rows whose water metric is known, added in the
same way. -/
def sumKnownM3 (fl : ℚ → ℚ) (rows : List Row) : ℚ :=
  (rows.filter fun r => r.M3WaterKnown).foldl (fun acc r => fl (acc + r.M3WaterMonth)) 0

/-- Number of rows with at least one unknown metric. -/
def countUnknown (rows : List Row) : Nat :=
  rows.countP fun r => !r.KgCO2eKnown || !r.M3WaterKnown

/-- Number of rows whose kg metric is unknown. -/
def countKgUnknown (rows : List Row) : Nat := rows.countP fun r => !r.KgCO2eKnown

/-- Number of rows whose water metric is unknown. -/
def countM3Unknown (rows : List Row) : Nat := rows.countP fun r => !r.M3WaterKnown

/-- The rows one transition adds to the report: those of its match, none when
`Resolve` fails. -/
def transitionRows (T : CaseTables) (fl : ℚ → ℚ) (products : List Product)
    (t : actionTransition) : List Row :=
  match Resolve T t.Change products with
  | .error _ => []
  | .ok result =>
    if result.Product = none ∧ result.Matches.length = 0 then []
    else rowsFromMatch T fl t.Change t.Action t.Multiplier result

/-- The Unsupported entries one transition adds to the report: one when
`Resolve` fails, none otherwise. -/
def transitionUnsupported (T : CaseTables) (products : List Product) (address : Str)
    (t : actionTransition) : List UnsupportedResource :=
  match Resolve T t.Change products with
  | .error err => [unsupportedFromError address (some err)]
  | .ok result =>
    if result.Product = none ∧ result.Matches.length = 0 then
      [unsupportedFromError address none]
    else []

/-- The rows one change adds to the report, transition by transition. -/
def changeRows (T : CaseTables) (fl : ℚ → ℚ) (products : List Product) (c : ResourceChange) :
    List Row :=
  (actionTransitions c).flatMap (transitionRows T fl products)

/-- The Unsupported entries one change adds to the report. -/
def changeUnsupported (T : CaseTables) (products : List Product) (c : ResourceChange) :
    List UnsupportedResource :=
  (actionTransitions c).flatMap (transitionUnsupported T products c.Address)

/-- The state of `Build` determined by the rows and Unsupported entries added
so far. -/
def stateOf (fl : ℚ → ℚ) (rows : List Row) (unsupported : List UnsupportedResource) :
    BuildState :=
  { report :=
      { Rows := rows
        Unsupported := unsupported
        Totals :=
          { KgCO2eMonth := sumKnownKg fl rows
            KgCO2eKnown := false
            M3WaterMonth := sumKnownM3 fl rows
            M3WaterKnown := false
            UnknownRows := (countUnknown rows : Int) } }
    unknownKgRows := (countKgUnknown rows : ℚ)
    unknownWaterRows := (countM3Unknown rows : ℚ) }

/-- The report determined by its rows and Unsupported entries. -/
def reportOf (fl : ℚ → ℚ) (rows : List Row) (unsupported : List UnsupportedResource) :
    Report :=
  { Rows := rows
    Unsupported := unsupported
    Totals :=
      { KgCO2eMonth := sumKnownKg fl rows
        KgCO2eKnown := decide (countKgUnknown rows = 0)
        M3WaterMonth := sumKnownM3 fl rows
        M3WaterKnown := decide (countM3Unknown rows = 0)
        UnknownRows := (countUnknown rows : Int) } }

/-- Instance product of the estimator tests: billed per hour, with both
footprint rates. -/
def dev1mHour : Product :=
  { SKU := "/compute/dev1_m/test".toList
    ProductCategory := "instances".toList
    Locality := { Zone := "fr-par-2".toList }
    UnitOfMeasure := { Unit := "hour".toList, Size := 1 }
    EnvironmentalImpactEstimation :=
      some { KgCO2Equivalent := some (1 / 1000), M3WaterUsage := some (1 / 1000000) } }

/-- Instance product of the estimator tests with no footprint data. -/
def dev1mNoFootprint : Product :=
  { SKU := "/compute/dev1_m/test-no-footprint".toList
    ProductCategory := "instances".toList
    Locality := { Zone := "fr-par-2".toList }
    UnitOfMeasure := { Unit := "hour".toList, Size := 1 } }

/-- Instance product of the estimator tests with a carbon rate and no water
rate. -/
def dev1mKgOnly : Product :=
  { SKU := "/compute/dev1_m/test".toList
    ProductCategory := "instances".toList
    Locality := { Zone := "fr-par-2".toList }
    UnitOfMeasure := { Unit := "hour".toList, Size := 1 }
    EnvironmentalImpactEstimation := some { KgCO2Equivalent := some (1 / 1000) } }

/-- Block storage product of the estimator tests: billed per month in bundles
of 100, carbon rate 2. -/
def blockSnapshot : Product :=
  { SKU := "/storage/block/snapshot/fr-par-1".toList
    ProductCategory := "block_storage".toList
    Locality := { Zone := "fr-par-1".toList }
    UnitOfMeasure := { Unit := "month".toList, Size := 100 }
    EnvironmentalImpactEstimation := some { KgCO2Equivalent := some 2 } }

/-- A block storage product billed per hour, with carbon rate 1. -/
def blockHourly : Product :=
  { SKU := "/storage/block/hourly/fr-par-1".toList
    ProductCategory := "block_storage".toList
    Locality := { Zone := "fr-par-1".toList }
    UnitOfMeasure := { Unit := "hour".toList, Size := 1 }
    EnvironmentalImpactEstimation := some { KgCO2Equivalent := some 1 } }

/-- The instance server of the estimator tests, with the given actions and the
same attributes before and after where the flags ask for them. -/
def webChange (actions : List Str) (before after : Bool) : ResourceChange :=
  { Address := "scaleway_instance_server.web".toList
    Typ := "scaleway_instance_server".toList
    Actions := actions
    Before := if before then
      [("zone".toList, .str "fr-par-2".toList), ("type".toList, .str "DEV1-M".toList)] else []
    After := if after then
      [("zone".toList, .str "fr-par-2".toList), ("type".toList, .str "DEV1-M".toList)] else [] }

/-- The block volume of the estimator tests: a create of 250 GB. -/
def dataChange : ResourceChange :=
  { Address := "scaleway_block_volume.data".toList
    Typ := "scaleway_block_volume".toList
    Actions := ["create".toList]
    After := [("zone".toList, .str "fr-par-1".toList), ("size_in_gb".toList, .float 250)] }

/-- The matches of a result that `rowsFromMatch` turns into rows: `Matches`, or
the single pair of `Product` and `Qty` when `Matches` is empty. -/
def resultMatches (r : Result) : List Match :=
  if r.Matches.length = 0 then
    match r.Product with
    | some p => [{ Product := p, Qty := r.Qty }]
    | none => []
  else r.Matches

/-- The results of the float64 products that `rowFromProduct` forms before it
applies the multiplier of the transition, for each rate the product has:
`rate * billedQty`, and that times the unit multiplier. The last product, by
the multiplier `1` or `-1`, changes at most the sign. -/
def rowProducts (T : CaseTables) (fl : ℚ → ℚ) (qty : ℚ) (product : Product) : List ℚ :=
  let billedQty := normalizeQtyByUnitSize fl qty product.UnitOfMeasure.Size
  let unitMultiplier := unitToMonthMultiplier T fl product.UnitOfMeasure.Unit
  let rates : List ℚ :=
    match product.EnvironmentalImpactEstimation with
    | some est => est.KgCO2Equivalent.toList ++ est.M3WaterUsage.toList
    | none => []
  rates.flatMap fun v => [fl (v * billedQty), fl (fl (v * billedQty) * unitMultiplier)]

/-- No float64 product behind the row of a match overflows: each stays within
`maxFloat64`, so that the figures of the row are finite. -/
def rowFinite (T : CaseTables) (fl : ℚ → ℚ) (qty : ℚ) (product : Product) : Prop :=
  ∀ x ∈ rowProducts T fl qty product, |x| ≤ maxFloat64

instance (T : CaseTables) (fl : ℚ → ℚ) (qty : ℚ) (product : Product) :
    Decidable (rowFinite T fl qty product) := by
  unfold rowFinite
  infer_instance

/-- Redis main node with the carbon rate 0.1. -/
def redisMainTenth : Product :=
  { redisMain with
    EnvironmentalImpactEstimation := some { KgCO2Equivalent := some (1 / 10) } }

/-- Redis additional node with the carbon rate 0.2. -/
def redisAdditionalFifth : Product :=
  { redisAdditional with
    EnvironmentalImpactEstimation := some { KgCO2Equivalent := some (1 / 5) } }

/-- Redis main node with the carbon rate `2 ^ 53`. -/
def redisMainBig : Product :=
  { redisMain with
    EnvironmentalImpactEstimation := some { KgCO2Equivalent := some 9007199254740992 } }

/-- Redis additional node with the carbon rate 1. -/
def redisAdditionalOne : Product :=
  { redisAdditional with
    EnvironmentalImpactEstimation := some { KgCO2Equivalent := some 1 } }

/-- A replace of a redis cluster of two nodes, with the same attributes before
and after. -/
def redisReplace : ResourceChange :=
  { redisChange 2 with
    Address := "scaleway_redis_cluster.cache".toList
    Actions := ["delete".toList, "create".toList]
    Before := (redisChange 2).After }

/-- Instance product `DEV1-S` of the estimator test on updates, carbon rate
0.001 per hour. -/
def dev1sTest : Product :=
  { SKU := "/compute/dev1_s/test".toList
    ProductCategory := "instances".toList
    Locality := { Zone := "fr-par-2".toList }
    UnitOfMeasure := { Unit := "hour".toList, Size := 1 }
    EnvironmentalImpactEstimation := some { KgCO2Equivalent := some (1 / 1000) } }

/-- Instance product `DEV1-M` of the estimator test on updates, carbon rate
0.002 per hour. -/
def dev1mTest : Product :=
  { SKU := "/compute/dev1_m/test".toList
    ProductCategory := "instances".toList
    Locality := { Zone := "fr-par-2".toList }
    UnitOfMeasure := { Unit := "hour".toList, Size := 1 }
    EnvironmentalImpactEstimation := some { KgCO2Equivalent := some (2 / 1000) } }

/-- The create of a redis cluster of three nodes of the estimator test. -/
def redisCreate : ResourceChange :=
  { redisChange 3 with
    Address := "scaleway_redis_cluster.cache".toList
    Actions := ["create".toList] }

/-- The comma-separated pieces of all the arguments, in argument order and then
left to right, each with the surrounding white space trimmed, the empty ones
dropped. -/
def csvPieces (values : List Str) : List Str :=
  ((values.flatMap fun v => Split v ',').map TrimSpace).filter fun p => p ≠ []

/-- The loop of `findBestProduct` on values: the best entry so far with its
score, `none` while no entry has passed; an entry that passes replaces the best
so far when there is none, when it scores higher, or when it ties with a
smaller SKU. -/
def pickBest (pass : Product → Bool) (score : Product → Int) :
    List Product → Option (Product × Int) → Option (Product × Int)
  | [], best => best
  | x :: xs, best =>
    pickBest pass score xs
      (if pass x = true then
        match best with
        | none => some (x, score x)
        | some (p, s) =>
          if score x > s ∨ (score x = s ∧ Compare x.SKU p.SKU < 0) then some (x, score x)
          else some (p, s)
      else best)

/-- The redis role lookup as the specification puts it: `findBestProduct` over
the whole catalog with the single predicate "the lower-cased SKU contains
`/storage/redis/<role>/`", the role trimmed and lower-cased as the code does. -/
def findBestRedisRoleProductClaimed (T : CaseTables) (products : List Product)
    (role zone region nodeTypeToken : Str) : Option Product :=
  findBestProduct T products
    (fun p => Contains (ToLower T p.SKU) (redisRolePath (ToLower T (TrimSpace role))))
    zone region nodeTypeToken (nodeTypeToken ≠ [])

/-! ## Lemmas on the string functions -/

theorem Compare_self (a : Str) : Compare a a = 0 := by
  induction a with
  | nil => rfl
  | cons c cs ih => simp [Compare, ih]

theorem Compare_neg (a b : Str) : Compare b a = -Compare a b := by
  induction a generalizing b with
  | nil => cases b <;> simp [Compare]
  | cons c cs ih =>
    cases b with
    | nil => simp [Compare]
    | cons d ds =>
      simp only [Compare]
      rcases lt_trichotomy c d with h | h | h
      · simp [h, lt_asymm h]
      · subst h; simp [ih]
      · simp [h, lt_asymm h]

theorem Compare_values (a b : Str) : Compare a b = -1 ∨ Compare a b = 0 ∨ Compare a b = 1 := by
  induction a generalizing b with
  | nil => cases b <;> simp [Compare]
  | cons c cs ih =>
    cases b with
    | nil => simp [Compare]
    | cons d ds =>
      simp only [Compare]
      split
      · simp
      · split
        · simp
        · exact ih ds

theorem Compare_eq_zero {a b : Str} (h : Compare a b = 0) : a = b := by
  induction a generalizing b with
  | nil => cases b <;> simp_all [Compare]
  | cons c cs ih =>
    cases b with
    | nil => simp [Compare] at h
    | cons d ds =>
      simp only [Compare] at h
      split at h
      · simp at h
      · split at h
        · simp at h
        · rename_i h1 h2
          have : c = d := le_antisymm (not_lt.mp h2) (not_lt.mp h1)
          rw [this, ih h]

theorem Compare_lt_trans {a b c : Str} (hab : Compare a b < 0) (hbc : Compare b c ≤ 0) :
    Compare a c < 0 := by
  induction a generalizing b c with
  | nil =>
    cases b with
    | nil => simp [Compare] at hab
    | cons d ds =>
      cases c with
      | nil => simp [Compare] at hbc
      | cons e es => simp [Compare]
  | cons x xs ih =>
    cases b with
    | nil => simp [Compare] at hab
    | cons d ds =>
      cases c with
      | nil => simp [Compare] at hbc
      | cons e es =>
        simp only [Compare] at hab hbc ⊢
        by_cases hxd : x < d
        · by_cases hde : d < e
          · simp [lt_trans hxd hde]
          · by_cases hed : e < d
            · simp [hde, hed] at hbc
            · have : d = e := le_antisymm (not_lt.mp hed) (not_lt.mp hde)
              subst this; simp [hxd]
        · by_cases hdx : d < x
          · simp [hxd, hdx] at hab
          · have : x = d := le_antisymm (not_lt.mp hdx) (not_lt.mp hxd)
            subst this
            simp only [hxd, if_false] at hab
            by_cases hde : x < e
            · simp [hde]
            · by_cases hed : e < x
              · simp [hde, hed] at hbc
              · simp only [hde, hed, if_false] at hbc ⊢
                exact ih hab hbc

theorem EqualFold_iff (T : CaseTables) (a b : Str) :
    EqualFold T a b = true ↔ sameFold T a b := by
  unfold sameFold
  induction a generalizing b with
  | nil => cases b <;> simp [EqualFold]
  | cons c cs ih =>
    cases b with
    | nil => simp [EqualFold]
    | cons d ds => simp [EqualFold, ih]

theorem ReplaceAll_nil_eq_filter (s : Str) (old : Char) :
    ReplaceAll s old [] = s.filter fun c => c != old := by
  induction s with
  | nil => rfl
  | cons c cs ih =>
    by_cases h : c = old
    · simp [ReplaceAll, h, ih]
    · simp [ReplaceAll, h, ih]

/-- The locality score on the zone branch, with every guard of the code. -/
theorem zoneBranch_eq (T : CaseTables) (p : Product) (z r : Str) (hz : z ≠ []) :
    scoreLocality T p z r =
      if sameFold T p.Locality.Zone z then (50, true)
      else if regionFromZone T z ≠ [] ∧ sameFold T p.Locality.Region (regionFromZone T z) then
        (35, true)
      else if r ≠ [] ∧ sameFold T p.Locality.Region r then (35, true)
      else if regionFromZone T z ≠ [] ∧
          sameFold T (regionFromZone T p.Locality.Zone) (regionFromZone T z) then (30, true)
      else if isGlobal p then (5, true)
      else (0, false) := by
  unfold scoreLocality isGlobal
  simp only [hz, ne_eq, not_false_eq_true, if_true, EqualFold_iff]
  simp only [and_comm]

/-- The locality score on the region branch. -/
theorem regionBranch_eq (T : CaseTables) (p : Product) (r : Str) (hr : r ≠ []) :
    scoreLocality T p [] r =
      if sameFold T p.Locality.Region r then (40, true)
      else if sameFold T (regionFromZone T p.Locality.Zone) r then (35, true)
      else if isGlobal p then (5, true)
      else (0, false) := by
  unfold scoreLocality isGlobal
  simp only [hr, ne_eq, not_true_eq_false, not_false_eq_true, if_true, if_false, EqualFold_iff]

theorem Contains_nil (s : Str) : Contains s [] = true := by
  cases s <;> simp [Contains, HasPrefix]

/-! ## The float64 rounding and the conversions between `float64` and `int` -/

theorem log2Floor_spec (fuel n : Nat) (h1 : 1 ≤ n) (hf : n ≤ fuel) :
    2 ^ log2Floor fuel n ≤ n ∧ n < 2 ^ (log2Floor fuel n + 1) := by
  induction fuel generalizing n with
  | zero => omega
  | succ fuel ih =>
    unfold log2Floor
    by_cases h2 : 2 ≤ n
    · rw [if_pos h2]
      obtain ⟨ha, hb⟩ := ih (n / 2) (by omega) (by omega)
      constructor
      · rw [pow_succ]
        have := Nat.div_mul_le_self n 2
        nlinarith
      · rw [pow_succ]
        have := Nat.lt_div_mul_add (a := n) (b := 2) (by norm_num)
        omega
    · rw [if_neg h2]
      have : n = 1 := by omega
      subst this
      simp

theorem binaryExponent_spec (q : ℚ) (hq : 0 < q) :
    (2 : ℚ) ^ binaryExponent q ≤ q ∧ q < (2 : ℚ) ^ (binaryExponent q + 1) := by
  have hnum : 0 < q.num := Rat.num_pos.mpr hq
  have hn1 : 1 ≤ q.num.natAbs := by omega
  have hd1 : 1 ≤ q.den := q.den_pos
  obtain ⟨ha1, ha2⟩ := log2Floor_spec q.num.natAbs q.num.natAbs hn1 le_rfl
  obtain ⟨hb1, hb2⟩ := log2Floor_spec q.den q.den hd1 le_rfl
  have hqe : q = (q.num.natAbs : ℚ) / (q.den : ℚ) := by
    have h := (Rat.num_div_den q).symm
    have hc : (q.num : ℚ) = ((q.num.natAbs : ℕ) : ℚ) := by
      rw [Nat.cast_natAbs, abs_of_pos hnum]
    rw [hc] at h
    exact h
  unfold binaryExponent
  simp only
  generalize log2Floor q.num.natAbs q.num.natAbs = a at ha1 ha2 ⊢
  generalize log2Floor q.den q.den = b at hb1 hb2 ⊢
  have ha1q : (2 : ℚ) ^ a ≤ (q.num.natAbs : ℚ) := by exact_mod_cast ha1
  have ha2q : (q.num.natAbs : ℚ) < (2 : ℚ) ^ (a + 1) := by exact_mod_cast ha2
  have hb1q : (2 : ℚ) ^ b ≤ (q.den : ℚ) := by exact_mod_cast hb1
  have hb2q : (q.den : ℚ) < (2 : ℚ) ^ (b + 1) := by exact_mod_cast hb2
  have hdpos : (0 : ℚ) < (q.den : ℚ) := by exact_mod_cast q.den_pos
  have h2b : (0 : ℚ) < (2 : ℚ) ^ b := by positivity
  -- bounds on q
  have hlow : (2 : ℚ) ^ ((a : ℤ) - (b : ℤ) - 1) < q := by
    rw [hqe, lt_div_iff₀ hdpos]
    have : (2 : ℚ) ^ ((a : ℤ) - (b : ℤ) - 1) * (2 : ℚ) ^ (b + 1) = (2 : ℚ) ^ a := by
      rw [← zpow_natCast (2 : ℚ) (b + 1), ← zpow_add₀ (by norm_num : (2 : ℚ) ≠ 0),
        ← zpow_natCast (2 : ℚ) a]
      congr 1
      push_cast
      ring
    calc (2 : ℚ) ^ ((a : ℤ) - (b : ℤ) - 1) * (q.den : ℚ)
        < (2 : ℚ) ^ ((a : ℤ) - (b : ℤ) - 1) * (2 : ℚ) ^ (b + 1) := by
          apply mul_lt_mul_of_pos_left hb2q
          positivity
      _ = (2 : ℚ) ^ a := this
      _ ≤ _ := ha1q
  have hhigh : q < (2 : ℚ) ^ ((a : ℤ) - (b : ℤ) + 1) := by
    rw [hqe, div_lt_iff₀ hdpos]
    have : (2 : ℚ) ^ ((a : ℤ) - (b : ℤ) + 1) * (2 : ℚ) ^ b = (2 : ℚ) ^ (a + 1) := by
      rw [← zpow_natCast (2 : ℚ) b, ← zpow_add₀ (by norm_num : (2 : ℚ) ≠ 0),
        ← zpow_natCast (2 : ℚ) (a + 1)]
      congr 1
      push_cast
      ring
    calc (q.num.natAbs : ℚ) < (2 : ℚ) ^ (a + 1) := ha2q
      _ = (2 : ℚ) ^ ((a : ℤ) - (b : ℤ) + 1) * (2 : ℚ) ^ b := this.symm
      _ ≤ (2 : ℚ) ^ ((a : ℤ) - (b : ℤ) + 1) * (q.den : ℚ) := by
          apply mul_le_mul_of_nonneg_left hb1q
          positivity
  split
  · next hlt =>
    refine ⟨hlow.le, ?_⟩
    simpa using hlt
  · next hge =>
    exact ⟨not_lt.mp hge, hhigh⟩

theorem roundHalfEven_floor_le (q : ℚ) : ⌊q⌋ ≤ roundHalfEven q := by
  unfold roundHalfEven
  simp only
  split_ifs <;> omega

theorem roundHalfEven_intCast (n : ℤ) : roundHalfEven (n : ℚ) = n := by
  unfold roundHalfEven
  simp

theorem roundFloat64_neg (x : ℚ) : roundFloat64 (-x) = -roundFloat64 x := by
  unfold roundFloat64
  rcases lt_trichotomy x 0 with h | h | h
  · have h1 : ¬ (-x = 0) := by linarith [h]
    have h1' : -x ≠ 0 := h1
    have h2 : ¬ (x = 0) := ne_of_lt h
    have h3 : ¬ (-x < 0) := by linarith
    simp [h1', h2, h3, h]
  · subst h; simp
  · have h1 : -x ≠ 0 := by intro h0; linarith
    have h2 : x ≠ 0 := ne_of_gt h
    have h3 : -x < 0 := by linarith
    have h4 : ¬ (x < 0) := by linarith
    simp [h1, h2, h3, h4]

/-- A value of the normal range does not round to zero. -/
theorem roundFloat64_pos (x : ℚ) (hx : (2 : ℚ) ^ (-1022 : ℤ) ≤ x) : 0 < roundFloat64 x := by
  have hpos : 0 < x := lt_of_lt_of_le (by positivity) hx
  obtain ⟨he1, he2⟩ := binaryExponent_spec x hpos
  have hege : (-1022 : ℤ) ≤ binaryExponent x := by
    by_contra hlt
    push_neg at hlt
    have : (2 : ℚ) ^ (binaryExponent x + 1) ≤ (2 : ℚ) ^ (-1022 : ℤ) :=
      zpow_le_zpow_right₀ (by norm_num) (by omega)
    linarith
  unfold roundFloat64
  rw [if_neg (ne_of_gt hpos), abs_of_pos hpos]
  simp only
  rw [if_neg (by linarith)]
  have hk : max (binaryExponent x - 52) (-1074) = binaryExponent x - 52 := by
    apply max_eq_left; omega
  rw [hk]
  have h2k : (0 : ℚ) < (2 : ℚ) ^ (binaryExponent x - 52) := by positivity
  apply mul_pos _ h2k
  have hv : (1 : ℚ) ≤ x / (2 : ℚ) ^ (binaryExponent x - 52) := by
    rw [le_div_iff₀ h2k, one_mul]
    refine le_trans ?_ he1
    exact zpow_le_zpow_right₀ (by norm_num) (by omega)
  have hfl : (1 : ℤ) ≤ ⌊x / (2 : ℚ) ^ (binaryExponent x - 52)⌋ := by
    rw [Int.le_floor]; exact_mod_cast hv
  have := roundHalfEven_floor_le (x / (2 : ℚ) ^ (binaryExponent x - 52))
  have h1 : (1 : ℤ) ≤ roundHalfEven (x / (2 : ℚ) ^ (binaryExponent x - 52)) := le_trans hfl this
  have : (0 : ℚ) < (roundHalfEven (x / (2 : ℚ) ^ (binaryExponent x - 52)) : ℚ) := by
    exact_mod_cast (by omega : (0 : ℤ) < roundHalfEven (x / (2 : ℚ) ^ (binaryExponent x - 52)))
  exact this

theorem roundHalfEven_le_floor_succ (q : ℚ) : roundHalfEven q ≤ ⌊q⌋ + 1 := by
  unfold roundHalfEven
  simp only
  split_ifs <;> omega

theorem roundFloat64_zero : roundFloat64 0 = 0 := by
  simp [roundFloat64]

/-- A positive rational of the form `n * 2 ^ k` with `n ≤ 2 ^ 53` and
`-1074 ≤ k` is a binary64 value: rounding leaves it as it is. -/
theorem roundFloat64_of_significand (n : ℤ) (k : ℤ) (hn0 : 0 < n) (hn : n ≤ 2 ^ 53)
    (hk : -1074 ≤ k) : roundFloat64 ((n : ℚ) * 2 ^ k) = (n : ℚ) * 2 ^ k := by
  have h2k : (0 : ℚ) < (2 : ℚ) ^ k := by positivity
  have hnq : (0 : ℚ) < (n : ℚ) := by exact_mod_cast hn0
  have hy : (0 : ℚ) < (n : ℚ) * 2 ^ k := mul_pos hnq h2k
  obtain ⟨he1, he2⟩ := binaryExponent_spec _ hy
  generalize hE : binaryExponent ((n : ℚ) * 2 ^ k) = e at he1 he2
  have hup : (n : ℚ) * 2 ^ k ≤ (2 : ℚ) ^ (53 + k) := by
    rw [zpow_add₀ (by norm_num : (2 : ℚ) ≠ 0)]
    apply mul_le_mul_of_nonneg_right _ h2k.le
    have : (n : ℚ) ≤ ((2 ^ 53 : ℤ) : ℚ) := by exact_mod_cast hn
    norm_num at this ⊢
    exact this
  have hele : e ≤ 53 + k := by
    have := le_trans he1 hup
    exact (zpow_le_zpow_iff_right₀ (by norm_num : (1 : ℚ) < 2)).mp this
  unfold roundFloat64
  rw [if_neg (ne_of_gt hy), abs_of_pos hy, hE]
  simp only
  rw [if_neg (by linarith)]
  rcases lt_or_eq_of_le hele with hlt | heq
  · -- the unit in the last place is at most `2 ^ k`
    have hkk : max (e - 52) (-1074) ≤ k := by
      apply max_le <;> omega
    generalize max (e - 52) (-1074) = k' at hkk
    obtain ⟨d, hd⟩ : ∃ d : ℕ, k = k' + d := ⟨(k - k').toNat, by omega⟩
    have hval : (n : ℚ) * 2 ^ k / 2 ^ k' = ((n * 2 ^ d : ℤ) : ℚ) := by
      rw [hd, zpow_add₀ (by norm_num : (2 : ℚ) ≠ 0), zpow_natCast]
      have : (0 : ℚ) < (2 : ℚ) ^ k' := by positivity
      field_simp
      ring
    rw [hval, roundHalfEven_intCast]
    rw [hd, zpow_add₀ (by norm_num : (2 : ℚ) ≠ 0), zpow_natCast]
    push_cast
    ring
  · -- the value is the power `2 ^ (53 + k)`
    have hpow : (n : ℚ) * 2 ^ k = (2 : ℚ) ^ (53 + k) := by
      apply le_antisymm hup
      rw [← heq]; exact he1
    have hk' : max (e - 52) (-1074) = k + 1 := by
      rw [heq]; apply max_eq_left_iff.mpr ?_ |>.trans ?_ <;> omega
    rw [hk', hpow]
    have hval : (2 : ℚ) ^ (53 + k) / 2 ^ (k + 1) = (((2 : ℤ) ^ 52 : ℤ) : ℚ) := by
      rw [← zpow_sub₀ (by norm_num : (2 : ℚ) ≠ 0)]
      have : 53 + k - (k + 1) = (52 : ℕ) := by push_cast; ring
      rw [this, zpow_natCast]
      push_cast
      rfl
    rw [hval, roundHalfEven_intCast]
    have h52 : (((2 : ℤ) ^ 52 : ℤ) : ℚ) = (2 : ℚ) ^ (52 : ℤ) := by norm_num
    rw [h52, ← zpow_add₀ (by norm_num : (2 : ℚ) ≠ 0)]
    congr 1
    ring

/-- Rounding a rounded value changes nothing. -/
theorem roundFloat64_idem (x : ℚ) : roundFloat64 (roundFloat64 x) = roundFloat64 x := by
  have key : ∀ x : ℚ, 0 < x → roundFloat64 (roundFloat64 x) = roundFloat64 x := by
    intro x hpos
    obtain ⟨he1, he2⟩ := binaryExponent_spec x hpos
    have hform : roundFloat64 x =
        (roundHalfEven (x / 2 ^ max (binaryExponent x - 52) (-1074)) : ℚ) *
          2 ^ max (binaryExponent x - 52) (-1074) := by
      unfold roundFloat64
      rw [if_neg (ne_of_gt hpos), abs_of_pos hpos]
      simp only
      rw [if_neg (by linarith)]
    have hk : -1074 ≤ max (binaryExponent x - 52) (-1074) := le_max_right _ _
    have hk2 : binaryExponent x - 52 ≤ max (binaryExponent x - 52) (-1074) := le_max_left _ _
    generalize max (binaryExponent x - 52) (-1074) = k at hform hk hk2
    have h2k : (0 : ℚ) < (2 : ℚ) ^ k := by positivity
    have hv0 : (0 : ℚ) ≤ x / 2 ^ k := by positivity
    have hv : x / 2 ^ k < ((2 ^ 53 : ℤ) : ℚ) := by
      rw [div_lt_iff₀ h2k]
      refine lt_of_lt_of_le he2 ?_
      have h53 : (((2 : ℤ) ^ 53 : ℤ) : ℚ) = (2 : ℚ) ^ (53 : ℤ) := by norm_num
      rw [h53, ← zpow_add₀ (by norm_num : (2 : ℚ) ≠ 0)]
      apply zpow_le_zpow_right₀ (by norm_num)
      omega
    have hn0 : 0 ≤ roundHalfEven (x / 2 ^ k) :=
      le_trans (Int.floor_nonneg.mpr hv0) (roundHalfEven_floor_le _)
    have hn : roundHalfEven (x / 2 ^ k) ≤ 2 ^ 53 := by
      have h1 := roundHalfEven_le_floor_succ (x / 2 ^ k)
      have h2 : ⌊x / 2 ^ k⌋ < 2 ^ 53 := Int.floor_lt.mpr hv
      omega
    rw [hform]
    rcases lt_or_eq_of_le hn0 with hlt | heq
    · exact roundFloat64_of_significand _ k hlt hn hk
    · rw [← heq]; simp [roundFloat64_zero]
  rcases lt_trichotomy x 0 with h | h | h
  · have := key (-x) (by linarith)
    rw [roundFloat64_neg, roundFloat64_neg] at this
    exact neg_injective this
  · subst h; simp [roundFloat64_zero]
  · exact key x h

/-- What `roundFloat64` returns for a positive value: a significand of at most
53 bits times a power of two. -/
theorem roundFloat64_form (x : ℚ) (hpos : 0 < x) :
    ∃ n k : ℤ, 0 ≤ n ∧ n ≤ 2 ^ 53 ∧ -1074 ≤ k ∧ roundFloat64 x = (n : ℚ) * 2 ^ k := by
  obtain ⟨he1, he2⟩ := binaryExponent_spec x hpos
  have hform : roundFloat64 x =
      (roundHalfEven (x / 2 ^ max (binaryExponent x - 52) (-1074)) : ℚ) *
        2 ^ max (binaryExponent x - 52) (-1074) := by
    unfold roundFloat64
    rw [if_neg (ne_of_gt hpos), abs_of_pos hpos]
    simp only
    rw [if_neg (by linarith)]
  have hk : -1074 ≤ max (binaryExponent x - 52) (-1074) := le_max_right _ _
  have hk2 : binaryExponent x - 52 ≤ max (binaryExponent x - 52) (-1074) := le_max_left _ _
  generalize max (binaryExponent x - 52) (-1074) = k at hform hk hk2
  have h2k : (0 : ℚ) < (2 : ℚ) ^ k := by positivity
  have hv0 : (0 : ℚ) ≤ x / 2 ^ k := by positivity
  have hv : x / 2 ^ k < ((2 ^ 53 : ℤ) : ℚ) := by
    rw [div_lt_iff₀ h2k]
    refine lt_of_lt_of_le he2 ?_
    have h53 : (((2 : ℤ) ^ 53 : ℤ) : ℚ) = (2 : ℚ) ^ (53 : ℤ) := by norm_num
    rw [h53, ← zpow_add₀ (by norm_num : (2 : ℚ) ≠ 0)]
    apply zpow_le_zpow_right₀ (by norm_num)
    omega
  have hn0 : 0 ≤ roundHalfEven (x / 2 ^ k) :=
    le_trans (Int.floor_nonneg.mpr hv0) (roundHalfEven_floor_le _)
  have hn : roundHalfEven (x / 2 ^ k) ≤ 2 ^ 53 := by
    have h1 := roundHalfEven_le_floor_succ (x / 2 ^ k)
    have h2 : ⌊x / 2 ^ k⌋ < 2 ^ 53 := Int.floor_lt.mpr hv
    omega
  exact ⟨_, k, hn0, hn, hk, hform⟩

/-- An `int` of at most 53 bits converts to `float64` without rounding. -/
theorem float64OfInt_of_abs_le (n : ℤ) (h : |n| ≤ 2 ^ 53) : float64OfInt n = (n : ℚ) := by
  unfold float64OfInt
  rcases lt_trichotomy n 0 with hn | hn | hn
  · have h1 : -n ≤ 2 ^ 53 := by rw [abs_of_neg hn] at h; exact h
    have := roundFloat64_of_significand (-n) 0 (by omega) h1 (by norm_num)
    simp only [zpow_zero, mul_one, Int.cast_neg] at this
    rw [roundFloat64_neg] at this
    exact neg_injective this
  · subst hn; simp [roundFloat64_zero]
  · have h1 : n ≤ 2 ^ 53 := by rw [abs_of_pos hn] at h; exact h
    have := roundFloat64_of_significand n 0 hn h1 (by norm_num)
    simpa using this

/-- The integer part of a `float64` is a `float64`: converting it back loses
nothing. -/
theorem float64OfInt_floor (v : ℚ) (hv : roundFloat64 v = v) (h0 : 0 ≤ v) :
    float64OfInt ⌊v⌋ = (⌊v⌋ : ℚ) := by
  rcases lt_or_eq_of_le h0 with hpos | hz
  · obtain ⟨n, k, hn0, hn, hk, hform⟩ := roundFloat64_form v hpos
    rw [hv] at hform
    by_cases hk0 : 0 ≤ k
    · obtain ⟨d, hd⟩ : ∃ d : ℕ, k = d := ⟨k.toNat, by omega⟩
      have hint : v = ((n * 2 ^ d : ℤ) : ℚ) := by
        rw [hform, hd, zpow_natCast]; push_cast; ring
      have hfl : ⌊v⌋ = n * 2 ^ d := by rw [hint]; exact Int.floor_intCast _
      unfold float64OfInt
      rw [hfl, ← hint, hv]
    · have hk1 : k ≤ -1 := by omega
      have hle : v ≤ 2 ^ 52 := by
        rw [hform]
        have h1 : (n : ℚ) ≤ 2 ^ 53 := by exact_mod_cast hn
        have h2 : (2 : ℚ) ^ k ≤ 2 ^ (-1 : ℤ) := zpow_le_zpow_right₀ (by norm_num) hk1
        have h3 : (0 : ℚ) ≤ (n : ℚ) := by exact_mod_cast hn0
        have h4 : (0 : ℚ) < (2 : ℚ) ^ k := by positivity
        calc (n : ℚ) * 2 ^ k ≤ 2 ^ 53 * 2 ^ (-1 : ℤ) :=
              mul_le_mul h1 h2 h4.le (by positivity)
          _ = 2 ^ 52 := by norm_num
      apply float64OfInt_of_abs_le
      have hf0 : 0 ≤ ⌊v⌋ := Int.floor_nonneg.mpr h0
      rw [abs_of_nonneg hf0]
      have : (⌊v⌋ : ℚ) ≤ 2 ^ 52 := le_trans (Int.floor_le v) hle
      have : ⌊v⌋ ≤ 2 ^ 52 := by exact_mod_cast this
      omega
  · rw [← hz]; simp [float64OfInt, roundFloat64_zero]

/-- Within the range of an `int` the conversion `int(v)` of a value that is not
negative is its integer part. -/
theorem intOfFloat64_of_lt (v : ℚ) (h0 : 0 ≤ v) (h : v < 2 ^ 63) : intOfFloat64 v = ⌊v⌋ := by
  unfold intOfFloat64
  simp only [h0, if_true]
  have h1 : 0 ≤ ⌊v⌋ := Int.floor_nonneg.mpr h0
  have h2 : ⌊v⌋ < 2 ^ 63 := by
    rw [Int.floor_lt]
    push_cast
    exact h
  rw [if_pos ⟨by omega, h2⟩]

/-- From `2 ^ 63` on a value does not fit an `int`, and the conversion gives
`-2 ^ 63`. -/
theorem intOfFloat64_of_ge (v : ℚ) (h : 2 ^ 63 ≤ v) : intOfFloat64 v = -2 ^ 63 := by
  unfold intOfFloat64
  have h0 : 0 ≤ v := le_trans (by positivity) h
  simp only [h0, if_true]
  have h2 : ¬ ⌊v⌋ < 2 ^ 63 := by
    rw [Int.floor_lt]
    push_cast
    exact not_lt.mpr h
  rw [if_neg (fun hh => h2 hh.2)]

theorem normalizeCount_of_lt (v : ℚ) (h : v < 2 ^ 63) :
    normalizeCount v = if v < 1 then 1 else ⌊v⌋ := by
  unfold normalizeCount
  split
  · rfl
  · rename_i h1
    exact intOfFloat64_of_lt v (by linarith [not_lt.mp h1]) h

theorem normalizeCount_ge_one (value : ℚ) (h : value < 2 ^ 63) : 1 ≤ normalizeCount value := by
  rw [normalizeCount_of_lt value h]
  split
  · exact le_refl 1
  · rename_i h1
    exact Int.le_floor.mpr (by simpa using not_lt.mp h1)

/-! ## The loop of `findBestProduct` -/

theorem findBestStep_eq (T : CaseTables) (products : List Product)
    (matchResource : Product → Bool) (zone region typeToken : Str) (requireType : Bool)
    (i : Nat) (product : Product) (best : Int × Int) :
    findBestStep T products matchResource zone region typeToken requireType i product best =
      if passesFilters T matchResource zone region typeToken requireType product = true then
        findBestUpdate products i product (candidateScore T zone region typeToken product) best
      else best := by
  unfold findBestStep passesFilters candidateScore
  rcases hsl : scoreLocality T product zone region with ⟨sc, ok⟩
  by_cases hm : matchResource product = true
  · by_cases hok : ok = true
    · by_cases ht : typeToken = []
      · subst ht
        simp [hm, hok, Contains_nil, matchesToken]
      · by_cases hmt : matchesToken T product typeToken = true
        · simp [hm, hok, ht, hmt]
        · by_cases hr : requireType = true
          · simp [hm, hok, ht, hmt, hr]
          · simp [hm, hok, ht, hmt, hr]
    · simp [hm, hok]
  · simp [hm]

theorem BestSoFar_step (T : CaseTables) (products : List Product)
    (matchResource : Product → Bool) (zone region typeToken : Str) (requireType : Bool)
    (pre : List Product) (x : Product) (best : Int × Int)
    (hx : products[pre.length]? = some x)
    (h : BestSoFar T products matchResource zone region typeToken requireType pre best) :
    BestSoFar T products matchResource zone region typeToken requireType (pre ++ [x])
      (findBestStep T products matchResource zone region typeToken requireType pre.length x best) := by
  rw [findBestStep_eq]
  by_cases hp : passesFilters T matchResource zone region typeToken requireType x = true
  · rw [if_pos hp]
    rcases h with ⟨hb, hnone⟩ | ⟨k, p, hk, hkp, hmem, hpp, hsc, hdom⟩
    · -- nothing selected so far: the entry is taken
      have : findBestUpdate products pre.length x (candidateScore T zone region typeToken x) best
          = ((pre.length : Int), candidateScore T zone region typeToken x) := by
        simp [findBestUpdate, hb]
      rw [this]
      refine Or.inr ⟨pre.length, x, rfl, hx, by simp, hp, rfl, ?_⟩
      intro q hq hqp
      rcases List.mem_append.mp hq with hq | hq
      · rw [hnone q hq] at hqp; exact absurd hqp (by simp)
      · have : q = x := by simpa using hq
        subst this
        exact ⟨le_refl _, fun _ => by rw [Compare_self]⟩
    · have hsku : skuAt products best.1 = p.SKU := by
        simp [skuAt, hk, hkp]
      unfold findBestUpdate
      rw [hsku]
      split
      · rename_i hc
        have hk0 : ¬ best.1 < 0 := by rw [hk]; omega
        refine Or.inr ⟨pre.length, x, rfl, hx, by simp, hp, rfl, ?_⟩
        intro q hq hqp
        rcases List.mem_append.mp hq with hq | hq
        · obtain ⟨hle, hties⟩ := hdom q hq hqp
          rcases hc with hc | hc | ⟨hc1, hc2⟩
          · exact absurd hc hk0
          · rw [hsc] at hc
            exact ⟨by omega, fun he => by omega⟩
          · rw [hsc] at hc1
            refine ⟨by omega, fun he => ?_⟩
            exact le_of_lt (Compare_lt_trans hc2 (hties (by omega)))
        · have : q = x := by simpa using hq
          subst this
          exact ⟨le_refl _, fun _ => by rw [Compare_self]⟩
      · rename_i hc
        push_neg at hc
        obtain ⟨_, hc2, hc3⟩ := hc
        refine Or.inr ⟨k, p, hk, hkp, List.mem_append_left _ hmem, hpp, hsc, ?_⟩
        intro q hq hqp
        rcases List.mem_append.mp hq with hq | hq
        · exact hdom q hq hqp
        · have : q = x := by simpa using hq
          subst this
          rw [hsc] at hc2 hc3
          refine ⟨hc2, fun he => ?_⟩
          have := hc3 he
          rw [Compare_neg q.SKU p.SKU]
          omega
  · rw [if_neg hp]
    have hp' : passesFilters T matchResource zone region typeToken requireType x = false := by
      simpa using hp
    rcases h with ⟨hb, hnone⟩ | ⟨k, p, hk, hkp, hmem, hpp, hsc, hdom⟩
    · refine Or.inl ⟨hb, ?_⟩
      intro q hq
      rcases List.mem_append.mp hq with hq | hq
      · exact hnone q hq
      · have : q = x := by simpa using hq
        subst this; exact hp'
    · refine Or.inr ⟨k, p, hk, hkp, List.mem_append_left _ hmem, hpp, hsc, ?_⟩
      intro q hq hqp
      rcases List.mem_append.mp hq with hq | hq
      · exact hdom q hq hqp
      · have : q = x := by simpa using hq
        subst this
        rw [hp'] at hqp; exact absurd hqp (by simp)

theorem BestSoFar_loop (T : CaseTables) (products : List Product)
    (matchResource : Product → Bool) (zone region typeToken : Str) (requireType : Bool)
    (rest pre : List Product) (best : Int × Int) (hsplit : products = pre ++ rest)
    (h : BestSoFar T products matchResource zone region typeToken requireType pre best) :
    BestSoFar T products matchResource zone region typeToken requireType products
      (findBestLoop T products matchResource zone region typeToken requireType rest
        pre.length best) := by
  induction rest generalizing pre best with
  | nil =>
    simp only [findBestLoop]
    rw [hsplit, List.append_nil]
    rw [hsplit, List.append_nil] at h
    exact h
  | cons x rest ih =>
    simp only [findBestLoop]
    have hx : products[pre.length]? = some x := by
      rw [hsplit, List.getElem?_append_right (le_refl _)]; simp
    have hstep := BestSoFar_step T products matchResource zone region typeToken requireType
      pre x best hx h
    have := ih (pre ++ [x]) _ (by rw [hsplit]; simp) hstep
    simpa using this

/-- The final state of the loop of `findBestProduct` is the best over the whole
catalog. -/
theorem BestSoFar_final (T : CaseTables) (products : List Product)
    (matchResource : Product → Bool) (zone region typeToken : Str) (requireType : Bool) :
    BestSoFar T products matchResource zone region typeToken requireType products
      (findBestLoop T products matchResource zone region typeToken requireType products 0
        (-1, -1)) :=
  BestSoFar_loop T products matchResource zone region typeToken requireType products [] (-1, -1)
    (by simp) (Or.inl ⟨rfl, by simp⟩)

theorem findBestProduct_eq_none_iff (T : CaseTables) (products : List Product)
    (matchResource : Product → Bool) (zone region typeToken : Str) (requireType : Bool) :
    findBestProduct T products matchResource zone region typeToken requireType = none ↔
      ∀ q ∈ products,
        passesFilters T matchResource zone region typeToken requireType q = false := by
  have hfin := BestSoFar_final T products matchResource zone region typeToken requireType
  unfold findBestProduct
  rcases hfin with ⟨hb, hnone⟩ | ⟨k, p, hk, hkp, hmem, hpp, _, _⟩
  · simp only [hb]
    simpa using hnone
  · simp only [hk]
    have hk0 : ¬ ((k : Int) < 0) := by omega
    simp only [hk0, if_false, Int.toNat_ofNat, hkp]
    constructor
    · intro h; exact absurd h (by simp)
    · intro h; rw [h p hmem] at hpp; exact absurd hpp (by simp)

theorem findBestProduct_some (T : CaseTables) (products : List Product)
    (matchResource : Product → Bool) (zone region typeToken : Str) (requireType : Bool)
    (p : Product)
    (h : findBestProduct T products matchResource zone region typeToken requireType = some p) :
    p ∈ products ∧ passesFilters T matchResource zone region typeToken requireType p = true ∧
      ∀ q ∈ products, passesFilters T matchResource zone region typeToken requireType q = true →
        candidateScore T zone region typeToken q ≤ candidateScore T zone region typeToken p ∧
        (candidateScore T zone region typeToken q = candidateScore T zone region typeToken p →
          Compare p.SKU q.SKU ≤ 0) := by
  have hfin := BestSoFar_final T products matchResource zone region typeToken requireType
  unfold findBestProduct at h
  rcases hfin with ⟨hb, _⟩ | ⟨k, p', hk, hkp, hmem, hpp, _, hdom⟩
  · simp [hb] at h
  · simp only [hk] at h
    have hk0 : ¬ ((k : Int) < 0) := by omega
    simp only [hk0, if_false, Int.toNat_ofNat, hkp] at h
    have : p' = p := by simpa using h
    subst this
    exact ⟨hmem, hpp, hdom⟩

theorem findBestProduct_isSome_iff (T : CaseTables) (products : List Product)
    (matchResource : Product → Bool) (zone region typeToken : Str) (requireType : Bool) :
    (∃ p, findBestProduct T products matchResource zone region typeToken requireType = some p) ↔
      ∃ q ∈ products,
        passesFilters T matchResource zone region typeToken requireType q = true := by
  have hnone := findBestProduct_eq_none_iff T products matchResource zone region typeToken
    requireType
  constructor
  · rintro ⟨p, hp⟩
    obtain ⟨hmem, hpp, _⟩ := findBestProduct_some T products matchResource zone region
      typeToken requireType p hp
    exact ⟨p, hmem, hpp⟩
  · rintro ⟨q, hq, hqp⟩
    cases hres : findBestProduct T products matchResource zone region typeToken requireType with
    | none => rw [hnone.mp hres q hq] at hqp; exact absurd hqp (by simp)
    | some p => exact ⟨p, rfl⟩

/-! ## Theorems -/

/-- C1: `findBestProduct` returns a product exactly when some catalog entry
passes the category filter, the locality filter and (when required) the token
match; the returned product is such an entry, no passing entry has a higher
score, and among the passing entries with its score it has the smallest SKU
under `strings.Compare`. -/
theorem findBestProduct_spec (T : CaseTables) (products : List Product)
    (matchResource : Product → Bool) (zone region typeToken : Str) (requireType : Bool) :
    ((∃ p, findBestProduct T products matchResource zone region typeToken requireType = some p) ↔
      ∃ q ∈ products,
        passesFilters T matchResource zone region typeToken requireType q = true) ∧
    ∀ p, findBestProduct T products matchResource zone region typeToken requireType = some p →
      p ∈ products ∧ passesFilters T matchResource zone region typeToken requireType p = true ∧
      ∀ q ∈ products, passesFilters T matchResource zone region typeToken requireType q = true →
        candidateScore T zone region typeToken q ≤ candidateScore T zone region typeToken p ∧
        (candidateScore T zone region typeToken q = candidateScore T zone region typeToken p →
          Compare p.SKU q.SKU ≤ 0) :=
  ⟨findBestProduct_isSome_iff T products matchResource zone region typeToken requireType,
   findBestProduct_some T products matchResource zone region typeToken requireType⟩

/-- Witness for C1: in the catalog `[instParRegion, instPar2b, instPar2]` with
zone `fr-par-2` requested, the two zone entries tie at the top score and the one
with the smaller SKU, `instPar2`, is returned. -/
theorem findBestProduct_spec_witness :
    findBestProduct CaseTables.ascii [instParRegion, instPar2b, instPar2]
        (isInstanceProduct CaseTables.ascii) "fr-par-2".toList [] "pop2hc2c4g".toList true
      = some instPar2 ∧
    candidateScore CaseTables.ascii "fr-par-2".toList [] "pop2hc2c4g".toList instPar2b
      = candidateScore CaseTables.ascii "fr-par-2".toList [] "pop2hc2c4g".toList instPar2 ∧
    Compare instPar2.SKU instPar2b.SKU ≤ 0 :=
  have hsel : findBestProduct CaseTables.ascii [instParRegion, instPar2b, instPar2]
      (isInstanceProduct CaseTables.ascii) "fr-par-2".toList [] "pop2hc2c4g".toList true
      = some instPar2 := by decide
  have hq := ((findBestProduct_spec CaseTables.ascii [instParRegion, instPar2b, instPar2]
      (isInstanceProduct CaseTables.ascii) "fr-par-2".toList [] "pop2hc2c4g".toList true).2
      instPar2 hsel).2.2 instPar2b (by decide) (by decide)
  ⟨hsel, by decide, hq.2 (by decide)⟩

/-- C2, counterexample: with zone `fr-par-1` and no region requested, a product
of zone `nl-ams-1` with an empty region is rejected by the code, while the
specified chain accepts it with 35 (its empty region equals the empty requested
region); and with zone `FR-PAR-1` requested, a product of zone `fr-par-1`
scores 50 in the code, while the specified chain, under plain equality, gives
it 30. -/
theorem scoreLocality_zone_claim_fails :
    scoreLocality CaseTables.ascii { Locality := { Zone := "nl-ams-1".toList } }
        "fr-par-1".toList [] = (0, false) ∧
    scoreLocalityZoneClaimed CaseTables.ascii { Locality := { Zone := "nl-ams-1".toList } }
        "fr-par-1".toList [] = (35, true) ∧
    scoreLocality CaseTables.ascii { Locality := { Zone := "fr-par-1".toList } }
        "FR-PAR-1".toList "nl-ams".toList = (50, true) ∧
    scoreLocalityZoneClaimed CaseTables.ascii { Locality := { Zone := "fr-par-1".toList } }
        "FR-PAR-1".toList "nl-ams".toList = (30, true) := by
  decide

/-- C2, amended: for a non-empty requested zone `z` and any requested region
`r`, `scoreLocality` returns 50 if the product zone equals `z` up to letter
case; else 35 if the region derived from `z` is non-empty and equals the product
region up to letter case; else 35 if `r` is non-empty and equals the product
region up to letter case; else 30 if the region derived from `z` is non-empty
and equals, up to letter case, the region derived from the product zone; else 5
if the product is global; else it rejects. -/
theorem scoreLocality_zone (T : CaseTables) (p : Product) (z r : Str) (hz : z ≠ []) :
    scoreLocality T p z r =
      if sameFold T p.Locality.Zone z then (50, true)
      else if regionFromZone T z ≠ [] ∧ sameFold T p.Locality.Region (regionFromZone T z) then
        (35, true)
      else if r ≠ [] ∧ sameFold T p.Locality.Region r then (35, true)
      else if regionFromZone T z ≠ [] ∧
          sameFold T (regionFromZone T p.Locality.Zone) (regionFromZone T z) then (30, true)
      else if isGlobal p then (5, true)
      else (0, false) :=
  zoneBranch_eq T p z r hz

/-- Witness for C2: with zone `fr-par-2` requested, the regional entry
`instParRegion` scores 35 through the region derived from the zone. -/
theorem scoreLocality_zone_witness :
    "fr-par-2".toList ≠ [] ∧
    scoreLocality CaseTables.ascii instParRegion "fr-par-2".toList [] = (35, true) :=
  ⟨by decide,
   (scoreLocality_zone CaseTables.ascii instParRegion "fr-par-2".toList [] (by decide)).trans
     (by decide)⟩

/-- C3, counterexample: with region `FR-PAR` and no zone requested, a product of
region `fr-par` scores 40 in the code, while under plain equality the specified
chain rejects it. -/
theorem scoreLocality_region_claim_fails :
    scoreLocality CaseTables.ascii { Locality := { Region := "fr-par".toList } }
        [] "FR-PAR".toList = (40, true) ∧
    scoreLocalityRegionClaimed CaseTables.ascii { Locality := { Region := "fr-par".toList } }
        "FR-PAR".toList = (0, false) := by
  decide

/-- C3, amended: with no zone and a non-empty region `r` requested,
`scoreLocality` returns 40 if the product region equals `r` up to letter case,
else 35 if the region derived from the product zone equals `r` up to letter
case, else 5 if the product is global, else it rejects; with neither a zone nor
a region requested it accepts every product with score 1. -/
theorem scoreLocality_region (T : CaseTables) (p : Product) (r : Str) (hr : r ≠ []) :
    scoreLocality T p [] r =
        (if sameFold T p.Locality.Region r then (40, true)
         else if sameFold T (regionFromZone T p.Locality.Zone) r then (35, true)
         else if isGlobal p then (5, true)
         else (0, false)) ∧
    scoreLocality T p [] [] = (1, true) :=
  ⟨regionBranch_eq T p r hr, by simp [scoreLocality]⟩

/-- Witness for C3: with region `fr-par` requested, the zone entry `instPar2`
scores 35 through the region derived from its zone. -/
theorem scoreLocality_region_witness :
    "fr-par".toList ≠ [] ∧
    scoreLocality CaseTables.ascii instPar2 [] "fr-par".toList = (35, true) :=
  ⟨by decide,
   (scoreLocality_region CaseTables.ascii instPar2 "fr-par".toList (by decide)).1.trans
     (by decide)⟩

/-- C4: locality scoring is monotonic. For every locality request, a product `B`
accepted only through a region match outranks a product `C` accepted only
because it is global, and a product `A` accepted through a zone match outranks
`B`; hence in every catalog `findBestProduct` does not return `C` when `B`
passes the filters with the same type-token boost, and does not return `B` when
such an `A` does. -/
theorem scoreLocality_monotonic (T : CaseTables) (A B C : Product) (zone region : Str)
    (hB : ¬ zoneMatch T B zone) (hBr : regionMatch T B zone region)
    (hC : ¬ zoneMatch T C zone) (hCr : ¬ regionMatch T C zone region) (hCg : isGlobal C) :
    (scoreLocality T B zone region).2 = true ∧ (scoreLocality T C zone region).2 = true ∧
    (scoreLocality T B zone region).1 > (scoreLocality T C zone region).1 ∧
    (∀ products matchResource typeToken requireType, B ∈ products →
      passesFilters T matchResource zone region typeToken requireType B = true →
      matchesToken T B typeToken = matchesToken T C typeToken →
      findBestProduct T products matchResource zone region typeToken requireType ≠ some C) ∧
    (zoneMatch T A zone →
      (scoreLocality T A zone region).2 = true ∧
      (scoreLocality T A zone region).1 > (scoreLocality T B zone region).1 ∧
      ∀ products matchResource typeToken requireType, A ∈ products →
        passesFilters T matchResource zone region typeToken requireType A = true →
        matchesToken T A typeToken = matchesToken T B typeToken →
        findBestProduct T products matchResource zone region typeToken requireType ≠ some B) := by
  have hBs : (scoreLocality T B zone region).2 = true ∧
      30 ≤ (scoreLocality T B zone region).1 ∧ (scoreLocality T B zone region).1 ≤ 40 := by
    by_cases hz : zone = []
    · subst hz
      simp only [regionMatch, ne_eq, not_true_eq_false, if_false] at hBr
      obtain ⟨hr, hBr⟩ := hBr
      rw [regionBranch_eq T B region hr]
      rcases hBr with h | h
      · simp [h]
      · by_cases h1 : sameFold T B.Locality.Region region <;> simp [h, h1]
    · simp only [regionMatch, ne_eq, hz, not_false_eq_true, if_true] at hBr
      have hBz : ¬ sameFold T B.Locality.Zone zone := fun h => hB ⟨hz, h⟩
      rw [zoneBranch_eq T B zone region hz]
      simp only [hBz, if_false]
      split_ifs <;> simp_all
  have hCs : scoreLocality T C zone region = (5, true) := by
    by_cases hz : zone = []
    · subst hz
      have hr : region ≠ [] := by
        intro h
        subst h
        simp [regionMatch] at hBr
      simp only [regionMatch, ne_eq, not_true_eq_false, if_false, hr, not_false_eq_true,
        true_and, not_or] at hCr
      rw [regionBranch_eq T C region hr]
      simp [hCr.1, hCr.2, hCg]
    · simp only [regionMatch, ne_eq, hz, not_false_eq_true, if_true, not_or] at hCr
      have hCz : ¬ sameFold T C.Locality.Zone zone := fun h => hC ⟨hz, h⟩
      rw [zoneBranch_eq T C zone region hz]
      simp [hCz, hCr.1, hCr.2.1, hCr.2.2, hCg]
  have hprefer : ∀ (X Y : Product),
      (scoreLocality T X zone region).1 > (scoreLocality T Y zone region).1 →
      ∀ products matchResource typeToken requireType, X ∈ products →
        passesFilters T matchResource zone region typeToken requireType X = true →
        matchesToken T X typeToken = matchesToken T Y typeToken →
        findBestProduct T products matchResource zone region typeToken requireType ≠ some Y := by
    intro X Y hgt products matchResource typeToken requireType hmem hpass htok hsel
    have hdom := (findBestProduct_some T products matchResource zone region typeToken
      requireType Y hsel).2.2 X hmem hpass
    have hle := hdom.1
    unfold candidateScore at hle
    rw [htok] at hle
    omega
  refine ⟨hBs.1, by rw [hCs], by rw [hCs]; show (5 : Int) < _; omega, ?_, ?_⟩
  · exact hprefer B C (by rw [hCs]; show (5 : Int) < _; omega)
  · intro hA
    have hAs : scoreLocality T A zone region = (50, true) := by
      rw [zoneBranch_eq T A zone region hA.1]
      simp [hA.2]
    refine ⟨by rw [hAs], by rw [hAs]; show _ < (50 : Int); omega, ?_⟩
    exact hprefer A B (by rw [hAs]; show _ < (50 : Int); omega)

/-- Witness for C4: with zone `fr-par-2` requested, the zone entry `instPar2`
outranks the regional entry `instParRegion`, which outranks the global entry
`instGlobal`. -/
theorem scoreLocality_monotonic_witness :
    (scoreLocality CaseTables.ascii instPar2 "fr-par-2".toList []).1 >
      (scoreLocality CaseTables.ascii instParRegion "fr-par-2".toList []).1 ∧
    (scoreLocality CaseTables.ascii instParRegion "fr-par-2".toList []).1 >
      (scoreLocality CaseTables.ascii instGlobal "fr-par-2".toList []).1 :=
  have h := scoreLocality_monotonic CaseTables.ascii instPar2 instParRegion instGlobal
    "fr-par-2".toList [] (by decide) (by decide) (by decide) (by decide) (by decide)
  ⟨(h.2.2.2.2 (by decide)).2.1, h.2.2.1⟩

/-- C10, counterexample: a leading tab is removed by `normalizeToken`, although
it is none of `'-'`, `'_'`, space and `'/'`. -/
theorem normalizeToken_claim_fails :
    normalizeToken CaseTables.ascii "\tDEV1-S".toList = "dev1s".toList ∧
    stripSeparators (ToLower CaseTables.ascii "\tDEV1-S".toList) = "\tdev1s".toList := by
  decide

/-- C10, amended: for every string `v`, `normalizeToken v` is `v` with leading
and trailing white space trimmed, lower-cased, and with every `'-'`, `'_'`,
space and `'/'` removed; no other character is added, removed or changed. -/
theorem normalizeToken_eq (T : CaseTables) (v : Str) :
    normalizeToken T v = stripSeparators (ToLower T (TrimSpace v)) := by
  unfold normalizeToken stripSeparators
  simp only [ReplaceAll_nil_eq_filter, List.filter_filter]
  congr 1
  funext c
  simp only [Bool.and_comm, Bool.and_assoc, Bool.and_left_comm]

/-! ## Unfolding `Resolve` one resource type at a time -/

theorem Resolve_instance (T : CaseTables) (c : ResourceChange) (products : List Product)
    (h : c.Typ = "scaleway_instance_server".toList) :
    Resolve T c products =
      if normalizeToken T (rawAttr c "type".toList) = [] then
        .error ⟨.MissingRequiredAttribute, "missing required attribute: type".toList⟩
      else
        match findBestProduct T products (isInstanceProduct T) (requestedZone c)
            (requestedRegion c) (normalizeToken T (rawAttr c "type".toList))
            (normalizeToken T (rawAttr c "type".toList) ≠ []) with
        | some product => .ok { Product := some product, Qty := 1 }
        | none => .error (noCatalogMatchError (requestedZone c) (requestedRegion c)
            "type".toList (rawAttr c "type".toList)) := by
  unfold Resolve rawAttr requestedZone requestedRegion applicableAttrs
  simp only [h, if_true]

theorem Resolve_baremetal (T : CaseTables) (c : ResourceChange) (products : List Product)
    (h : c.Typ = "scaleway_baremetal_server".toList) :
    Resolve T c products =
      match findBestProduct T products (isBaremetalProduct T) (requestedZone c)
          (requestedRegion c) (normalizeToken T (rawAttr c "type".toList))
          (normalizeToken T (rawAttr c "type".toList) ≠ []) with
      | some product => .ok { Product := some product, Qty := 1 }
      | none => .error (noCatalogMatchError (requestedZone c) (requestedRegion c)
          "type".toList (rawAttr c "type".toList)) := by
  have h1 : ¬ c.Typ = "scaleway_instance_server".toList := by rw [h]; decide
  unfold Resolve rawAttr requestedZone requestedRegion applicableAttrs
  simp only [h1, if_false]
  simp only [h, if_true]

theorem Resolve_k8s (T : CaseTables) (c : ResourceChange) (products : List Product)
    (h : c.Typ = "scaleway_k8s_pool".toList) :
    Resolve T c products =
      if normalizeToken T (rawAttr c "node_type".toList) = [] then
        .error ⟨.MissingRequiredAttribute, "missing required attribute: node_type".toList⟩
      else
        match findBestProduct T products (isInstanceProduct T) (requestedZone c)
            (requestedRegion c) (normalizeToken T (rawAttr c "node_type".toList))
            (normalizeToken T (rawAttr c "node_type".toList) ≠ []) with
        | some product =>
          .ok { Product := some product, Qty := getFloat (applicableAttrs c) "size".toList 1 }
        | none => .error (noCatalogMatchError (requestedZone c) (requestedRegion c)
            "node_type".toList (rawAttr c "node_type".toList)) := by
  have h1 : ¬ c.Typ = "scaleway_instance_server".toList := by rw [h]; decide
  have h2 : ¬ c.Typ = "scaleway_baremetal_server".toList := by rw [h]; decide
  unfold Resolve rawAttr requestedZone requestedRegion applicableAttrs
  simp only [h1, h2, if_false]
  simp only [h, if_true]

theorem Resolve_lb (T : CaseTables) (c : ResourceChange) (products : List Product)
    (h : c.Typ = "scaleway_lb".toList) :
    Resolve T c products =
      if normalizeToken T (rawAttr c "type".toList) = [] then
        .error ⟨.MissingRequiredAttribute, "missing required attribute: type".toList⟩
      else
        match findBestProduct T products (isLoadBalancerProduct T) (requestedZone c)
            (requestedRegion c) (normalizeLoadBalancerType T (rawAttr c "type".toList))
            (normalizeLoadBalancerType T (rawAttr c "type".toList) ≠ []) with
        | some product => .ok { Product := some product, Qty := 1 }
        | none => .error (noCatalogMatchError (requestedZone c) (requestedRegion c)
            "type".toList (rawAttr c "type".toList)) := by
  have h1 : ¬ c.Typ = "scaleway_instance_server".toList := by rw [h]; decide
  have h2 : ¬ c.Typ = "scaleway_baremetal_server".toList := by rw [h]; decide
  have h3 : ¬ c.Typ = "scaleway_k8s_pool".toList := by rw [h]; decide
  unfold Resolve rawAttr requestedZone requestedRegion applicableAttrs
  simp only [h1, h2, h3, if_false]
  simp only [h, if_true]

theorem Resolve_block (T : CaseTables) (c : ResourceChange) (products : List Product)
    (h : c.Typ = "scaleway_block_volume".toList) :
    Resolve T c products =
      match findBestProduct T products (isBlockStorageProduct T) (requestedZone c)
          (requestedRegion c) [] false with
      | some product =>
        .ok { Product := some product, Qty := getFloat (applicableAttrs c) "size_in_gb".toList 1 }
      | none => .error (noCatalogMatchError (requestedZone c) (requestedRegion c) [] []) := by
  have h1 : ¬ c.Typ = "scaleway_instance_server".toList := by rw [h]; decide
  have h2 : ¬ c.Typ = "scaleway_baremetal_server".toList := by rw [h]; decide
  have h3 : ¬ c.Typ = "scaleway_k8s_pool".toList := by rw [h]; decide
  have h4 : ¬ c.Typ = "scaleway_lb".toList := by rw [h]; decide
  unfold Resolve requestedZone requestedRegion applicableAttrs
  simp only [h1, h2, h3, h4, if_false]
  simp only [h, if_true]

theorem Resolve_rdb (T : CaseTables) (c : ResourceChange) (products : List Product)
    (h : c.Typ = "scaleway_rdb_instance".toList) :
    Resolve T c products =
      if normalizeToken T (rawAttr c "node_type".toList) = [] then
        .error ⟨.MissingRequiredAttribute, "missing required attribute: node_type".toList⟩
      else
        match findBestProduct T products (isRDBProduct T) (requestedZone c)
            (requestedRegion c) (normalizeToken T (rawAttr c "node_type".toList))
            (normalizeToken T (rawAttr c "node_type".toList) ≠ []) with
        | some product => .ok { Product := some product, Qty := 1 }
        | none => .error (noCatalogMatchError (requestedZone c) (requestedRegion c)
            "node_type".toList (rawAttr c "node_type".toList)) := by
  have h1 : ¬ c.Typ = "scaleway_instance_server".toList := by rw [h]; decide
  have h2 : ¬ c.Typ = "scaleway_baremetal_server".toList := by rw [h]; decide
  have h3 : ¬ c.Typ = "scaleway_k8s_pool".toList := by rw [h]; decide
  have h4 : ¬ c.Typ = "scaleway_lb".toList := by rw [h]; decide
  have h5 : ¬ c.Typ = "scaleway_block_volume".toList := by rw [h]; decide
  unfold Resolve rawAttr requestedZone requestedRegion applicableAttrs
  simp only [h1, h2, h3, h4, h5, if_false]
  simp only [h, if_true]

theorem Resolve_redis (T : CaseTables) (c : ResourceChange) (products : List Product)
    (h : c.Typ = "scaleway_redis_cluster".toList) :
    Resolve T c products =
      if normalizeToken T (rawAttr c "node_type".toList) = [] then
        .error ⟨.MissingRequiredAttribute, "missing required attribute: node_type".toList⟩
      else
        match findBestRedisRoleProduct T products "main-node".toList (requestedZone c)
            (requestedRegion c) (normalizeToken T (rawAttr c "node_type".toList)) with
        | none => .error (noCatalogMatchError (requestedZone c) (requestedRegion c)
            "node_type".toList (rawAttr c "node_type".toList))
        | some mainNode =>
          if normalizeCount (getFloat (applicableAttrs c) "cluster_size".toList 1) > 1 then
            match findBestRedisRoleProduct T products "additional-node".toList (requestedZone c)
                (requestedRegion c) (normalizeToken T (rawAttr c "node_type".toList)) with
            | none => .error (noCatalogMatchError (requestedZone c) (requestedRegion c)
                "node_type".toList (rawAttr c "node_type".toList))
            | some additionalNode =>
              .ok { Product := some mainNode
                    Qty := float64OfInt
                      (normalizeCount (getFloat (applicableAttrs c) "cluster_size".toList 1))
                    Matches := [{ Product := mainNode, Qty := 1 },
                      { Product := additionalNode
                        Qty := float64OfInt (normalizeCount
                          (getFloat (applicableAttrs c) "cluster_size".toList 1) - 1) }] }
          else
            .ok { Product := some mainNode
                  Qty := float64OfInt
                    (normalizeCount (getFloat (applicableAttrs c) "cluster_size".toList 1))
                  Matches := [{ Product := mainNode, Qty := 1 }] } := by
  have h1 : ¬ c.Typ = "scaleway_instance_server".toList := by rw [h]; decide
  have h2 : ¬ c.Typ = "scaleway_baremetal_server".toList := by rw [h]; decide
  have h3 : ¬ c.Typ = "scaleway_k8s_pool".toList := by rw [h]; decide
  have h4 : ¬ c.Typ = "scaleway_lb".toList := by rw [h]; decide
  have h5 : ¬ c.Typ = "scaleway_block_volume".toList := by rw [h]; decide
  have h6 : ¬ c.Typ = "scaleway_rdb_instance".toList := by rw [h]; decide
  unfold Resolve rawAttr requestedZone requestedRegion applicableAttrs
  simp only [h1, h2, h3, h4, h5, h6, if_false]
  simp only [h, if_true]
  rfl

theorem Resolve_unsupported (T : CaseTables) (c : ResourceChange) (products : List Product)
    (h : c.Typ ∉ supportedTypes) :
    Resolve T c products = .error ⟨.NotImplemented, "not implemented".toList⟩ := by
  simp only [supportedTypes, List.mem_cons, List.mem_singleton, not_or, List.mem_nil_iff,
    or_false] at h
  obtain ⟨h1, h2, h3, h4, h5, h6, h7⟩ := h
  unfold Resolve
  simp only [h1, h2, h3, h4, h5, h6, h7, if_false]

theorem noCatalogMatchError_code (zone region typeKey typeValue : Str) :
    (noCatalogMatchError zone region typeKey typeValue).Code = .NoCatalogMatch := rfl

theorem noCatalogMatchError_typed (zone region typeKey typeValue : Str) (hk : typeKey ≠ []) :
    (noCatalogMatchError zone region typeKey typeValue).Reason =
      noMatchReason typeKey typeValue zone region := by
  unfold noCatalogMatchError noMatchReason
  by_cases hz : zone = [] <;> by_cases hr : region = [] <;>
    simp [hk, hz, hr, Join, List.append_assoc]

theorem noCatalogMatchError_untyped (zone region typeValue : Str) :
    (noCatalogMatchError zone region [] typeValue).Reason = noMatchReasonUntyped zone region := by
  unfold noCatalogMatchError noMatchReasonUntyped
  by_cases hz : zone = [] <;> by_cases hr : region = [] <;>
    simp [hz, hr, Join, List.append_assoc]

/-- With the required attribute present, a single-product rule is one call of
`findBestProduct` with the filter, token and quantity of its row in the
dispatch table. -/
theorem Resolve_single (T : CaseTables) (c : ResourceChange) (products : List Product)
    (hT : c.Typ ∈ singleProductTypes)
    (hreq : ∀ key, requiredAttribute c.Typ = some key → normalizeToken T (rawAttr c key) ≠ []) :
    Resolve T c products =
      match findBestProduct T products (ruleFilter T c.Typ) (requestedZone c)
          (requestedRegion c) (ruleToken T c) (ruleToken T c ≠ []) with
      | some product => .ok { Product := some product, Qty := ruleQty c }
      | none => .error (noCatalogMatchError (requestedZone c) (requestedRegion c)
          (ruleTokenKey c.Typ) (rawAttr c (ruleTokenKey c.Typ))) := by
  simp only [singleProductTypes, List.mem_cons, List.mem_singleton, List.mem_nil_iff,
    or_false] at hT
  rcases hT with h | h | h | h | h | h
  · have hne := hreq "type".toList (by rw [h]; decide)
    rw [Resolve_instance T c products h, if_neg hne]
    have e1 : ruleFilter T c.Typ = isInstanceProduct T := by
      unfold ruleFilter; rw [h, if_pos (by decide)]
    have e2 : ruleTokenKey c.Typ = "type".toList := by
      unfold ruleTokenKey; rw [h, if_pos (by decide)]
    have e3 : ruleToken T c = normalizeToken T (rawAttr c "type".toList) := by
      unfold ruleToken; rw [e2, h, if_neg (by decide), if_neg (by decide)]
    have e4 : ruleQty c = 1 := by
      unfold ruleQty; rw [h, if_neg (by decide), if_neg (by decide)]
    rw [e1, e2, e3, e4]
  · rw [Resolve_baremetal T c products h]
    have e1 : ruleFilter T c.Typ = isBaremetalProduct T := by
      unfold ruleFilter; rw [h, if_neg (by decide), if_pos (by decide)]
    have e2 : ruleTokenKey c.Typ = "type".toList := by
      unfold ruleTokenKey; rw [h, if_pos (by decide)]
    have e3 : ruleToken T c = normalizeToken T (rawAttr c "type".toList) := by
      unfold ruleToken; rw [e2, h, if_neg (by decide), if_neg (by decide)]
    have e4 : ruleQty c = 1 := by
      unfold ruleQty; rw [h, if_neg (by decide), if_neg (by decide)]
    rw [e1, e2, e3, e4]
  · have hne := hreq "node_type".toList (by rw [h]; decide)
    rw [Resolve_k8s T c products h, if_neg hne]
    have e1 : ruleFilter T c.Typ = isInstanceProduct T := by
      unfold ruleFilter; rw [h, if_pos (by decide)]
    have e2 : ruleTokenKey c.Typ = "node_type".toList := by
      unfold ruleTokenKey; rw [h, if_neg (by decide), if_neg (by decide)]
    have e3 : ruleToken T c = normalizeToken T (rawAttr c "node_type".toList) := by
      unfold ruleToken; rw [e2, h, if_neg (by decide), if_neg (by decide)]
    have e4 : ruleQty c = getFloat (applicableAttrs c) "size".toList 1 := by
      unfold ruleQty; rw [h, if_pos (by decide)]
    rw [e1, e2, e3, e4]
  · have hne := hreq "type".toList (by rw [h]; decide)
    rw [Resolve_lb T c products h, if_neg hne]
    have e1 : ruleFilter T c.Typ = isLoadBalancerProduct T := by
      unfold ruleFilter; rw [h, if_neg (by decide), if_neg (by decide), if_pos (by decide)]
    have e2 : ruleTokenKey c.Typ = "type".toList := by
      unfold ruleTokenKey; rw [h, if_pos (by decide)]
    have e3 : ruleToken T c = normalizeLoadBalancerType T (rawAttr c "type".toList) := by
      unfold ruleToken; rw [h, if_pos (by decide)]
    have e4 : ruleQty c = 1 := by
      unfold ruleQty; rw [h, if_neg (by decide), if_neg (by decide)]
    rw [e1, e2, e3, e4]
  · rw [Resolve_block T c products h]
    have e1 : ruleFilter T c.Typ = isBlockStorageProduct T := by
      unfold ruleFilter
      rw [h, if_neg (by decide), if_neg (by decide), if_neg (by decide), if_pos (by decide)]
    have e2 : ruleTokenKey c.Typ = [] := by
      unfold ruleTokenKey; rw [h, if_neg (by decide), if_pos (by decide)]
    have e3 : ruleToken T c = [] := by
      unfold ruleToken; rw [h, if_neg (by decide), if_pos (by decide)]
    have e4 : ruleQty c = getFloat (applicableAttrs c) "size_in_gb".toList 1 := by
      unfold ruleQty; rw [h, if_neg (by decide), if_pos (by decide)]
    rw [e1, e2, e3, e4]
    have e5 : noCatalogMatchError (requestedZone c) (requestedRegion c) [] (rawAttr c []) =
        noCatalogMatchError (requestedZone c) (requestedRegion c) [] [] := by
      simp [noCatalogMatchError]
    rw [e5]
    simp
  · have hne := hreq "node_type".toList (by rw [h]; decide)
    rw [Resolve_rdb T c products h, if_neg hne]
    have e1 : ruleFilter T c.Typ = isRDBProduct T := by
      unfold ruleFilter
      rw [h, if_neg (by decide), if_neg (by decide), if_neg (by decide), if_neg (by decide)]
    have e2 : ruleTokenKey c.Typ = "node_type".toList := by
      unfold ruleTokenKey; rw [h, if_neg (by decide), if_neg (by decide)]
    have e3 : ruleToken T c = normalizeToken T (rawAttr c "node_type".toList) := by
      unfold ruleToken; rw [e2, h, if_neg (by decide), if_neg (by decide)]
    have e4 : ruleQty c = 1 := by
      unfold ruleQty; rw [h, if_neg (by decide), if_neg (by decide)]
    rw [e1, e2, e3, e4]

/-- A supported resource type fails only with `missing_required_attribute` or
`no_catalog_match`. -/
theorem Resolve_error_code_supported (T : CaseTables) (c : ResourceChange)
    (products : List Product) (e : Error) (h : c.Typ ∈ supportedTypes)
    (he : Resolve T c products = .error e) :
    e.Code = .MissingRequiredAttribute ∨ e.Code = .NoCatalogMatch := by
  simp only [supportedTypes, List.mem_cons, List.mem_singleton, List.mem_nil_iff,
    or_false] at h
  rcases h with h | h | h | h | h | h | h
  · rw [Resolve_instance T c products h] at he
    split at he
    · cases he; exact Or.inl rfl
    · split at he
      · cases he
      · cases he; exact Or.inr rfl
  · rw [Resolve_baremetal T c products h] at he
    split at he
    · cases he
    · cases he; exact Or.inr rfl
  · rw [Resolve_k8s T c products h] at he
    split at he
    · cases he; exact Or.inl rfl
    · split at he
      · cases he
      · cases he; exact Or.inr rfl
  · rw [Resolve_lb T c products h] at he
    split at he
    · cases he; exact Or.inl rfl
    · split at he
      · cases he
      · cases he; exact Or.inr rfl
  · rw [Resolve_block T c products h] at he
    split at he
    · cases he
    · cases he; exact Or.inr rfl
  · rw [Resolve_rdb T c products h] at he
    split at he
    · cases he; exact Or.inl rfl
    · split at he
      · cases he
      · cases he; exact Or.inr rfl
  · rw [Resolve_redis T c products h] at he
    split at he
    · cases he; exact Or.inl rfl
    · split at he
      · cases he; exact Or.inr rfl
      · split at he
        · split at he
          · cases he; exact Or.inr rfl
          · cases he
        · cases he

/-- C5: `Resolve` returns an error with code `not_implemented` if and only if
the change type is none of the seven supported types, for every attribute set
and every catalog. -/
theorem Resolve_notImplemented_iff (T : CaseTables) (c : ResourceChange)
    (products : List Product) :
    (∃ e, Resolve T c products = .error e ∧ e.Code = .NotImplemented) ↔
      c.Typ ∉ supportedTypes := by
  constructor
  · rintro ⟨e, he, hcode⟩ hmem
    rcases Resolve_error_code_supported T c products e hmem he with h | h <;>
      rw [hcode] at h <;> cases h
  · intro h
    exact ⟨_, Resolve_unsupported T c products h, rfl⟩

/-- Witness for C5: an object bucket is not implemented, also on a catalog that
holds an instance product. -/
theorem Resolve_notImplemented_witness :
    ∃ e, Resolve CaseTables.ascii
        { Typ := "scaleway_object_bucket".toList
          After := [("name".toList, .str "logs".toList)] }
        [{ ProductCategory := "Instance".toList }] = .error e ∧ e.Code = .NotImplemented :=
  (Resolve_notImplemented_iff CaseTables.ascii _ _).mpr (by decide)

theorem requiredAttribute_cases (typ key : Str) (h : requiredAttribute typ = some key) :
    (key = "type".toList ∧
      (typ = "scaleway_instance_server".toList ∨ typ = "scaleway_lb".toList)) ∨
    (key = "node_type".toList ∧
      (typ = "scaleway_k8s_pool".toList ∨ typ = "scaleway_rdb_instance".toList ∨
        typ = "scaleway_redis_cluster".toList)) := by
  unfold requiredAttribute at h
  split at h
  · rename_i h1
    exact Or.inl ⟨by cases h; rfl, h1⟩
  · split at h
    · rename_i h2
      exact Or.inr ⟨by cases h; rfl, h2⟩
    · cases h

theorem normalizeToken_nil (T : CaseTables) : normalizeToken T (TrimSpace []) = [] := rfl

/-- C6, counterexample: an instance server whose `type` attribute is present
with the string `"-"` gets `missing_required_attribute`, although the attribute
is neither absent nor null; the catalog holds an instance product. -/
theorem Resolve_missing_claim_fails :
    List.lookup "type".toList (applicableAttrs
      { Typ := "scaleway_instance_server".toList
        After := [("type".toList, .str "-".toList)] }) = some (.str "-".toList) ∧
    Resolve CaseTables.ascii
      { Typ := "scaleway_instance_server".toList
        After := [("type".toList, .str "-".toList)] } [instPar2] =
      .error ⟨.MissingRequiredAttribute, "missing required attribute: type".toList⟩ := by
  decide

/-- C6, amended: for instance server and load balancer (required attribute
`type`) and for k8s pool, rdb instance and redis cluster (required attribute
`node_type`), `Resolve` returns an error with code `missing_required_attribute`
exactly when the required attribute, read as a string from the applicable
attribute set, trimmed and normalised, is the empty token; this is so when the
attribute is absent or null, and the catalog plays no part. -/
theorem Resolve_missing_iff (T : CaseTables) (c : ResourceChange) (products : List Product)
    (key : Str) (hkey : requiredAttribute c.Typ = some key) :
    ((∃ e, Resolve T c products = .error e ∧ e.Code = .MissingRequiredAttribute) ↔
      normalizeToken T (rawAttr c key) = []) ∧
    ((List.lookup key (applicableAttrs c) = none ∨
        List.lookup key (applicableAttrs c) = some .null) →
      ∃ e, Resolve T c products = .error e ∧ e.Code = .MissingRequiredAttribute) := by
  have hiff : (∃ e, Resolve T c products = .error e ∧ e.Code = .MissingRequiredAttribute) ↔
      normalizeToken T (rawAttr c key) = [] := by
    by_cases htok : normalizeToken T (rawAttr c key) = []
    · refine ⟨fun _ => htok, fun _ => ?_⟩
      rcases requiredAttribute_cases c.Typ key hkey with ⟨hk, h | h⟩ | ⟨hk, h | h | h⟩ <;>
        subst hk
      · rw [Resolve_instance T c products h, if_pos htok]; exact ⟨_, rfl, rfl⟩
      · rw [Resolve_lb T c products h, if_pos htok]; exact ⟨_, rfl, rfl⟩
      · rw [Resolve_k8s T c products h, if_pos htok]; exact ⟨_, rfl, rfl⟩
      · rw [Resolve_rdb T c products h, if_pos htok]; exact ⟨_, rfl, rfl⟩
      · rw [Resolve_redis T c products h, if_pos htok]; exact ⟨_, rfl, rfl⟩
    · refine ⟨fun hex => ?_, fun h => absurd h htok⟩
      exfalso
      obtain ⟨e, he, hcode⟩ := hex
      rcases requiredAttribute_cases c.Typ key hkey with ⟨hk, h | h⟩ | ⟨hk, h | h | h⟩ <;>
        subst hk
      · rw [Resolve_instance T c products h, if_neg htok] at he
        split at he
        · cases he
        · cases he; cases hcode
      · rw [Resolve_lb T c products h, if_neg htok] at he
        split at he
        · cases he
        · cases he; cases hcode
      · rw [Resolve_k8s T c products h, if_neg htok] at he
        split at he
        · cases he
        · cases he; cases hcode
      · rw [Resolve_rdb T c products h, if_neg htok] at he
        split at he
        · cases he
        · cases he; cases hcode
      · rw [Resolve_redis T c products h, if_neg htok] at he
        split at he
        · cases he; cases hcode
        · split at he
          · split at he
            · cases he; cases hcode
            · cases he
          · cases he
  refine ⟨hiff, fun habs => hiff.mpr ?_⟩
  have hs : getString (applicableAttrs c) key = [] := by
    unfold getString
    rcases habs with h | h <;> rw [h]
  unfold rawAttr
  rw [hs]
  exact normalizeToken_nil T

/-- Witness for C6: an rdb instance with only a `region` attribute misses its
`node_type`, on the empty catalog. -/
theorem Resolve_missing_witness :
    ∃ e, Resolve CaseTables.ascii
        { Typ := "scaleway_rdb_instance".toList
          After := [("region".toList, .str "fr-par".toList)] } [] = .error e ∧
      e.Code = .MissingRequiredAttribute :=
  (Resolve_missing_iff CaseTables.ascii
    { Typ := "scaleway_rdb_instance".toList
      After := [("region".toList, .str "fr-par".toList)] } [] "node_type".toList
    (by decide)).2 (Or.inl (by decide))

theorem ruleTokenKey_block : ruleTokenKey "scaleway_block_volume".toList = [] := by
  unfold ruleTokenKey; rw [if_neg (by decide), if_pos (by decide)]

theorem ruleTokenKey_ne_nil (typ : Str) (h : typ ≠ "scaleway_block_volume".toList) :
    ruleTokenKey typ ≠ [] := by
  unfold ruleTokenKey
  split_ifs <;> decide

/-- C7, counterexample: a block volume on the empty catalog, with no zone and
no region, fails with the bare reason `no catalog match`, which is not of the
form `no catalog match (<attr>=<value>, ...)` for any attribute and value. -/
theorem Resolve_noCatalogMatch_claim_fails :
    Resolve CaseTables.ascii { Typ := "scaleway_block_volume".toList } [] =
      .error ⟨.NoCatalogMatch, "no catalog match".toList⟩ ∧
    ∀ attr value : Str, noMatchReason attr value [] [] ≠ "no catalog match".toList := by
  refine ⟨by decide, ?_⟩
  intro attr value h
  have hlen := congrArg List.length h
  simp [noMatchReason] at hlen

/-- C7, amended: for a single-product rule with its required attribute present,
`Resolve` returns an error with code `no_catalog_match` exactly when no catalog
entry passes the rule's category, locality and type-token filters (so always on
the empty catalog), and it returns no other error. For the five rules that read
a type attribute the reason is
`no catalog match (<attr>=<value>, zone=<zone>, region=<region>)` with the
trimmed attribute value and with the zone and the region named only when
non-empty; for block volume, which reads no type attribute, the reason names
only the non-empty zone and region and is the bare `no catalog match` when both
are empty. -/
theorem Resolve_noCatalogMatch_iff (T : CaseTables) (c : ResourceChange)
    (products : List Product) (hT : c.Typ ∈ singleProductTypes)
    (hreq : ∀ key, requiredAttribute c.Typ = some key → normalizeToken T (rawAttr c key) ≠ []) :
    ((∃ e, Resolve T c products = .error e ∧ e.Code = .NoCatalogMatch) ↔
      ∀ q ∈ products, passesFilters T (ruleFilter T c.Typ) (requestedZone c)
        (requestedRegion c) (ruleToken T c) (ruleToken T c ≠ []) q = false) ∧
    (∀ e, Resolve T c products = .error e →
      e.Code = .NoCatalogMatch ∧
      e.Reason =
        if c.Typ = "scaleway_block_volume".toList then
          noMatchReasonUntyped (requestedZone c) (requestedRegion c)
        else
          noMatchReason (ruleTokenKey c.Typ) (rawAttr c (ruleTokenKey c.Typ))
            (requestedZone c) (requestedRegion c)) := by
  have hnone := findBestProduct_eq_none_iff T products (ruleFilter T c.Typ) (requestedZone c)
    (requestedRegion c) (ruleToken T c) (ruleToken T c ≠ [])
  rw [Resolve_single T c products hT hreq]
  cases hfb : findBestProduct T products (ruleFilter T c.Typ) (requestedZone c)
      (requestedRegion c) (ruleToken T c) (ruleToken T c ≠ []) with
  | none =>
    refine ⟨⟨fun _ => hnone.mp hfb, fun _ => ⟨_, rfl, rfl⟩⟩, ?_⟩
    intro e he
    cases he
    refine ⟨rfl, ?_⟩
    by_cases hb : c.Typ = "scaleway_block_volume".toList
    · rw [if_pos hb, hb, ruleTokenKey_block]
      exact noCatalogMatchError_untyped _ _ _
    · rw [if_neg hb]
      exact noCatalogMatchError_typed _ _ _ _ (ruleTokenKey_ne_nil c.Typ hb)
  | some p =>
    refine ⟨⟨?_, fun h => ?_⟩, fun e he => by cases he⟩
    · rintro ⟨e, he, _⟩
      cases he
    · rw [hnone.mpr h] at hfb
      cases hfb

/-- Witness for C7: an instance server asking for type `DEV1-S` in zone
`nl-ams-1` finds nothing in a catalog that only holds a `fr-par-2` instance. -/
theorem Resolve_noCatalogMatch_witness :
    ∃ e, Resolve CaseTables.ascii
        { Typ := "scaleway_instance_server".toList
          After := [("type".toList, .str "DEV1-S".toList),
                    ("zone".toList, .str "nl-ams-1".toList)] } [instPar2] = .error e ∧
      e.Code = .NoCatalogMatch :=
  (Resolve_noCatalogMatch_iff CaseTables.ascii
    { Typ := "scaleway_instance_server".toList
      After := [("type".toList, .str "DEV1-S".toList),
                ("zone".toList, .str "nl-ams-1".toList)] } [instPar2] (by decide)
    (by
      intro key hk
      have h2 : requiredAttribute "scaleway_instance_server".toList = some "type".toList := by
        decide
      have : key = "type".toList := Option.some.inj (hk.symm.trans h2)
      subst this
      decide)).1.mpr (by decide)

/-- `Resolve` reads a change only through its type, the requested locality and
five attributes. -/
theorem Resolve_congr (T : CaseTables) (c d : ResourceChange) (products : List Product)
    (hT : c.Typ = d.Typ) (hz : requestedZone c = requestedZone d)
    (hr : requestedRegion c = requestedRegion d)
    (ht : getString (applicableAttrs c) "type".toList =
      getString (applicableAttrs d) "type".toList)
    (hn : getString (applicableAttrs c) "node_type".toList =
      getString (applicableAttrs d) "node_type".toList)
    (hs : getFloat (applicableAttrs c) "size".toList 1 =
      getFloat (applicableAttrs d) "size".toList 1)
    (hg : getFloat (applicableAttrs c) "size_in_gb".toList 1 =
      getFloat (applicableAttrs d) "size_in_gb".toList 1)
    (hc : getFloat (applicableAttrs c) "cluster_size".toList 1 =
      getFloat (applicableAttrs d) "cluster_size".toList 1) :
    Resolve T c products = Resolve T d products := by
  unfold requestedZone requestedRegion applicableAttrs at *
  unfold Resolve
  simp only [hT, hz, hr, ht, hn, hs, hg, hc]

/-- `Resolve` reads the attributes of a change only from its applicable set. -/
theorem Resolve_congr_attrs (T : CaseTables) (c d : ResourceChange) (products : List Product)
    (hT : c.Typ = d.Typ) (hA : applicableAttrs c = applicableAttrs d)
    (hZ : c.Zone = d.Zone) (hR : c.Region = d.Region) :
    Resolve T c products = Resolve T d products :=
  Resolve_congr T c d products hT (by unfold requestedZone; rw [hA, hZ])
    (by unfold requestedRegion; rw [hA, hR]) (by rw [hA]) (by rw [hA]) (by rw [hA])
    (by rw [hA]) (by rw [hA])

theorem lookup_cons_ne (k k' : Str) (v : Value) (l : Attrs) (h : k ≠ k') :
    List.lookup k ((k', v) :: l) = List.lookup k l := by
  have : (k == k') = false := by simpa using h
  simp [List.lookup, this]

theorem lookup_cons_self (k : Str) (v : Value) (l : Attrs) :
    List.lookup k ((k, v) :: l) = some v := by
  simp [List.lookup]

theorem getString_cons_ne (k k' : Str) (v : Value) (l : Attrs) (h : k ≠ k') :
    getString ((k', v) :: l) k = getString l k := by
  unfold getString; rw [lookup_cons_ne k k' v l h]

theorem getFloat_cons_ne (k k' : Str) (v : Value) (l : Attrs) (x : ℚ) (h : k ≠ k') :
    getFloat ((k', v) :: l) k x = getFloat l k x := by
  unfold getFloat; rw [lookup_cons_ne k k' v l h]

theorem getString_cons_self (k : Str) (s : Str) (l : Attrs) :
    getString ((k, .str s) :: l) k = s := by
  unfold getString; rw [lookup_cons_self]

theorem getString_absent (k : Str) (l : Attrs)
    (h : List.lookup k l = none ∨ List.lookup k l = some .null) : getString l k = [] := by
  unfold getString
  rcases h with h | h <;> rw [h]

theorem applicableAttrs_after_cons (c : ResourceChange) (kv : Str × Value) (l : Attrs) :
    applicableAttrs { c with After := kv :: l } = kv :: l := by
  simp [applicableAttrs]

/-- C8: `Resolve` reads attributes from `after` whenever `after` is non-empty:
two changes that agree on type, on a non-empty `after` and on the plan-level
zone and region resolve alike on every catalog, whatever their `before`; and a
change with an empty `after` resolves exactly as the change whose `after` is its
`before`. -/
theorem Resolve_after_else_before (T : CaseTables) (c d : ResourceChange)
    (products : List Product) (hT : c.Typ = d.Typ) (hA : c.After = d.After)
    (hne : c.After ≠ []) (hZ : c.Zone = d.Zone) (hR : c.Region = d.Region) :
    Resolve T c products = Resolve T d products ∧
    ∀ e : ResourceChange, e.After = [] →
      Resolve T e products = Resolve T { e with After := e.Before } products := by
  constructor
  · refine Resolve_congr_attrs T c d products hT ?_ hZ hR
    have hne' : d.After ≠ [] := hA ▸ hne
    simp [applicableAttrs, hne, hne', hA]
  · intro e he
    refine Resolve_congr_attrs T e { e with After := e.Before } products rfl ?_ rfl rfl
    simp [applicableAttrs, he]

/-- Witness for C8: two instance servers with the same `after` and different
`before` attribute sets resolve to the same product. -/
theorem Resolve_after_else_before_witness :
    Resolve CaseTables.ascii
        { Typ := "scaleway_instance_server".toList
          Before := [("type".toList, .str "DEV1-S".toList)]
          After := [("type".toList, .str "POP2-HC-2C-4G".toList),
                    ("zone".toList, .str "fr-par-2".toList)] } [instPar2] =
      Resolve CaseTables.ascii
        { Typ := "scaleway_instance_server".toList
          Before := []
          After := [("type".toList, .str "POP2-HC-2C-4G".toList),
                    ("zone".toList, .str "fr-par-2".toList)] } [instPar2] :=
  (Resolve_after_else_before CaseTables.ascii _ _ [instPar2] rfl rfl (by decide) rfl rfl).1

/-- C9: when the applicable attribute set has no `zone` (respectively `region`)
key or maps it to null, `Resolve` answers as if the attribute held the
plan-level zone (respectively region); when the attribute is a non-empty string,
the plan-level default has no effect on the answer; and the load balancer of
the repository test, with `zone: null` and plan-level zone `fr-par-1`, resolves
to the `fr-par-1` SKU. -/
theorem Resolve_locality_default (T : CaseTables) (c : ResourceChange)
    (products : List Product) :
    ((List.lookup "zone".toList (applicableAttrs c) = none ∨
        List.lookup "zone".toList (applicableAttrs c) = some .null) →
      Resolve T c products =
        Resolve T { c with After := ("zone".toList, .str c.Zone) :: applicableAttrs c }
          products) ∧
    ((List.lookup "region".toList (applicableAttrs c) = none ∨
        List.lookup "region".toList (applicableAttrs c) = some .null) →
      Resolve T c products =
        Resolve T { c with After := ("region".toList, .str c.Region) :: applicableAttrs c }
          products) ∧
    (∀ z, List.lookup "zone".toList (applicableAttrs c) = some (.str z) → z ≠ [] →
      ∀ planZone, Resolve T { c with Zone := planZone } products = Resolve T c products) ∧
    (∀ r, List.lookup "region".toList (applicableAttrs c) = some (.str r) → r ≠ [] →
      ∀ planRegion, Resolve T { c with Region := planRegion } products =
        Resolve T c products) ∧
    Resolve CaseTables.ascii
        { Typ := "scaleway_lb".toList
          After := [("type".toList, .str "LB-S".toList), ("zone".toList, .null)]
          Zone := "fr-par-1".toList } [lbPar1] =
      .ok { Product := some lbPar1, Qty := 1 } := by
  refine ⟨?_, ?_, ?_, ?_, by decide⟩
  · intro h
    have hs := getString_absent "zone".toList (applicableAttrs c) h
    refine Resolve_congr T c
      { c with After := ("zone".toList, .str c.Zone) :: applicableAttrs c } products rfl
      ?_ ?_ ?_ ?_ ?_ ?_ ?_
    · unfold requestedZone
      rw [applicableAttrs_after_cons, getString_cons_self, hs, if_pos rfl]
      split <;> rfl
    · unfold requestedRegion
      rw [applicableAttrs_after_cons, getString_cons_ne _ _ _ _ (by decide)]
    · rw [applicableAttrs_after_cons, getString_cons_ne _ _ _ _ (by decide)]
    · rw [applicableAttrs_after_cons, getString_cons_ne _ _ _ _ (by decide)]
    · rw [applicableAttrs_after_cons, getFloat_cons_ne _ _ _ _ _ (by decide)]
    · rw [applicableAttrs_after_cons, getFloat_cons_ne _ _ _ _ _ (by decide)]
    · rw [applicableAttrs_after_cons, getFloat_cons_ne _ _ _ _ _ (by decide)]
  · intro h
    have hs := getString_absent "region".toList (applicableAttrs c) h
    refine Resolve_congr T c
      { c with After := ("region".toList, .str c.Region) :: applicableAttrs c } products rfl
      ?_ ?_ ?_ ?_ ?_ ?_ ?_
    · unfold requestedZone
      rw [applicableAttrs_after_cons, getString_cons_ne _ _ _ _ (by decide)]
    · unfold requestedRegion
      rw [applicableAttrs_after_cons, getString_cons_self, hs, if_pos rfl]
      split <;> rfl
    · rw [applicableAttrs_after_cons, getString_cons_ne _ _ _ _ (by decide)]
    · rw [applicableAttrs_after_cons, getString_cons_ne _ _ _ _ (by decide)]
    · rw [applicableAttrs_after_cons, getFloat_cons_ne _ _ _ _ _ (by decide)]
    · rw [applicableAttrs_after_cons, getFloat_cons_ne _ _ _ _ _ (by decide)]
    · rw [applicableAttrs_after_cons, getFloat_cons_ne _ _ _ _ _ (by decide)]
  · intro z hz hne planZone
    have hs : getString (applicableAttrs c) "zone".toList = z := by
      unfold getString; rw [hz]
    refine Resolve_congr T { c with Zone := planZone } c products rfl ?_ rfl rfl rfl rfl rfl rfl
    unfold requestedZone
    show (if getString (applicableAttrs c) "zone".toList = [] then planZone
      else getString (applicableAttrs c) "zone".toList) = _
    rw [hs, if_neg hne, if_neg hne]
  · intro r hr hne planRegion
    have hs : getString (applicableAttrs c) "region".toList = r := by
      unfold getString; rw [hr]
    refine Resolve_congr T { c with Region := planRegion } c products rfl rfl ?_ rfl rfl rfl
      rfl rfl
    unfold requestedRegion
    show (if getString (applicableAttrs c) "region".toList = [] then planRegion
      else getString (applicableAttrs c) "region".toList) = _
    rw [hs, if_neg hne, if_neg hne]

/-- Witness for C9: a load balancer whose `zone` attribute is absent, with
plan-level zone `fr-par-1`, resolves as if the attribute were `fr-par-1`, to the
`fr-par-1` SKU. -/
theorem Resolve_locality_default_witness :
    Resolve CaseTables.ascii
        { Typ := "scaleway_lb".toList
          After := [("type".toList, .str "LB-S".toList)]
          Zone := "fr-par-1".toList } [lbPar1] =
      Resolve CaseTables.ascii
        { Typ := "scaleway_lb".toList
          After := [("zone".toList, .str "fr-par-1".toList), ("type".toList, .str "LB-S".toList)]
          Zone := "fr-par-1".toList } [lbPar1] :=
  (Resolve_locality_default CaseTables.ascii
    { Typ := "scaleway_lb".toList
      After := [("type".toList, .str "LB-S".toList)]
      Zone := "fr-par-1".toList } [lbPar1]).1 (Or.inl (by decide))

/-! ## Tokens over the ASCII alphabet -/

theorem ascii_cases (P : Char → Prop) (h : ∀ n : Fin 128, P (Char.ofNat n)) (c : Char)
    (hc : c.toNat < 128) : P c := by
  have := h ⟨c.toNat, hc⟩
  simpa using this

theorem isTokenChar_ascii (c : Char) (h : isTokenChar c = true) : c.toNat < 128 := by
  simp only [isTokenChar, isAlnumChar, isSeparator, Bool.or_eq_true, Bool.and_eq_true,
    decide_eq_true_eq, beq_iff_eq] at h
  rcases h with ((h | h) | h) | (((h | h) | h) | h)
  · omega
  · omega
  · omega
  · subst h; decide
  · subst h; decide
  · subst h; decide
  · subst h; decide

set_option maxRecDepth 100000 in
theorem ascii_separator_facts (c : Char) (hc : c.toNat < 128) :
    isSeparator (asciiLower c) = isSeparator c ∧
    (isSpace c = true → isTokenChar c = true → isSeparator c = true) ∧
    (isTokenChar c = true → asciiLower (asciiLower c) = asciiLower c) := by
  refine ascii_cases (fun c => isSeparator (asciiLower c) = isSeparator c ∧
    (isSpace c = true → isTokenChar c = true → isSeparator c = true) ∧
    (isTokenChar c = true → asciiLower (asciiLower c) = asciiLower c)) ?_ c hc
  decide

theorem filter_dropWhile_of_dropped {α : Type} (p f : α → Bool) (l : List α)
    (h : ∀ x ∈ l, p x = true → f x = false) : (l.dropWhile p).filter f = l.filter f := by
  induction l with
  | nil => rfl
  | cons x xs ih =>
    have ih' := ih (fun y hy => h y (List.mem_cons_of_mem _ hy))
    by_cases hp : p x = true
    · have hf := h x (List.mem_cons_self _ _) hp
      simp [List.dropWhile, hp, hf, ih']
    · simp [List.dropWhile, hp]

theorem filter_rdropWhile_of_dropped {α : Type} (p f : α → Bool) (l : List α)
    (h : ∀ x ∈ l, p x = true → f x = false) : (l.rdropWhile p).filter f = l.filter f := by
  unfold List.rdropWhile
  rw [List.filter_reverse, filter_dropWhile_of_dropped p f l.reverse
    (fun x hx => h x (List.mem_reverse.mp hx)), List.filter_reverse, List.reverse_reverse]

theorem normalizeToken_strip (T : CaseTables) (v : Str) :
    normalizeToken T v = stripSeparators (ToLower T (TrimSpace v)) := by
  unfold normalizeToken stripSeparators
  simp only [ReplaceAll_nil_eq_filter, List.filter_filter]
  congr 1
  funext c
  simp only [Bool.and_comm, Bool.and_assoc, Bool.and_left_comm]

theorem stripSeparators_eq_filter (v : Str) :
    stripSeparators v = v.filter fun c => !isSeparator c := by
  unfold stripSeparators isSeparator
  congr 1
  funext c
  simp [Bool.not_or, bne]

/-- Trimming white space before stripping the separators changes nothing when
every white-space rune dropped lower-cases to a separator. -/
theorem stripSeparators_trim (T : CaseTables) (v : Str)
    (h : ∀ c ∈ v, isSpace c = true → isSeparator (toLowerRune T c) = true) :
    stripSeparators (ToLower T (TrimSpace v)) = stripSeparators (ToLower T v) := by
  simp only [stripSeparators_eq_filter, ToLower, List.filter_map]
  congr 1
  unfold TrimSpace
  have h1 : ∀ c ∈ v, isSpace c = true →
      ((fun c => !isSeparator c) ∘ toLowerRune T) c = false := by
    intro c hc hs
    simp [h c hc hs]
  rw [filter_rdropWhile_of_dropped isSpace _ (v.dropWhile isSpace)
    (fun c hc => h1 c ((List.dropWhile_suffix _).mem hc)),
    filter_dropWhile_of_dropped isSpace _ v h1]

theorem toLowerRune_ascii (T : CaseTables) (c : Char) (h : c.toNat < 128) :
    toLowerRune T c = asciiLower c := by
  simp [toLowerRune, h]

/-- On strings of ASCII letters, digits and separators `normalizeToken` deletes
the separators and lower-cases the letters. -/
theorem normalizeToken_tokenKey (T : CaseTables) (v : Str)
    (h : ∀ c ∈ v, isTokenChar c = true) : normalizeToken T v = tokenKey v := by
  rw [normalizeToken_strip, stripSeparators_trim]
  · simp only [tokenKey, stripSeparators_eq_filter, ToLower, List.filter_map]
    have hf : v.filter ((fun c => !isSeparator c) ∘ toLowerRune T) =
        v.filter (fun c => !isSeparator c) := by
      apply List.filter_congr
      intro c hc
      have ha := isTokenChar_ascii c (h c hc)
      simp [toLowerRune_ascii T c ha, (ascii_separator_facts c ha).1]
    rw [hf]
    apply List.map_congr_left
    intro c hc
    exact toLowerRune_ascii T c (isTokenChar_ascii c (h c (List.mem_filter.mp hc).1))
  · intro c hc hs
    have ha := isTokenChar_ascii c (h c hc)
    rw [toLowerRune_ascii T c ha, (ascii_separator_facts c ha).1]
    exact (ascii_separator_facts c ha).2.1 hs (h c hc)

/-- C11: `normalizeToken "POP2-HC-2C-4G" = normalizeToken "pop2_hc_2c_4g"`, and
any two strings made only of ASCII letters, digits and the separators `'-'`,
`'_'`, space and `'/'` that coincide after deleting the separators and ignoring
letter case have the same `normalizeToken` value. -/
theorem normalizeToken_insensitive (T : CaseTables) (s t : Str)
    (hs : ∀ c ∈ s, isTokenChar c = true) (ht : ∀ c ∈ t, isTokenChar c = true)
    (h : tokenKey s = tokenKey t) :
    normalizeToken T s = normalizeToken T t ∧
    normalizeToken T "POP2-HC-2C-4G".toList = normalizeToken T "pop2_hc_2c_4g".toList := by
  refine ⟨?_, ?_⟩
  · rw [normalizeToken_tokenKey T s hs, normalizeToken_tokenKey T t ht, h]
  · rw [normalizeToken_tokenKey T _ (by decide), normalizeToken_tokenKey T _ (by decide)]
    decide

/-- Witness for C11: `Dev1 S` and `dev1/s` normalise to the same token. -/
theorem normalizeToken_insensitive_witness :
    normalizeToken CaseTables.ascii "Dev1 S".toList =
      normalizeToken CaseTables.ascii "dev1/s".toList :=
  (normalizeToken_insensitive CaseTables.ascii "Dev1 S".toList "dev1/s".toList
    (by decide) (by decide) (by decide)).1

/-- C12, counterexample: a baremetal server of type `EM-A210R-HDD` in zone
`fr-par-1`, against a catalog whose only entry is a baremetal product of that
zone that does not contain the type token, fails with `no_catalog_match`
although the entry passes the category filter and the locality filter. -/
theorem Resolve_baremetal_claim_fails :
    isBaremetalProduct CaseTables.ascii emPar1 = true ∧
    (scoreLocality CaseTables.ascii emPar1 "fr-par-1".toList []).2 = true ∧
    Resolve CaseTables.ascii
        { Typ := "scaleway_baremetal_server".toList
          After := [("type".toList, .str "EM-A210R-HDD".toList),
                    ("zone".toList, .str "fr-par-1".toList)] } [emPar1] =
      .error ⟨.NoCatalogMatch,
        "no catalog match (type=EM-A210R-HDD, zone=fr-par-1)".toList⟩ := by
  decide

/-- C12, amended: for `scaleway_baremetal_server` the `type` attribute may be
left out, and `Resolve` never answers `missing_required_attribute`. When it
gives no token, `Resolve` succeeds exactly when some product passes the
baremetal category filter and the locality filter. When it gives a token, a
product that does not contain it is rejected, and `Resolve` succeeds exactly
when some product passes both filters and contains the token. -/
theorem Resolve_baremetal_type (T : CaseTables) (c : ResourceChange) (products : List Product)
    (h : c.Typ = "scaleway_baremetal_server".toList) :
    (∀ e, Resolve T c products = .error e → e.Code = .NoCatalogMatch) ∧
    (normalizeToken T (rawAttr c "type".toList) = [] →
      ((∃ r, Resolve T c products = .ok r) ↔
        ∃ q ∈ products, isBaremetalProduct T q = true ∧
          (scoreLocality T q (requestedZone c) (requestedRegion c)).2 = true)) ∧
    (normalizeToken T (rawAttr c "type".toList) ≠ [] →
      ((∃ r, Resolve T c products = .ok r) ↔
        ∃ q ∈ products, isBaremetalProduct T q = true ∧
          (scoreLocality T q (requestedZone c) (requestedRegion c)).2 = true ∧
          matchesToken T q (normalizeToken T (rawAttr c "type".toList)) = true)) := by
  have hsucc : (∃ r, Resolve T c products = .ok r) ↔
      ∃ q ∈ products, passesFilters T (isBaremetalProduct T) (requestedZone c)
        (requestedRegion c) (normalizeToken T (rawAttr c "type".toList))
        (normalizeToken T (rawAttr c "type".toList) ≠ []) q = true := by
    rw [← findBestProduct_isSome_iff, Resolve_baremetal T c products h]
    cases findBestProduct T products (isBaremetalProduct T) (requestedZone c)
        (requestedRegion c) (normalizeToken T (rawAttr c "type".toList))
        (normalizeToken T (rawAttr c "type".toList) ≠ []) with
    | none => simp
    | some p => simp
  refine ⟨?_, ?_, ?_⟩
  · intro e he
    rw [Resolve_baremetal T c products h] at he
    split at he
    · cases he
    · cases he; rfl
  · intro htok
    rw [hsucc]
    generalize normalizeToken T (rawAttr c "type".toList) = tok at htok ⊢
    subst htok
    simp [passesFilters]
  · intro htok
    rw [hsucc]
    generalize normalizeToken T (rawAttr c "type".toList) = tok at htok ⊢
    simp [passesFilters, htok, and_assoc]

/-- Witness for C12: the same baremetal server without a `type` attribute
resolves to the only baremetal entry of its zone. -/
theorem Resolve_baremetal_type_witness :
    ∃ r, Resolve CaseTables.ascii
        { Typ := "scaleway_baremetal_server".toList
          After := [("zone".toList, .str "fr-par-1".toList)] } [emPar1] = .ok r :=
  ((Resolve_baremetal_type CaseTables.ascii
    { Typ := "scaleway_baremetal_server".toList
      After := [("zone".toList, .str "fr-par-1".toList)] } [emPar1] rfl).2.1
    (by decide)).mpr ⟨emPar1, by decide, by decide, by decide⟩

/-! ## What a successful `Resolve` returns -/

theorem Resolve_missing_of_empty (T : CaseTables) (c : ResourceChange)
    (products : List Product) (key : Str) (hkey : requiredAttribute c.Typ = some key)
    (htok : normalizeToken T (rawAttr c key) = []) :
    Resolve T c products =
      .error ⟨.MissingRequiredAttribute, "missing required attribute: ".toList ++ key⟩ := by
  rcases requiredAttribute_cases c.Typ key hkey with ⟨hk, h | h⟩ | ⟨hk, h | h | h⟩ <;> subst hk
  · rw [Resolve_instance T c products h, if_pos htok]; rfl
  · rw [Resolve_lb T c products h, if_pos htok]; rfl
  · rw [Resolve_k8s T c products h, if_pos htok]; rfl
  · rw [Resolve_rdb T c products h, if_pos htok]; rfl
  · rw [Resolve_redis T c products h, if_pos htok]; rfl

theorem Resolve_ok_required (T : CaseTables) (c : ResourceChange) (products : List Product)
    (r : Result) (h : Resolve T c products = .ok r) :
    ∀ key, requiredAttribute c.Typ = some key → normalizeToken T (rawAttr c key) ≠ [] := by
  intro key hkey htok
  rw [Resolve_missing_of_empty T c products key hkey htok] at h
  cases h

/-- A single-product rule that succeeds returns an entry of the catalog that
passes the rule's filters, with the quantity of the rule. -/
theorem Resolve_ok_single (T : CaseTables) (c : ResourceChange) (products : List Product)
    (r : Result) (hT : c.Typ ∈ singleProductTypes) (h : Resolve T c products = .ok r) :
    ∃ p, r = { Product := some p, Qty := ruleQty c } ∧ p ∈ products ∧
      ruleFilter T c.Typ p = true ∧
      (scoreLocality T p (requestedZone c) (requestedRegion c)).2 = true ∧
      (ruleToken T c ≠ [] → matchesToken T p (ruleToken T c) = true) := by
  rw [Resolve_single T c products hT (Resolve_ok_required T c products r h)] at h
  cases hfb : findBestProduct T products (ruleFilter T c.Typ) (requestedZone c)
      (requestedRegion c) (ruleToken T c) (ruleToken T c ≠ []) with
  | none => rw [hfb] at h; cases h
  | some p =>
    rw [hfb] at h
    obtain ⟨hmem, hpass, _⟩ := findBestProduct_some T products _ _ _ _ _ p hfb
    refine ⟨p, by cases h; rfl, hmem, ?_⟩
    generalize ruleToken T c = tok at hpass ⊢
    simp only [passesFilters, Bool.and_eq_true, Bool.or_eq_true, Bool.not_eq_true',
      decide_eq_false_iff_not, ne_eq, not_not] at hpass
    refine ⟨hpass.1.1, hpass.1.2, fun hne => ?_⟩
    rcases hpass.2 with h1 | h1
    · exact absurd h1 hne
    · exact h1

theorem ruleFilter_instance (T : CaseTables) :
    ruleFilter T "scaleway_instance_server".toList = isInstanceProduct T := by
  unfold ruleFilter; rw [if_pos (by decide)]

theorem ruleFilter_k8s (T : CaseTables) :
    ruleFilter T "scaleway_k8s_pool".toList = isInstanceProduct T := by
  unfold ruleFilter; rw [if_pos (by decide)]

theorem ruleFilter_baremetal (T : CaseTables) :
    ruleFilter T "scaleway_baremetal_server".toList = isBaremetalProduct T := by
  unfold ruleFilter; rw [if_neg (by decide), if_pos (by decide)]

theorem ruleFilter_lb (T : CaseTables) :
    ruleFilter T "scaleway_lb".toList = isLoadBalancerProduct T := by
  unfold ruleFilter; rw [if_neg (by decide), if_neg (by decide), if_pos (by decide)]

theorem ruleFilter_block (T : CaseTables) :
    ruleFilter T "scaleway_block_volume".toList = isBlockStorageProduct T := by
  unfold ruleFilter
  rw [if_neg (by decide), if_neg (by decide), if_neg (by decide), if_pos (by decide)]

theorem ruleFilter_rdb (T : CaseTables) :
    ruleFilter T "scaleway_rdb_instance".toList = isRDBProduct T := by
  unfold ruleFilter
  rw [if_neg (by decide), if_neg (by decide), if_neg (by decide), if_neg (by decide)]

theorem getFloat_eq_numberOr (attrs : Attrs) (key : Str) (fallback : ℚ) :
    getFloat attrs key fallback = numberOr (List.lookup key attrs) fallback := by
  unfold getFloat numberOr
  rcases List.lookup key attrs with _ | v
  · rfl
  · cases v <;> rfl

/-- C13: whenever `Resolve` succeeds for a single-product rule, the returned
quantity is 1 for instance server, baremetal server, load balancer and rdb
instance; for a k8s pool it is the number under `size`, and for a block volume
the number under `size_in_gb`, each 1 when the attribute is absent, null or not
a number. The number under an attribute is the float64 it holds, or the `int`
it holds converted to float64, which is that `int` up to `2 ^ 53`. -/
theorem Resolve_quantity (T : CaseTables) (c : ResourceChange) (products : List Product)
    (r : Result) (h : Resolve T c products = .ok r) :
    ((c.Typ = "scaleway_instance_server".toList ∨ c.Typ = "scaleway_baremetal_server".toList ∨
        c.Typ = "scaleway_lb".toList ∨ c.Typ = "scaleway_rdb_instance".toList) → r.Qty = 1) ∧
    (c.Typ = "scaleway_k8s_pool".toList →
      r.Qty = numberOr (List.lookup "size".toList (applicableAttrs c)) 1) ∧
    (c.Typ = "scaleway_block_volume".toList →
      r.Qty = numberOr (List.lookup "size_in_gb".toList (applicableAttrs c)) 1) ∧
    (∀ x fallback : ℚ, numberOr (some (.float x)) fallback = x) ∧
    (∀ (n : ℤ) (fallback : ℚ), numberOr (some (.int n)) fallback = float64OfInt n ∧
      (|n| ≤ 2 ^ 53 → numberOr (some (.int n)) fallback = (n : ℚ))) ∧
    (∀ fallback : ℚ, numberOr none fallback = fallback ∧
      numberOr (some .null) fallback = fallback ∧
      (∀ s, numberOr (some (.str s)) fallback = fallback) ∧
      (∀ b, numberOr (some (.bool b)) fallback = fallback) ∧
      numberOr (some .other) fallback = fallback) := by
  have key : c.Typ ∈ singleProductTypes → r.Qty = ruleQty c := by
    intro hT
    obtain ⟨p, hr, _⟩ := Resolve_ok_single T c products r hT h
    rw [hr]
  refine ⟨?_, ?_, ?_, fun _ _ => rfl,
    fun n _ => ⟨rfl, fun hn => float64OfInt_of_abs_le n hn⟩,
    fun _ => ⟨rfl, rfl, fun _ => rfl, fun _ => rfl, rfl⟩⟩
  · intro ht
    rcases ht with ht | ht | ht | ht <;>
      · rw [key (by rw [ht]; decide)]
        unfold ruleQty
        rw [ht, if_neg (by decide), if_neg (by decide)]
  · intro ht
    rw [key (by rw [ht]; decide), ← getFloat_eq_numberOr]
    unfold ruleQty
    rw [ht, if_pos (by decide)]
  · intro ht
    rw [key (by rw [ht]; decide), ← getFloat_eq_numberOr]
    unfold ruleQty
    rw [ht, if_neg (by decide), if_pos (by decide)]

/-- Witness for C13: the k8s pool of the repository test, with `size` 3,
resolves to the node SKU with quantity 3. -/
theorem Resolve_quantity_witness :
    Resolve CaseTables.ascii
        { Typ := "scaleway_k8s_pool".toList
          After := [("region".toList, .str "fr-par".toList),
                    ("node_type".toList, .str "DEV1-M".toList),
                    ("size".toList, .float 3)] }
        [kapsuleControlPlane, dev1mPar1] = .ok { Product := some dev1mPar1, Qty := 3 } ∧
    (3 : ℚ) = numberOr (List.lookup "size".toList
      [("region".toList, .str "fr-par".toList), ("node_type".toList, .str "DEV1-M".toList),
       ("size".toList, Value.float 3)]) 1 :=
  have h : Resolve CaseTables.ascii
      { Typ := "scaleway_k8s_pool".toList
        After := [("region".toList, .str "fr-par".toList),
                  ("node_type".toList, .str "DEV1-M".toList),
                  ("size".toList, .float 3)] }
      [kapsuleControlPlane, dev1mPar1] = .ok { Product := some dev1mPar1, Qty := 3 } := by
    decide
  ⟨h, (Resolve_quantity CaseTables.ascii _ _ _ h).2.1 rfl⟩

theorem Resolve_ok_redis (T : CaseTables) (c : ResourceChange) (products : List Product)
    (r : Result) (hT : c.Typ = "scaleway_redis_cluster".toList)
    (h : Resolve T c products = .ok r) :
    ∃ mainNode,
      findBestRedisRoleProduct T products "main-node".toList (requestedZone c)
        (requestedRegion c) (normalizeToken T (rawAttr c "node_type".toList)) = some mainNode ∧
      ((nodeCount c > 1 ∧ ∃ additionalNode,
          findBestRedisRoleProduct T products "additional-node".toList (requestedZone c)
            (requestedRegion c) (normalizeToken T (rawAttr c "node_type".toList)) =
              some additionalNode ∧
          r = { Product := some mainNode, Qty := float64OfInt (nodeCount c)
                Matches := [{ Product := mainNode, Qty := 1 },
                  { Product := additionalNode, Qty := float64OfInt (nodeCount c - 1) }] }) ∨
       (¬ nodeCount c > 1 ∧
          r = { Product := some mainNode, Qty := float64OfInt (nodeCount c)
                Matches := [{ Product := mainNode, Qty := 1 }] })) := by
  have hne := Resolve_ok_required T c products r h "node_type".toList (by rw [hT]; decide)
  rw [Resolve_redis T c products hT, if_neg hne] at h
  unfold nodeCount
  split at h
  · cases h
  · rename_i mainNode hmain
    refine ⟨mainNode, hmain, ?_⟩
    split at h
    · rename_i hn
      split at h
      · cases h
      · rename_i additionalNode hadd
        exact Or.inl ⟨hn, additionalNode, hadd, by cases h; rfl⟩
    · rename_i hn
      exact Or.inr ⟨hn, by cases h; rfl⟩

theorem ToLower_ascii (T : CaseTables) (s : Str) (h : ∀ c ∈ s, c.toNat < 128) :
    ToLower T s = s.map asciiLower := by
  unfold ToLower
  exact List.map_congr_left fun c hc => toLowerRune_ascii T c (h c hc)

theorem ToLower_trim_main (T : CaseTables) :
    ToLower T (TrimSpace "main-node".toList) = "main-node".toList := by
  rw [ToLower_ascii T _ (by decide)]; decide

theorem ToLower_trim_additional (T : CaseTables) :
    ToLower T (TrimSpace "additional-node".toList) = "additional-node".toList := by
  rw [ToLower_ascii T _ (by decide)]; decide

/-- What `findBestRedisRoleProduct` returns is an entry of the catalog that
matches the role. -/
theorem findBestRedisRoleProduct_some (T : CaseTables) (products : List Product)
    (role zone region token : Str) (p : Product)
    (h : findBestRedisRoleProduct T products role zone region token = some p) :
    p ∈ products ∧
      Contains (ToLower T p.SKU) (redisRolePath (ToLower T (TrimSpace role))) = true ∧
      isRedisProduct T p = true ∧ (scoreLocality T p zone region).2 = true := by
  unfold findBestRedisRoleProduct at h
  obtain ⟨hmem, hpass, _⟩ := findBestProduct_some T _ _ _ _ _ _ p h
  rw [List.mem_filter] at hmem
  simp only [passesFilters, Bool.and_eq_true] at hpass
  refine ⟨hmem.1, ?_, hpass.1.1, hpass.1.2⟩
  have := hmem.2
  simpa [redisRolePath] using this

theorem isInstanceProduct_controlPlane (T : CaseTables) :
    isInstanceProduct T kapsuleControlPlane = false := by
  unfold isInstanceProduct
  rw [normalizeToken_tokenKey T _ (by decide), ToLower_ascii T _ (by decide)]
  decide

/-- C14, counterexample: the k8s pool of the repository test, against a catalog
that holds the node SKU of the test and a control-plane SKU whose category is
`instance`, resolves to the control-plane SKU, which has no `/compute/`
segment. -/
theorem Resolve_category_claim_fails :
    Resolve CaseTables.ascii
        { Typ := "scaleway_k8s_pool".toList
          After := [("region".toList, .str "fr-par".toList),
                    ("node_type".toList, .str "DEV1-M".toList),
                    ("size".toList, .float 3)] }
        [controlPlaneInstance, dev1mPar1] =
      .ok { Product := some controlPlaneInstance, Qty := 3 } ∧
    Contains controlPlaneInstance.SKU "/control-plane/".toList = true ∧
    Contains (ToLower CaseTables.ascii controlPlaneInstance.SKU) "/compute/".toList = false := by
  refine ⟨by decide, by decide, by decide⟩

/-- C14, amended: whenever `Resolve` succeeds, the selected product satisfies
the category filter of the change's type. For instance server and k8s pool its
category normalises to `instance` or `instances` or its SKU (lower-cased)
contains `/compute/`; for baremetal its category normalises to `elasticmetal`
or `baremetal` or its SKU contains `/elastic-metal/` or `/apple-silicon/`; for
load balancer its category normalises to `loadbalancer` or its SKU contains
`/network/lb/` or `/loadbalancer/`; for rdb instance its SKU contains
`/storage/rdb/`. So an rdb instance never resolves to a product whose SKU has no
`/storage/rdb/`, and a k8s pool never resolves to a product that fails the
instance filter: a control-plane SKU is selected only when its category
normalises to `instance` or `instances` or it contains `/compute/`, which the
control-plane SKU of the repository test, of category `kubernetes`, does not. -/
theorem Resolve_category (T : CaseTables) (c : ResourceChange) (products : List Product)
    (r : Result) (p : Product) (h : Resolve T c products = .ok r)
    (hp : r.Product = some p) :
    ((c.Typ = "scaleway_instance_server".toList ∨ c.Typ = "scaleway_k8s_pool".toList) →
      normalizeToken T p.ProductCategory = "instance".toList ∨
      normalizeToken T p.ProductCategory = "instances".toList ∨
      Contains (ToLower T p.SKU) "/compute/".toList = true) ∧
    (c.Typ = "scaleway_baremetal_server".toList →
      normalizeToken T p.ProductCategory = "elasticmetal".toList ∨
      normalizeToken T p.ProductCategory = "baremetal".toList ∨
      Contains (ToLower T p.SKU) "/elastic-metal/".toList = true ∨
      Contains (ToLower T p.SKU) "/apple-silicon/".toList = true) ∧
    (c.Typ = "scaleway_lb".toList →
      normalizeToken T p.ProductCategory = "loadbalancer".toList ∨
      Contains (ToLower T p.SKU) "/network/lb/".toList = true ∨
      Contains (ToLower T p.SKU) "/loadbalancer/".toList = true) ∧
    (c.Typ = "scaleway_rdb_instance".toList →
      Contains (ToLower T p.SKU) "/storage/rdb/".toList = true) ∧
    (c.Typ = "scaleway_block_volume".toList → isBlockStorageProduct T p = true) ∧
    (c.Typ = "scaleway_redis_cluster".toList → isRedisProduct T p = true) ∧
    (c.Typ = "scaleway_rdb_instance".toList →
      ∀ q : Product, Contains (ToLower T q.SKU) "/storage/rdb/".toList = false → p ≠ q) ∧
    (c.Typ = "scaleway_k8s_pool".toList →
      (∀ q : Product, isInstanceProduct T q = false → p ≠ q) ∧
      (Contains (ToLower T p.SKU) "/control-plane/".toList = true →
        normalizeToken T p.ProductCategory = "instance".toList ∨
        normalizeToken T p.ProductCategory = "instances".toList ∨
        Contains (ToLower T p.SKU) "/compute/".toList = true) ∧
      p ≠ kapsuleControlPlane) := by
  have key : c.Typ ∈ singleProductTypes → ruleFilter T c.Typ p = true := by
    intro hT
    obtain ⟨p', hr, _, hf, _⟩ := Resolve_ok_single T c products r hT h
    rw [hr] at hp
    cases hp
    exact hf
  have hinst : (c.Typ = "scaleway_instance_server".toList ∨
      c.Typ = "scaleway_k8s_pool".toList) → isInstanceProduct T p = true := by
    intro ht
    rcases ht with ht | ht
    · have := key (by rw [ht]; decide)
      rwa [ht, ruleFilter_instance] at this
    · have := key (by rw [ht]; decide)
      rwa [ht, ruleFilter_k8s] at this
  have hcat : (c.Typ = "scaleway_instance_server".toList ∨
      c.Typ = "scaleway_k8s_pool".toList) →
      normalizeToken T p.ProductCategory = "instance".toList ∨
      normalizeToken T p.ProductCategory = "instances".toList ∨
      Contains (ToLower T p.SKU) "/compute/".toList = true := by
    intro ht
    have := hinst ht
    unfold isInstanceProduct at this
    simp only [Bool.or_eq_true, beq_iff_eq] at this
    rcases this with (h1 | h1) | h1
    · exact Or.inl h1
    · exact Or.inr (Or.inl h1)
    · exact Or.inr (Or.inr h1)
  have hrdb : c.Typ = "scaleway_rdb_instance".toList →
      Contains (ToLower T p.SKU) "/storage/rdb/".toList = true := by
    intro ht
    have := key (by rw [ht]; decide)
    rw [ht, ruleFilter_rdb] at this
    exact this
  refine ⟨hcat, ?_, ?_, hrdb, ?_, ?_, ?_, ?_⟩
  · intro ht
    have := key (by rw [ht]; decide)
    rw [ht, ruleFilter_baremetal] at this
    unfold isBaremetalProduct at this
    simp only [Bool.or_eq_true, beq_iff_eq] at this
    rcases this with ((h1 | h1) | h1) | h1
    · exact Or.inl h1
    · exact Or.inr (Or.inl h1)
    · exact Or.inr (Or.inr (Or.inl h1))
    · exact Or.inr (Or.inr (Or.inr h1))
  · intro ht
    have := key (by rw [ht]; decide)
    rw [ht, ruleFilter_lb] at this
    unfold isLoadBalancerProduct at this
    simp only [Bool.or_eq_true, beq_iff_eq] at this
    rcases this with (h1 | h1) | h1
    · exact Or.inl h1
    · exact Or.inr (Or.inl h1)
    · exact Or.inr (Or.inr h1)
  · intro ht
    have := key (by rw [ht]; decide)
    rwa [ht, ruleFilter_block] at this
  · intro ht
    obtain ⟨mainNode, hmain, hcases⟩ := Resolve_ok_redis T c products r ht h
    have hpm : p = mainNode := by
      rcases hcases with ⟨_, _, _, hr⟩ | ⟨_, hr⟩ <;>
        · rw [hr] at hp
          exact (Option.some.inj hp).symm
    rw [hpm]
    exact (findBestRedisRoleProduct_some T products _ _ _ _ mainNode hmain).2.2.1
  · intro ht q hq hpq
    have := hrdb ht
    rw [hpq, hq] at this
    cases this
  · intro ht
    refine ⟨?_, fun _ => hcat (Or.inr ht), ?_⟩
    · intro q hq hpq
      have := hinst (Or.inr ht)
      rw [hpq, hq] at this
      cases this
    · intro hpc
      have := hinst (Or.inr ht)
      rw [hpc, isInstanceProduct_controlPlane] at this
      cases this

/-- Witness for C14: the rdb instance of the repository test resolves to the
rdb SKU, whose lower-cased SKU contains `/storage/rdb/`, and not to the local
SSD storage SKU. -/
theorem Resolve_category_witness :
    Resolve CaseTables.ascii
        { Typ := "scaleway_rdb_instance".toList
          After := [("region".toList, .str "fr-par".toList),
                    ("node_type".toList, .str "DB-DEV-S".toList)] }
        [{ SKU := "/storage/local/ssd/storage".toList
           ProductCategory := "storage".toList
           Locality := { Region := "fr-par".toList } },
         { SKU := "/storage/rdb/instance/db-dev-s/fr-par".toList
           ProductCategory := "database".toList
           Locality := { Region := "fr-par".toList }
           Product := "RDB DB-DEV-S".toList }] =
      .ok { Product := some { SKU := "/storage/rdb/instance/db-dev-s/fr-par".toList
                              ProductCategory := "database".toList
                              Locality := { Region := "fr-par".toList }
                              Product := "RDB DB-DEV-S".toList }
            Qty := 1 } ∧
    Contains (ToLower CaseTables.ascii "/storage/rdb/instance/db-dev-s/fr-par".toList)
      "/storage/rdb/".toList = true :=
  have h : Resolve CaseTables.ascii
      { Typ := "scaleway_rdb_instance".toList
        After := [("region".toList, .str "fr-par".toList),
                  ("node_type".toList, .str "DB-DEV-S".toList)] }
      [{ SKU := "/storage/local/ssd/storage".toList
         ProductCategory := "storage".toList
         Locality := { Region := "fr-par".toList } },
       { SKU := "/storage/rdb/instance/db-dev-s/fr-par".toList
         ProductCategory := "database".toList
         Locality := { Region := "fr-par".toList }
         Product := "RDB DB-DEV-S".toList }] =
      .ok { Product := some { SKU := "/storage/rdb/instance/db-dev-s/fr-par".toList
                              ProductCategory := "database".toList
                              Locality := { Region := "fr-par".toList }
                              Product := "RDB DB-DEV-S".toList }
            Qty := 1 } := by decide
  ⟨h, (Resolve_category CaseTables.ascii _ _ _ _ h rfl).2.2.2.1 rfl⟩

/-- C15, counterexample: a block volume resolves to a catalog entry whose
category is `block_storage` although its SKU holds no `/storage/block/`
segment. -/
theorem Resolve_block_claim_fails :
    Resolve CaseTables.ascii
        { Typ := "scaleway_block_volume".toList
          After := [("zone".toList, .str "fr-par-1".toList)] } [blockByCategory] =
      .ok { Product := some blockByCategory, Qty := 1 } ∧
    Contains blockByCategory.SKU "/storage/block/".toList = false ∧
    Contains (ToLower CaseTables.ascii blockByCategory.SKU) "/storage/block/".toList = false := by
  decide

/-- C15, amended: for `scaleway_block_volume`, every product that `Resolve`
selects has a product category that normalises to `blockstorage` or an SKU
path that, lower-cased, contains `/storage/block/`; a catalog entry with
neither is never selected for a block volume. -/
theorem Resolve_block_filter (T : CaseTables) (c : ResourceChange) (products : List Product)
    (r : Result) (hT : c.Typ = "scaleway_block_volume".toList)
    (h : Resolve T c products = .ok r) :
    (∀ p, r.Product = some p →
      normalizeToken T p.ProductCategory = "blockstorage".toList ∨
      Contains (ToLower T p.SKU) "/storage/block/".toList = true) ∧
    (∀ q : Product, normalizeToken T q.ProductCategory ≠ "blockstorage".toList →
      Contains (ToLower T q.SKU) "/storage/block/".toList = false → r.Product ≠ some q) := by
  have key : ∀ p, r.Product = some p →
      normalizeToken T p.ProductCategory = "blockstorage".toList ∨
      Contains (ToLower T p.SKU) "/storage/block/".toList = true := by
    intro p hp
    obtain ⟨p', hr, _, hf, _⟩ := Resolve_ok_single T c products r (by rw [hT]; decide) h
    rw [hr] at hp
    cases hp
    rw [hT, ruleFilter_block] at hf
    unfold isBlockStorageProduct at hf
    simpa only [Bool.or_eq_true, beq_iff_eq] using hf
  refine ⟨key, fun q hcat hsku hq => ?_⟩
  rcases key q hq with h1 | h1
  · exact hcat h1
  · rw [hsku] at h1; cases h1

/-- Witness for C15: the block volume of the estimator test resolves to a SKU
under `/storage/block/`. -/
theorem Resolve_block_filter_witness :
    Resolve CaseTables.ascii { Typ := "scaleway_block_volume".toList
                               After := [("size_in_gb".toList, .float 250)] }
        [{ SKU := "/storage/block/snapshot/fr-par-1".toList }] =
      .ok { Product := some { SKU := "/storage/block/snapshot/fr-par-1".toList }, Qty := 250 } ∧
    (normalizeToken CaseTables.ascii [] = "blockstorage".toList ∨
      Contains (ToLower CaseTables.ascii "/storage/block/snapshot/fr-par-1".toList)
        "/storage/block/".toList = true) :=
  have h : Resolve CaseTables.ascii { Typ := "scaleway_block_volume".toList
                                      After := [("size_in_gb".toList, .float 250)] }
      [{ SKU := "/storage/block/snapshot/fr-par-1".toList }] =
      .ok { Product := some { SKU := "/storage/block/snapshot/fr-par-1".toList }, Qty := 250 } := by
    decide
  ⟨h, (Resolve_block_filter CaseTables.ascii _ _ _ rfl h).1 _ rfl⟩

/-! ## The load-balancer type token -/

theorem isTypeChar_token (c : Char) (h : isTypeChar c = true) : isTokenChar c = true := by
  simp only [isTypeChar, isTokenChar, isSeparator, Bool.or_eq_true] at h ⊢
  rcases h with (h | h) | h
  · exact Or.inl h
  · exact Or.inr (Or.inl (Or.inl (Or.inl h)))
  · exact Or.inr (Or.inl (Or.inl (Or.inr h)))

set_option maxRecDepth 100000 in
theorem ascii_type_facts (c : Char) (hc : c.toNat < 128) :
    (isTypeChar c = true → isSpace c = false) ∧
    (isTokenChar c = true → isTokenChar (asciiLower c) = true) := by
  refine ascii_cases (fun c => (isTypeChar c = true → isSpace c = false) ∧
    (isTokenChar c = true → isTokenChar (asciiLower c) = true)) ?_ c hc
  decide

theorem TrimSpace_of_noSpace (s : Str) (h : ∀ c ∈ s, isSpace c = false) : TrimSpace s = s := by
  unfold TrimSpace
  have h1 : s.dropWhile isSpace = s := by
    cases s with
    | nil => rfl
    | cons c cs => simp [List.dropWhile, h c (List.mem_cons_self _ _)]
  rw [h1, List.rdropWhile_eq_self_iff]
  intro hl
  simp [h _ (List.getLast_mem hl)]

theorem tokenKey_append (a b : Str) : tokenKey (a ++ b) = tokenKey a ++ tokenKey b := by
  simp [tokenKey, stripSeparators]

theorem tokenKey_cons_sep (c : Char) (s : Str) (h : isSeparator c = true) :
    tokenKey (c :: s) = tokenKey s := by
  simp [tokenKey, stripSeparators_eq_filter, h]

theorem tokenKey_cons_keep (c : Char) (s : Str) (h : isSeparator c = false) :
    tokenKey (c :: s) = asciiLower c :: tokenKey s := by
  simp [tokenKey, stripSeparators_eq_filter, h]

theorem tokenKey_removeSpaces (s : Str) : tokenKey (ReplaceAll s ' ' []) = tokenKey s := by
  induction s with
  | nil => rfl
  | cons c cs ih =>
    by_cases h : c = ' '
    · subst h
      simp only [ReplaceAll, if_true, List.nil_append, ih]
      exact (tokenKey_cons_sep ' ' cs (by decide)).symm
    · simp only [ReplaceAll, h, if_false]
      by_cases hs : isSeparator c = true
      · rw [tokenKey_cons_sep c _ hs, tokenKey_cons_sep c _ hs, ih]
      · have hs' : isSeparator c = false := by simpa using hs
        rw [tokenKey_cons_keep c _ hs', tokenKey_cons_keep c _ hs', ih]

theorem tokenKey_underscores (s : Str) :
    tokenKey (ReplaceAll s '_' "-".toList) = tokenKey s := by
  induction s with
  | nil => rfl
  | cons c cs ih =>
    by_cases h : c = '_'
    · subst h
      simp only [ReplaceAll, if_true]
      rw [tokenKey_append, ih, tokenKey_cons_sep '_' cs (by decide)]
      simp [tokenKey, stripSeparators]
    · simp only [ReplaceAll, h, if_false]
      by_cases hs : isSeparator c = true
      · rw [tokenKey_cons_sep c _ hs, tokenKey_cons_sep c _ hs, ih]
      · have hs' : isSeparator c = false := by simpa using hs
        rw [tokenKey_cons_keep c _ hs', tokenKey_cons_keep c _ hs', ih]

theorem tokenKey_lower (s : Str) (h : ∀ c ∈ s, isTokenChar c = true) :
    tokenKey (s.map asciiLower) = tokenKey s := by
  induction s with
  | nil => rfl
  | cons c cs ih =>
    have hc := h c (List.mem_cons_self _ _)
    have ha := isTokenChar_ascii c hc
    have ih' := ih (fun d hd => h d (List.mem_cons_of_mem _ hd))
    obtain ⟨hsep, _, hidem⟩ := ascii_separator_facts c ha
    rw [List.map_cons]
    by_cases hs : isSeparator c = true
    · rw [tokenKey_cons_sep _ _ (by rw [hsep]; exact hs), tokenKey_cons_sep c _ hs, ih']
    · have hs' : isSeparator c = false := by simpa using hs
      rw [tokenKey_cons_keep _ _ (by rw [hsep]; exact hs'), tokenKey_cons_keep c _ hs', ih',
        hidem hc]

theorem mem_ReplaceAll (s : Str) (old : Char) (new : Str) (c : Char)
    (h : c ∈ ReplaceAll s old new) : c ∈ s ∨ c ∈ new := by
  induction s with
  | nil => simp [ReplaceAll] at h
  | cons d ds ih =>
    by_cases hd : d = old
    · simp only [ReplaceAll, hd, if_true, List.mem_append] at h
      rcases h with h | h
      · exact Or.inr h
      · rcases ih h with h' | h'
        · exact Or.inl (List.mem_cons_of_mem _ h')
        · exact Or.inr h'
    · simp only [ReplaceAll, hd, if_false, List.mem_cons] at h
      rcases h with h | h
      · exact Or.inl (by rw [h]; exact List.mem_cons_self _ _)
      · rcases ih h with h' | h'
        · exact Or.inl (List.mem_cons_of_mem _ h')
        · exact Or.inr h'

/-- The token built from a lower-cased type once the prefix is off. -/
theorem lbToken_of_lowered (T : CaseTables) (t : Str) (h : ∀ c ∈ t, isTypeChar c = true) :
    normalizeToken T ("loadbalancer-".toList ++
        ReplaceAll (ReplaceAll (t.map asciiLower) '_' "-".toList) ' ' []) =
      "loadbalancer".toList ++ normalizeToken T t := by
  have htok : ∀ c ∈ t, isTokenChar c = true := fun c hc => isTypeChar_token c (h c hc)
  have hmem : ∀ c ∈ "loadbalancer-".toList ++
      ReplaceAll (ReplaceAll (t.map asciiLower) '_' "-".toList) ' ' [],
      isTokenChar c = true := by
    intro c hc
    have h1 : ∀ d ∈ "loadbalancer-".toList, isTokenChar d = true := by decide
    have h2 : ∀ d ∈ "-".toList, isTokenChar d = true := by decide
    rcases List.mem_append.mp hc with hc | hc
    · exact h1 c hc
    · rcases mem_ReplaceAll _ _ _ _ hc with hc | hc
      · rcases mem_ReplaceAll _ _ _ _ hc with hc | hc
        · obtain ⟨d, hd, rfl⟩ := List.mem_map.mp hc
          exact (ascii_type_facts d (isTokenChar_ascii d (htok d hd))).2 (htok d hd)
        · exact h2 c hc
      · cases hc
  have hpre : tokenKey "loadbalancer-".toList = "loadbalancer".toList := by decide
  rw [normalizeToken_tokenKey T _ hmem, normalizeToken_tokenKey T t htok, tokenKey_append,
    tokenKey_removeSpaces, tokenKey_underscores, tokenKey_lower t htok, hpre]

theorem normalizeLoadBalancerType_of_lowered (T : CaseTables) (raw value : Str)
    (h : ToLower T (TrimSpace raw) = value) (hne : value ≠ []) :
    normalizeLoadBalancerType T raw =
      normalizeToken T ("loadbalancer-".toList ++
        ReplaceAll (ReplaceAll (TrimPrefix value "lb-".toList) '_' "-".toList) ' ' []) := by
  unfold normalizeLoadBalancerType
  simp only [h, hne, if_false]

/-- C16, counterexample: for the empty type `normalizeLoadBalancerType` returns
the empty token, not `loadbalancer`, which is its value on `lb-`; and for the
type `LB-S`, which does not start with `lb-`, it returns `loadbalancers`, while
on `lb-LB-S` it returns `loadbalancerlbs`. -/
theorem normalizeLoadBalancerType_claim_fails :
    normalizeLoadBalancerType CaseTables.ascii [] = [] ∧
    normalizeLoadBalancerType CaseTables.ascii ("lb-".toList ++ []) = "loadbalancer".toList ∧
    normalizeLoadBalancerType CaseTables.ascii "LB-S".toList = "loadbalancers".toList ∧
    normalizeLoadBalancerType CaseTables.ascii ("lb-".toList ++ "LB-S".toList) =
      "loadbalancerlbs".toList := by
  decide

/-- C16, amended: `normalizeLoadBalancerType "LB-S" = "loadbalancers"`; for every
raw type `t` made of ASCII letters, digits, `'-'` and `'_'`,
`normalizeLoadBalancerType ("lb-" + t)` is `loadbalancer` followed by
`normalizeToken t`; and when `t` is non-empty and does not start with `lb-` in
any letter case, `normalizeLoadBalancerType t` is that same value. -/
theorem normalizeLoadBalancerType_spec (T : CaseTables) (t : Str)
    (h : ∀ c ∈ t, isTypeChar c = true) :
    normalizeLoadBalancerType T "LB-S".toList = "loadbalancers".toList ∧
    normalizeLoadBalancerType T ("lb-".toList ++ t) =
      "loadbalancer".toList ++ normalizeToken T t ∧
    (t ≠ [] → HasPrefix (t.map asciiLower) "lb-".toList = false →
      normalizeLoadBalancerType T t = "loadbalancer".toList ++ normalizeToken T t) := by
  have hascii : ∀ c ∈ t, c.toNat < 128 := fun c hc =>
    isTokenChar_ascii c (isTypeChar_token c (h c hc))
  have hnosp : ∀ c ∈ t, isSpace c = false := fun c hc =>
    (ascii_type_facts c (hascii c hc)).1 (h c hc)
  refine ⟨?_, ?_, ?_⟩
  · have e1 : ToLower T (TrimSpace "LB-S".toList) = "lb-s".toList := by
      rw [ToLower_ascii T _ (by decide)]; decide
    rw [normalizeLoadBalancerType_of_lowered T _ _ e1 (by decide)]
    have e2 : "loadbalancer-".toList ++
        ReplaceAll (ReplaceAll (TrimPrefix "lb-s".toList "lb-".toList) '_' "-".toList) ' ' [] =
        "loadbalancer-s".toList := by decide
    rw [e2, normalizeToken_tokenKey T _ (by decide)]
    decide
  · have hpre : ∀ c ∈ "lb-".toList, c.toNat < 128 ∧ isSpace c = false := by decide
    have e1 : ToLower T (TrimSpace ("lb-".toList ++ t)) = "lb-".toList ++ t.map asciiLower := by
      rw [TrimSpace_of_noSpace, ToLower_ascii, List.map_append]
      · rfl
      · intro c hc
        rcases List.mem_append.mp hc with hc | hc
        · exact (hpre c hc).1
        · exact hascii c hc
      · intro c hc
        rcases List.mem_append.mp hc with hc | hc
        · exact (hpre c hc).2
        · exact hnosp c hc
    rw [normalizeLoadBalancerType_of_lowered T _ _ e1 (by simp)]
    have e2 : TrimPrefix ("lb-".toList ++ t.map asciiLower) "lb-".toList = t.map asciiLower := by
      simp [TrimPrefix, HasPrefix]
    rw [e2, lbToken_of_lowered T t h]
  · intro hne hpre
    have e1 : ToLower T (TrimSpace t) = t.map asciiLower := by
      rw [TrimSpace_of_noSpace t hnosp, ToLower_ascii T t hascii]
    rw [normalizeLoadBalancerType_of_lowered T _ _ e1 (by simpa using hne)]
    have e2 : TrimPrefix (t.map asciiLower) "lb-".toList = t.map asciiLower := by
      unfold TrimPrefix
      rw [hpre]
      rfl
    rw [e2, lbToken_of_lowered T t h]

/-- Witness for C16: the type `GP-L` gives the token `loadbalancergpl`, with or
without the prefix `lb-`. -/
theorem normalizeLoadBalancerType_spec_witness :
    normalizeLoadBalancerType CaseTables.ascii "lb-GP-L".toList =
      "loadbalancer".toList ++ normalizeToken CaseTables.ascii "GP-L".toList ∧
    normalizeLoadBalancerType CaseTables.ascii "GP-L".toList =
      "loadbalancer".toList ++ normalizeToken CaseTables.ascii "GP-L".toList :=
  have h := normalizeLoadBalancerType_spec CaseTables.ascii "GP-L".toList (by decide)
  ⟨h.2.1, h.2.2 (by decide) (by decide)⟩

/-! ## Redis clusters -/

theorem redisRolePath_main (T : CaseTables) :
    redisRolePath (ToLower T (TrimSpace "main-node".toList)) =
      "/storage/redis/main-node/".toList := by
  rw [ToLower_trim_main]; decide

theorem redisRolePath_additional (T : CaseTables) :
    redisRolePath (ToLower T (TrimSpace "additional-node".toList)) =
      "/storage/redis/additional-node/".toList := by
  rw [ToLower_trim_additional]; decide

theorem findBestRedisRoleProduct_eq_none_iff (T : CaseTables) (products : List Product)
    (role zone region token : Str) (htok : token ≠ []) :
    findBestRedisRoleProduct T products role zone region token = none ↔
      ∀ q ∈ products,
        redisRoleMatches T (ToLower T (TrimSpace role)) zone region token q = false := by
  unfold findBestRedisRoleProduct
  rw [findBestProduct_eq_none_iff]
  have hreq : decide (token ≠ []) = true := by simpa using htok
  rw [hreq]
  constructor
  · intro h q hq
    unfold redisRoleMatches
    by_cases hc : Contains (ToLower T q.SKU) (redisRolePath (ToLower T (TrimSpace role))) = true
    · have hmem : q ∈ products.filter fun product =>
          Contains (ToLower T product.SKU)
            ("/storage/redis/".toList ++ ToLower T (TrimSpace role) ++ "/".toList) := by
        rw [List.mem_filter]
        exact ⟨hq, hc⟩
      rw [h q hmem, Bool.and_false]
    · have hc' : Contains (ToLower T q.SKU)
          (redisRolePath (ToLower T (TrimSpace role))) = false := by simpa using hc
      rw [hc', Bool.false_and]
  · intro h q hq
    rw [List.mem_filter] at hq
    have := h q hq.1
    unfold redisRoleMatches at this
    have hc : Contains (ToLower T q.SKU) (redisRolePath (ToLower T (TrimSpace role))) = true :=
      hq.2
    rw [hc, Bool.true_and] at this
    exact this

/-! ## Redis results -/

/-- C17, counterexample: the redis cluster of the repository test with
`cluster_size` `2 ^ 53 + 2`, a float64 value, has node count
`n = 2 ^ 53 + 2` and resolves with `Qty = n`, but the quantity of its
additional-node match is `2 ^ 53`, the float64 nearest to `n − 1`, and not
`n − 1`. -/
theorem Resolve_redis_result_claim_fails :
    roundFloat64 (2 ^ 53 + 2) = 2 ^ 53 + 2 ∧
    nodeCount (redisChange (2 ^ 53 + 2)) = 2 ^ 53 + 2 ∧
    Resolve CaseTables.ascii (redisChange (2 ^ 53 + 2)) [redisMain, redisAdditional] =
      .ok { Product := some redisMain, Qty := 2 ^ 53 + 2
            Matches := [{ Product := redisMain, Qty := 1 },
                        { Product := redisAdditional, Qty := 2 ^ 53 }] } ∧
    ((2 ^ 53 + 2 : ℚ) - 1 ≠ 2 ^ 53) := by
  refine ⟨by decide!, by decide!, by decide!, by norm_num⟩

/-- C17, amended: for a redis cluster whose `cluster_size` is below `2 ^ 63`,
the node count `n` is 1 when `cluster_size` is absent or below 1 and its integer
part otherwise, so `n ≥ 1`. Whenever `Resolve` succeeds, `Result.Product` is the
main-node product, `Result.Qty` is `n` converted to float64, which is `n` itself
when `cluster_size` is a float64 value, as every number of a plan is, and also
whenever `n ≤ 2 ^ 53`, and `Matches` is exactly
`[(main, 1)]` when `n = 1` and exactly `[(main, 1), (additional, float64(n − 1))]`
when `n > 1`, where `float64(n − 1)` is `n − 1` itself for `n ≤ 2 ^ 53 + 1`; the
main-node SKU (lower-cased) contains `/storage/redis/main-node/` and the
additional-node SKU contains `/storage/redis/additional-node/`. -/
theorem Resolve_redis_result (T : CaseTables) (c : ResourceChange) (products : List Product)
    (r : Result) (hT : c.Typ = "scaleway_redis_cluster".toList)
    (hsize : getFloat (applicableAttrs c) "cluster_size".toList 1 < 2 ^ 63)
    (h : Resolve T c products = .ok r) :
    (nodeCount c =
      if getFloat (applicableAttrs c) "cluster_size".toList 1 < 1 then 1
      else ⌊getFloat (applicableAttrs c) "cluster_size".toList 1⌋) ∧
    (List.lookup "cluster_size".toList (applicableAttrs c) = none → nodeCount c = 1) ∧
    1 ≤ nodeCount c ∧
    ∃ mainNode, r.Product = some mainNode ∧
      r.Qty = float64OfInt (nodeCount c) ∧
      (roundFloat64 (getFloat (applicableAttrs c) "cluster_size".toList 1) =
          getFloat (applicableAttrs c) "cluster_size".toList 1 →
        r.Qty = (nodeCount c : ℚ)) ∧
      (nodeCount c ≤ 2 ^ 53 → r.Qty = (nodeCount c : ℚ)) ∧
      mainNode ∈ products ∧
      Contains (ToLower T mainNode.SKU) "/storage/redis/main-node/".toList = true ∧
      (nodeCount c = 1 → r.Matches = [{ Product := mainNode, Qty := 1 }]) ∧
      (nodeCount c > 1 → ∃ additionalNode,
        r.Matches = [{ Product := mainNode, Qty := 1 },
          { Product := additionalNode, Qty := float64OfInt (nodeCount c - 1) }] ∧
        (nodeCount c ≤ 2 ^ 53 + 1 →
          float64OfInt (nodeCount c - 1) = (nodeCount c : ℚ) - 1) ∧
        additionalNode ∈ products ∧
        Contains (ToLower T additionalNode.SKU)
          "/storage/redis/additional-node/".toList = true) := by
  have hcount : nodeCount c =
      if getFloat (applicableAttrs c) "cluster_size".toList 1 < 1 then 1
      else ⌊getFloat (applicableAttrs c) "cluster_size".toList 1⌋ :=
    normalizeCount_of_lt _ hsize
  have hge : 1 ≤ nodeCount c := normalizeCount_ge_one _ hsize
  have hnone : List.lookup "cluster_size".toList (applicableAttrs c) = none →
      nodeCount c = 1 := by
    intro hn
    rw [hcount]
    unfold getFloat
    rw [hn]
    simp
  have hqty1 : roundFloat64 (getFloat (applicableAttrs c) "cluster_size".toList 1) =
      getFloat (applicableAttrs c) "cluster_size".toList 1 →
      float64OfInt (nodeCount c) = (nodeCount c : ℚ) := by
    intro hfl
    rw [hcount]
    split
    · exact float64OfInt_of_abs_le 1 (by norm_num)
    · rename_i h1
      exact float64OfInt_floor _ hfl (by linarith [not_lt.mp h1])
  have hqty2 : nodeCount c ≤ 2 ^ 53 → float64OfInt (nodeCount c) = (nodeCount c : ℚ) := by
    intro hle
    apply float64OfInt_of_abs_le
    rw [abs_of_nonneg (by omega)]
    exact hle
  have hqty3 : nodeCount c ≤ 2 ^ 53 + 1 →
      float64OfInt (nodeCount c - 1) = (nodeCount c : ℚ) - 1 := by
    intro hle
    rw [float64OfInt_of_abs_le (nodeCount c - 1)
      (by rw [abs_of_nonneg (by omega)]; omega)]
    push_cast
    ring
  refine ⟨hcount, hnone, hge, ?_⟩
  obtain ⟨mainNode, hmain, hcases⟩ := Resolve_ok_redis T c products r hT h
  obtain ⟨hmem, hpath, _, _⟩ := findBestRedisRoleProduct_some T products _ _ _ _ mainNode hmain
  rw [redisRolePath_main] at hpath
  rcases hcases with ⟨hn, additionalNode, hadd, hr⟩ | ⟨hn, hr⟩
  · obtain ⟨hmem2, hpath2, _, _⟩ :=
      findBestRedisRoleProduct_some T products _ _ _ _ additionalNode hadd
    rw [redisRolePath_additional] at hpath2
    refine ⟨mainNode, by rw [hr], by rw [hr], ?_, ?_, hmem, hpath, ?_, ?_⟩
    · intro hfl; rw [hr]; exact hqty1 hfl
    · intro hle; rw [hr]; exact hqty2 hle
    · intro h1; omega
    · intro _
      exact ⟨additionalNode, by rw [hr], hqty3, hmem2, hpath2⟩
  · refine ⟨mainNode, by rw [hr], by rw [hr], ?_, ?_, hmem, hpath, ?_, ?_⟩
    · intro hfl; rw [hr]; exact hqty1 hfl
    · intro hle; rw [hr]; exact hqty2 hle
    · intro _; rw [hr]
    · intro h1; exact absurd h1 hn

/-- Witness for C17: the redis cluster of the repository test with
`cluster_size` 3 resolves to the main node with quantity 1 and the additional
node with quantity 2, and its node count is 3. -/
theorem Resolve_redis_result_witness :
    Resolve CaseTables.ascii (redisChange 3) [redisMain, redisAdditional] =
      .ok { Product := some redisMain, Qty := 3
            Matches := [{ Product := redisMain, Qty := 1 },
                        { Product := redisAdditional, Qty := 2 }] } ∧
    nodeCount (redisChange 3) =
      (if getFloat (applicableAttrs (redisChange 3)) "cluster_size".toList 1 < 1 then 1
       else ⌊getFloat (applicableAttrs (redisChange 3)) "cluster_size".toList 1⌋) ∧
    1 ≤ nodeCount (redisChange 3) :=
  have h : Resolve CaseTables.ascii (redisChange 3) [redisMain, redisAdditional] =
      .ok { Product := some redisMain, Qty := 3
            Matches := [{ Product := redisMain, Qty := 1 },
                        { Product := redisAdditional, Qty := 2 }] } := by decide!
  have hw := Resolve_redis_result CaseTables.ascii (redisChange 3) _ _ rfl (by decide!) h
  ⟨h, hw.1, hw.2.2.1⟩

/-- C18, counterexample: a redis cluster of one node whose `node_type` is
present with the string `"-"`, against a catalog whose main-node product lies in
the requested zone, fails, and with code `missing_required_attribute`, not
`no_catalog_match`. -/
theorem Resolve_redis_fails_claim_fails :
    List.lookup "node_type".toList (applicableAttrs redisDash) = some (.str "-".toList) ∧
    nodeCount redisDash = 1 ∧
    redisRoleMatches CaseTables.ascii "main-node".toList (requestedZone redisDash)
      (requestedRegion redisDash)
      (normalizeToken CaseTables.ascii (rawAttr redisDash "node_type".toList)) redisMain = true ∧
    Resolve CaseTables.ascii redisDash [redisMain] =
      .error ⟨.MissingRequiredAttribute, "missing required attribute: node_type".toList⟩ ∧
    ErrorCode.MissingRequiredAttribute ≠ ErrorCode.NoCatalogMatch := by
  refine ⟨by decide, by decide!, by decide, by decide, by decide⟩

/-- C18, amended: for a redis cluster whose `node_type` gives a non-empty token
and whose `cluster_size` is below `2 ^ 63`, with node count `n` (1 when
`cluster_size` is absent or below 1, its integer part otherwise), `Resolve`
fails if and only if no main-node-role product matches, or `n > 1` and no
additional-node-role product matches; every such failure has code
`no_catalog_match`, and an error carries no result at all. With `n = 1` no
additional-node lookup is made, so resolution succeeds as soon as a
main-node-role product matches, also on a catalog without any additional-node
SKU. -/
theorem Resolve_redis_fails_iff (T : CaseTables) (c : ResourceChange) (products : List Product)
    (hT : c.Typ = "scaleway_redis_cluster".toList)
    (htok : normalizeToken T (rawAttr c "node_type".toList) ≠ [])
    (hsize : getFloat (applicableAttrs c) "cluster_size".toList 1 < 2 ^ 63) :
    (nodeCount c =
      if getFloat (applicableAttrs c) "cluster_size".toList 1 < 1 then 1
      else ⌊getFloat (applicableAttrs c) "cluster_size".toList 1⌋) ∧
    ((∃ e, Resolve T c products = .error e) ↔
      (∀ q ∈ products, redisRoleMatches T "main-node".toList (requestedZone c)
        (requestedRegion c) (normalizeToken T (rawAttr c "node_type".toList)) q = false) ∨
      (nodeCount c > 1 ∧
        ∀ q ∈ products, redisRoleMatches T "additional-node".toList (requestedZone c)
          (requestedRegion c) (normalizeToken T (rawAttr c "node_type".toList)) q = false)) ∧
    (∀ e, Resolve T c products = .error e → e.Code = .NoCatalogMatch) ∧
    (nodeCount c = 1 →
      (∃ q ∈ products, redisRoleMatches T "main-node".toList (requestedZone c)
        (requestedRegion c) (normalizeToken T (rawAttr c "node_type".toList)) q = true) →
      ∃ r, Resolve T c products = .ok r) := by
  refine ⟨normalizeCount_of_lt _ hsize, ?_⟩
  have hmainNone := findBestRedisRoleProduct_eq_none_iff T products "main-node".toList
    (requestedZone c) (requestedRegion c) _ htok
  have haddNone := findBestRedisRoleProduct_eq_none_iff T products "additional-node".toList
    (requestedZone c) (requestedRegion c) _ htok
  rw [ToLower_trim_main] at hmainNone
  rw [ToLower_trim_additional] at haddNone
  rw [← hmainNone, ← haddNone, Resolve_redis T c products hT, if_neg htok]
  unfold nodeCount
  cases hm : findBestRedisRoleProduct T products "main-node".toList (requestedZone c)
      (requestedRegion c) (normalizeToken T (rawAttr c "node_type".toList)) with
  | none =>
    refine ⟨⟨fun _ => Or.inl rfl, fun _ => ⟨_, rfl⟩⟩, ?_, ?_⟩
    · intro e he; cases he; rfl
    · intro _ hex
      obtain ⟨q, hq, hqm⟩ := hex
      have := hmainNone.mp hm q hq
      rw [this] at hqm
      cases hqm
  | some mainNode =>
    by_cases hn : normalizeCount (getFloat (applicableAttrs c) "cluster_size".toList 1) > 1
    · simp only [hn, if_true]
      cases ha : findBestRedisRoleProduct T products "additional-node".toList (requestedZone c)
          (requestedRegion c) (normalizeToken T (rawAttr c "node_type".toList)) with
      | none =>
        refine ⟨⟨fun _ => Or.inr ⟨trivial, rfl⟩, fun _ => ⟨_, rfl⟩⟩, ?_, ?_⟩
        · intro e he; cases he; rfl
        · intro h1; omega
      | some additionalNode =>
        refine ⟨⟨?_, ?_⟩, ?_, ?_⟩
        · rintro ⟨e, he⟩; cases he
        · rintro (h1 | ⟨_, h1⟩) <;> cases h1
        · intro e he; cases he
        · intro _ _; exact ⟨_, rfl⟩
    · simp only [hn, if_false]
      refine ⟨⟨?_, ?_⟩, ?_, ?_⟩
      · rintro ⟨e, he⟩; cases he
      · rintro (h1 | ⟨h1, _⟩)
        · cases h1
        · exact absurd h1 (by simp)
      · intro e he; cases he
      · intro _ _; exact ⟨_, rfl⟩

/-- Witness for C18: the single-node redis cluster of the repository test
resolves on a catalog without any additional-node SKU. -/
theorem Resolve_redis_fails_iff_witness :
    ∃ r, Resolve CaseTables.ascii (redisChange 1) [redisMain] = .ok r :=
  (Resolve_redis_fails_iff CaseTables.ascii (redisChange 1) [redisMain] rfl (by decide)
    (by decide!)).2.2.2 (by decide!) ⟨redisMain, by decide, by decide⟩

/-! ## Action transitions -/

/-- The value of `actionTransitions`, case by case. -/
theorem actionTransitions_eq (c : ResourceChange) :
    actionTransitions c =
      if ("delete".toList ∈ c.Actions ∧ c.Before ≠ []) ∨
          ("create".toList ∈ c.Actions ∧ c.After ≠ []) then
        (if "delete".toList ∈ c.Actions ∧ c.Before ≠ [] then [deleteTransition c] else []) ++
          (if "create".toList ∈ c.Actions ∧ c.After ≠ [] then [createTransition c] else [])
      else if "update".toList ∈ c.Actions then
        (if c.Before ≠ [] then [updateBeforeTransition c] else []) ++
          (if c.After ≠ [] then [updateAfterTransition c] else [])
      else [] := by
  unfold actionTransitions beforeChange afterChange hasBeforeData hasAfterData deleteTransition
    createTransition updateBeforeTransition updateAfterTransition
  generalize "delete".toList = sd
  generalize "create".toList = sc
  generalize "update".toList = su
  by_cases hD : sd ∈ c.Actions <;> by_cases hC : sc ∈ c.Actions <;>
    by_cases hU : su ∈ c.Actions <;>
    rcases hB : c.Before with _ | ⟨b, bs⟩ <;> rcases hA : c.After with _ | ⟨a, as⟩ <;>
    simp [hD, hC, hU]

theorem mem_actionTransitions (c : ResourceChange) (t : actionTransition) :
    t ∈ actionTransitions c ↔
      (t = deleteTransition c ∧ "delete".toList ∈ c.Actions ∧ c.Before ≠ []) ∨
      (t = createTransition c ∧ "create".toList ∈ c.Actions ∧ c.After ≠ []) ∨
      (((t = updateBeforeTransition c ∧ c.Before ≠ []) ∨
          (t = updateAfterTransition c ∧ c.After ≠ [])) ∧
        ¬ ("delete".toList ∈ c.Actions ∧ c.Before ≠ []) ∧
        ¬ ("create".toList ∈ c.Actions ∧ c.After ≠ []) ∧ "update".toList ∈ c.Actions) := by
  rw [actionTransitions_eq]
  generalize "delete".toList = sd
  generalize "create".toList = sc
  generalize "update".toList = su
  by_cases hD : sd ∈ c.Actions <;> by_cases hC : sc ∈ c.Actions <;>
    by_cases hU : su ∈ c.Actions <;>
    by_cases hB : c.Before = [] <;> by_cases hA : c.After = [] <;>
    simp [hD, hC, hU, hB, hA]

theorem actionTransitions_length (c : ResourceChange) : (actionTransitions c).length ≤ 2 := by
  rw [actionTransitions_eq]
  split_ifs <;> simp

theorem transition_actions (c : ResourceChange) :
    (deleteTransition c).Action = "delete".toList ∧
    (createTransition c).Action = "create".toList ∧
    (updateBeforeTransition c).Action = "update".toList ∧
    (updateAfterTransition c).Action = "update".toList :=
  ⟨rfl, rfl, rfl, rfl⟩

theorem applicableAttrs_before (c : ResourceChange) :
    applicableAttrs (deleteTransition c).Change = c.Before := by
  simp [applicableAttrs, deleteTransition]

theorem applicableAttrs_after (c : ResourceChange) (h : c.After ≠ []) :
    applicableAttrs (createTransition c).Change = c.After := by
  simp [applicableAttrs, createTransition, h]

/-- C19: `actionTransitions` holds a transition labelled `delete` exactly when
the actions include `delete` and `before` is non-empty, and then it is the
change with its `after` emptied, same plan-level zone and region, multiplier −1;
it holds a transition labelled `create` exactly when the actions include
`create` and `after` is non-empty, and then it is the change with its `before`
emptied, multiplier +1. For a replace the delete transition comes first; the
delete transition resolves from the `before` attributes alone and the create
transition from the `after` attributes alone. -/
theorem actionTransitions_delete_create (T : CaseTables) (c : ResourceChange)
    (products : List Product) :
    ((∃ t ∈ actionTransitions c, t.Action = "delete".toList) ↔
      ("delete".toList ∈ c.Actions ∧ c.Before ≠ [])) ∧
    (∀ t ∈ actionTransitions c, t.Action = "delete".toList →
      t = { Change := { c with After := [] }, Action := "delete".toList, Multiplier := -1 }) ∧
    ((∃ t ∈ actionTransitions c, t.Action = "create".toList) ↔
      ("create".toList ∈ c.Actions ∧ c.After ≠ [])) ∧
    (∀ t ∈ actionTransitions c, t.Action = "create".toList →
      t = { Change := { c with Before := [] }, Action := "create".toList, Multiplier := 1 }) ∧
    (("delete".toList ∈ c.Actions ∧ c.Before ≠ []) →
      ("create".toList ∈ c.Actions ∧ c.After ≠ []) →
      actionTransitions c = [deleteTransition c, createTransition c]) ∧
    Resolve T (deleteTransition c).Change products =
      Resolve T { Typ := c.Typ, After := c.Before, Zone := c.Zone, Region := c.Region }
        products ∧
    (c.After ≠ [] →
      Resolve T (createTransition c).Change products =
        Resolve T { Typ := c.Typ, After := c.After, Zone := c.Zone, Region := c.Region }
          products) := by
  obtain ⟨hda, hca, hba, haa⟩ := transition_actions c
  have hdel : ∀ t ∈ actionTransitions c, t.Action = "delete".toList →
      t = deleteTransition c ∧ "delete".toList ∈ c.Actions ∧ c.Before ≠ [] := by
    intro t ht hact
    rcases (mem_actionTransitions c t).mp ht with ⟨h1, h2⟩ | ⟨h1, _⟩ | ⟨h1 | h1, _⟩
    · exact ⟨h1, h2⟩
    · rw [h1, hca] at hact; exact absurd hact (by decide)
    · rw [h1.1, hba] at hact; exact absurd hact (by decide)
    · rw [h1.1, haa] at hact; exact absurd hact (by decide)
  have hcre : ∀ t ∈ actionTransitions c, t.Action = "create".toList →
      t = createTransition c ∧ "create".toList ∈ c.Actions ∧ c.After ≠ [] := by
    intro t ht hact
    rcases (mem_actionTransitions c t).mp ht with ⟨h1, _⟩ | ⟨h1, h2⟩ | ⟨h1 | h1, _⟩
    · rw [h1, hda] at hact; exact absurd hact (by decide)
    · exact ⟨h1, h2⟩
    · rw [h1.1, hba] at hact; exact absurd hact (by decide)
    · rw [h1.1, haa] at hact; exact absurd hact (by decide)
  refine ⟨⟨?_, ?_⟩, ?_, ⟨?_, ?_⟩, ?_, ?_, ?_, ?_⟩
  · rintro ⟨t, ht, hact⟩
    exact (hdel t ht hact).2
  · intro h
    exact ⟨deleteTransition c, (mem_actionTransitions c _).mpr (Or.inl ⟨rfl, h⟩), hda⟩
  · intro t ht hact
    exact (hdel t ht hact).1
  · rintro ⟨t, ht, hact⟩
    exact (hcre t ht hact).2
  · intro h
    exact ⟨createTransition c, (mem_actionTransitions c _).mpr (Or.inr (Or.inl ⟨rfl, h⟩)), hca⟩
  · intro t ht hact
    exact (hcre t ht hact).1
  · intro hD hC
    rw [actionTransitions_eq, if_pos (Or.inl hD), if_pos hD, if_pos hC]
    rfl
  · refine Resolve_congr_attrs T (deleteTransition c).Change
      { Typ := c.Typ, After := c.Before, Zone := c.Zone, Region := c.Region } products
      rfl ?_ rfl rfl
    rw [applicableAttrs_before]
    cases hB : c.Before <;> simp [applicableAttrs]
  · intro hA
    refine Resolve_congr_attrs T (createTransition c).Change
      { Typ := c.Typ, After := c.After, Zone := c.Zone, Region := c.Region } products
      rfl ?_ rfl rfl
    rw [applicableAttrs_after c hA]
    simp [applicableAttrs, hA]

/-- Witness for C19: a replace with non-empty `before` and `after` yields the
delete transition and then the create transition. -/
theorem actionTransitions_delete_create_witness :
    actionTransitions
        { Actions := ["delete".toList, "create".toList]
          Before := [("type".toList, .str "DEV1-S".toList)]
          After := [("type".toList, .str "DEV1-M".toList)] } =
      [deleteTransition
        { Actions := ["delete".toList, "create".toList]
          Before := [("type".toList, .str "DEV1-S".toList)]
          After := [("type".toList, .str "DEV1-M".toList)] },
       createTransition
        { Actions := ["delete".toList, "create".toList]
          Before := [("type".toList, .str "DEV1-S".toList)]
          After := [("type".toList, .str "DEV1-M".toList)] }] :=
  (actionTransitions_delete_create CaseTables.ascii
    { Actions := ["delete".toList, "create".toList]
      Before := [("type".toList, .str "DEV1-S".toList)]
      After := [("type".toList, .str "DEV1-M".toList)] } []).2.2.2.2.1
    (by decide) (by decide)

/-- C20: transitions labelled `update` are produced only when the delete and
create rules produced no transition and the actions include `update`; then
`actionTransitions` is the (before, −1, `update`) transition if `before` is
non-empty, followed by the (after, +1, `update`) transition if `after` is
non-empty. A change never yields more than two transitions and never mixes an
`update` transition with a `create` or `delete` one. -/
theorem actionTransitions_update (c : ResourceChange) :
    ((∃ t ∈ actionTransitions c, t.Action = "update".toList) →
      ¬ ("delete".toList ∈ c.Actions ∧ c.Before ≠ []) ∧
      ¬ ("create".toList ∈ c.Actions ∧ c.After ≠ []) ∧ "update".toList ∈ c.Actions) ∧
    (¬ ("delete".toList ∈ c.Actions ∧ c.Before ≠ []) →
      ¬ ("create".toList ∈ c.Actions ∧ c.After ≠ []) → "update".toList ∈ c.Actions →
      actionTransitions c =
        (if c.Before ≠ [] then
          [{ Change := { c with After := [] }, Action := "update".toList, Multiplier := -1 }]
         else []) ++
        (if c.After ≠ [] then
          [{ Change := { c with Before := [] }, Action := "update".toList, Multiplier := 1 }]
         else [])) ∧
    (actionTransitions c).length ≤ 2 ∧
    (∀ t ∈ actionTransitions c, ∀ u ∈ actionTransitions c, t.Action = "update".toList →
      u.Action ≠ "create".toList ∧ u.Action ≠ "delete".toList) := by
  obtain ⟨hda, hca, hba, haa⟩ := transition_actions c
  have hupd : ∀ t ∈ actionTransitions c, t.Action = "update".toList →
      ¬ ("delete".toList ∈ c.Actions ∧ c.Before ≠ []) ∧
      ¬ ("create".toList ∈ c.Actions ∧ c.After ≠ []) ∧ "update".toList ∈ c.Actions := by
    intro t ht hact
    rcases (mem_actionTransitions c t).mp ht with ⟨h1, _⟩ | ⟨h1, _⟩ | ⟨_, h2⟩
    · rw [h1, hda] at hact; exact absurd hact (by decide)
    · rw [h1, hca] at hact; exact absurd hact (by decide)
    · exact h2
  refine ⟨?_, ?_, actionTransitions_length c, ?_⟩
  · rintro ⟨t, ht, hact⟩
    exact hupd t ht hact
  · intro hD hC hU
    rw [actionTransitions_eq, if_neg (by tauto), if_pos hU]
    rfl
  · intro t ht u hu hact
    obtain ⟨hD, hC, _⟩ := hupd t ht hact
    rcases (mem_actionTransitions c u).mp hu with ⟨_, h2⟩ | ⟨_, h2⟩ | ⟨h1 | h1, _⟩
    · exact absurd h2 hD
    · exact absurd h2 hC
    · rw [h1.1, hba]; exact ⟨by decide, by decide⟩
    · rw [h1.1, haa]; exact ⟨by decide, by decide⟩

/-- Witness for C20: the update-only change of the estimator test yields the
"before" transition and then the "after" transition, both labelled `update`. -/
theorem actionTransitions_update_witness :
    actionTransitions
        { Actions := ["update".toList]
          Before := [("type".toList, .str "DEV1-S".toList)]
          After := [("type".toList, .str "DEV1-M".toList)] } =
      [updateBeforeTransition
        { Actions := ["update".toList]
          Before := [("type".toList, .str "DEV1-S".toList)]
          After := [("type".toList, .str "DEV1-M".toList)] },
       updateAfterTransition
        { Actions := ["update".toList]
          Before := [("type".toList, .str "DEV1-S".toList)]
          After := [("type".toList, .str "DEV1-M".toList)] }] :=
  ((actionTransitions_update
    { Actions := ["update".toList]
      Before := [("type".toList, .str "DEV1-S".toList)]
      After := [("type".toList, .str "DEV1-M".toList)] }).2.1
    (by decide) (by decide) (by decide)).trans (by decide)

/-! ## `Build` as a function of its rows -/

theorem sumKnownKg_snoc (fl : ℚ → ℚ) (rows : List Row) (row : Row) :
    sumKnownKg fl (rows ++ [row]) =
      if row.KgCO2eKnown then fl (sumKnownKg fl rows + row.KgCO2eMonth)
      else sumKnownKg fl rows := by
  rcases hk : row.KgCO2eKnown <;> simp [sumKnownKg, List.filter_append, hk]

theorem sumKnownM3_snoc (fl : ℚ → ℚ) (rows : List Row) (row : Row) :
    sumKnownM3 fl (rows ++ [row]) =
      if row.M3WaterKnown then fl (sumKnownM3 fl rows + row.M3WaterMonth)
      else sumKnownM3 fl rows := by
  rcases hk : row.M3WaterKnown <;> simp [sumKnownM3, List.filter_append, hk]

theorem foldl_add_eq_sum (l : List ℚ) (a : ℚ) : l.foldl (fun acc x => acc + x) a = a + l.sum := by
  induction l generalizing a with
  | nil => simp
  | cons x l ih => rw [List.foldl_cons, ih, List.sum_cons]; ring

/-- In exact arithmetic the sum over the known rows is their plain sum. -/
theorem sumKnownKg_exact (rows : List Row) :
    sumKnownKg id rows =
      ((rows.filter fun r => r.KgCO2eKnown).map fun r => r.KgCO2eMonth).sum := by
  unfold sumKnownKg
  have h := foldl_add_eq_sum ((rows.filter fun r => r.KgCO2eKnown).map fun r => r.KgCO2eMonth) 0
  rw [List.foldl_map] at h
  simpa using h

theorem sumKnownM3_exact (rows : List Row) :
    sumKnownM3 id rows =
      ((rows.filter fun r => r.M3WaterKnown).map fun r => r.M3WaterMonth).sum := by
  unfold sumKnownM3
  have h := foldl_add_eq_sum ((rows.filter fun r => r.M3WaterKnown).map fun r => r.M3WaterMonth) 0
  rw [List.foldl_map] at h
  simpa using h

theorem countUnknown_append (a b : List Row) :
    countUnknown (a ++ b) = countUnknown a + countUnknown b := by
  simp [countUnknown, List.countP_append]

theorem countKgUnknown_append (a b : List Row) :
    countKgUnknown (a ++ b) = countKgUnknown a + countKgUnknown b := by
  simp [countKgUnknown, List.countP_append]

theorem countM3Unknown_append (a b : List Row) :
    countM3Unknown (a ++ b) = countM3Unknown a + countM3Unknown b := by
  simp [countM3Unknown, List.countP_append]

theorem buildRow_stateOf (fl : ℚ → ℚ) (rows : List Row) (u : List UnsupportedResource)
    (row : Row) : buildRow fl (stateOf fl rows u) row = stateOf fl (rows ++ [row]) u := by
  unfold buildRow stateOf
  simp only [sumKnownKg_snoc, sumKnownM3_snoc, countUnknown_append, countKgUnknown_append,
    countM3Unknown_append]
  rcases hk : row.KgCO2eKnown <;> rcases hm : row.M3WaterKnown <;>
    simp [countUnknown, countKgUnknown, countM3Unknown, hk, hm]

theorem foldl_buildRow_stateOf (fl : ℚ → ℚ) (rows rs : List Row)
    (u : List UnsupportedResource) :
    rs.foldl (buildRow fl) (stateOf fl rows u) = stateOf fl (rows ++ rs) u := by
  induction rs generalizing rows with
  | nil => simp
  | cons r rs ih =>
    rw [List.foldl_cons, buildRow_stateOf, ih]
    simp

theorem buildTransition_stateOf (T : CaseTables) (fl : ℚ → ℚ) (products : List Product)
    (c : ResourceChange) (rows : List Row) (u : List UnsupportedResource)
    (t : actionTransition) :
    buildTransition T fl products c (stateOf fl rows u) t =
      stateOf fl (rows ++ transitionRows T fl products t)
        (u ++ transitionUnsupported T products c.Address t) := by
  unfold buildTransition transitionRows transitionUnsupported
  cases Resolve T t.Change products with
  | error err => simp [stateOf]
  | ok result =>
    by_cases hg : result.Product = none ∧ result.Matches.length = 0
    · simp only [hg, and_self, if_true]
      simp [stateOf]
    · simp only [hg, if_false]
      rw [foldl_buildRow_stateOf]
      simp

theorem foldl_buildTransition_stateOf (T : CaseTables) (fl : ℚ → ℚ) (products : List Product)
    (c : ResourceChange) (ts : List actionTransition) (rows : List Row)
    (u : List UnsupportedResource) :
    ts.foldl (buildTransition T fl products c) (stateOf fl rows u) =
      stateOf fl (rows ++ ts.flatMap (transitionRows T fl products))
        (u ++ ts.flatMap (transitionUnsupported T products c.Address)) := by
  induction ts generalizing rows u with
  | nil => simp
  | cons t ts ih =>
    rw [List.foldl_cons, buildTransition_stateOf, ih]
    simp [List.flatMap_cons]

theorem buildChange_stateOf (T : CaseTables) (fl : ℚ → ℚ) (products : List Product) (c : ResourceChange)
    (rows : List Row) (u : List UnsupportedResource) :
    buildChange T fl products (stateOf fl rows u) c =
      stateOf fl (rows ++ changeRows T fl products c) (u ++ changeUnsupported T products c) :=
  foldl_buildTransition_stateOf T fl products c (actionTransitions c) rows u

theorem foldl_buildChange_stateOf (T : CaseTables) (fl : ℚ → ℚ) (products : List Product)
    (cs : List ResourceChange) (rows : List Row) (u : List UnsupportedResource) :
    cs.foldl (buildChange T fl products) (stateOf fl rows u) =
      stateOf fl (rows ++ cs.flatMap (changeRows T fl products))
        (u ++ cs.flatMap (changeUnsupported T products)) := by
  induction cs generalizing rows u with
  | nil => simp
  | cons c cs ih =>
    rw [List.foldl_cons, buildChange_stateOf, ih]
    simp [List.flatMap_cons]

theorem natCast_beq_zero (n : Nat) : ((n : ℚ) == 0) = decide (n = 0) := by
  by_cases h : n = 0
  · subst h; simp
  · have h' : ¬ ((n : ℚ) = 0) := by exact_mod_cast h
    simp [h, h']

theorem stateOf_nil (fl : ℚ → ℚ) : stateOf fl [] [] = {} := by
  simp [stateOf, sumKnownKg, sumKnownM3, countUnknown, countKgUnknown, countM3Unknown]

/-- The report of `Build` is determined by the rows and the Unsupported entries
that the changes add, in order. -/
theorem Build_eq (T : CaseTables) (fl : ℚ → ℚ) (changes : List ResourceChange) (products : List Product) :
    Build T fl changes products =
      reportOf fl (changes.flatMap (changeRows T fl products))
        (changes.flatMap (changeUnsupported T products)) := by
  unfold Build
  rw [← stateOf_nil fl, foldl_buildChange_stateOf]
  simp [stateOf, reportOf, natCast_beq_zero]

theorem Build_rows (T : CaseTables) (fl : ℚ → ℚ) (changes : List ResourceChange) (products : List Product) :
    (Build T fl changes products).Rows = changes.flatMap (changeRows T fl products) := by
  rw [Build_eq]; rfl

theorem Build_unsupported (T : CaseTables) (fl : ℚ → ℚ) (changes : List ResourceChange)
    (products : List Product) :
    (Build T fl changes products).Unsupported = changes.flatMap (changeUnsupported T products) := by
  rw [Build_eq]; rfl

theorem Build_totals (T : CaseTables) (fl : ℚ → ℚ) (changes : List ResourceChange)
    (products : List Product) :
    (Build T fl changes products).Totals =
      { KgCO2eMonth := sumKnownKg fl (Build T fl changes products).Rows
        KgCO2eKnown := decide (countKgUnknown (Build T fl changes products).Rows = 0)
        M3WaterMonth := sumKnownM3 fl (Build T fl changes products).Rows
        M3WaterKnown := decide (countM3Unknown (Build T fl changes products).Rows = 0)
        UnknownRows := (countUnknown (Build T fl changes products).Rows : Int) } := by
  rw [Build_eq]; rfl

/-- A change that adds neither a row nor an Unsupported entry can be left out. -/
theorem Build_skip (T : CaseTables) (fl : ℚ → ℚ) (products : List Product) (c : ResourceChange)
    (hr : changeRows T fl products c = []) (hu : changeUnsupported T products c = [])
    (xs ys : List ResourceChange) :
    Build T fl (xs ++ c :: ys) products = Build T fl (xs ++ ys) products := by
  rw [Build_eq, Build_eq]
  simp [List.flatMap_append, List.flatMap_cons, hr, hu]

/-- C21: a change whose `before` and `after` are both empty, or whose actions
contain none of create, delete and update, has no transition; `Build` then adds
no row and no Unsupported entry for it and leaves the totals as they are, so the
report is the one of the list without the change, whatever the change's type. -/
theorem Build_no_transition (T : CaseTables) (fl : ℚ → ℚ) (products : List Product)
    (c : ResourceChange)
    (h : (c.Before = [] ∧ c.After = []) ∨
      ("create".toList ∉ c.Actions ∧ "delete".toList ∉ c.Actions ∧
        "update".toList ∉ c.Actions)) :
    actionTransitions c = [] ∧
    ∀ xs ys : List ResourceChange,
      Build T fl (xs ++ c :: ys) products = Build T fl (xs ++ ys) products := by
  have hnil : actionTransitions c = [] := by
    rw [actionTransitions_eq]
    rcases h with ⟨hb, ha⟩ | ⟨hc, hd, hu⟩
    · have h0 : ¬ (("delete".toList ∈ c.Actions ∧ c.Before ≠ []) ∨
          ("create".toList ∈ c.Actions ∧ c.After ≠ [])) := by
        rintro (⟨_, h1⟩ | ⟨_, h1⟩)
        · exact h1 hb
        · exact h1 ha
      rw [if_neg h0]
      split
      · rw [if_neg (not_not.mpr hb), if_neg (not_not.mpr ha)]
        rfl
      · rfl
    · rw [if_neg, if_neg hu]
      rintro (⟨h1, _⟩ | ⟨h1, _⟩)
      · exact hd h1
      · exact hc h1
  refine ⟨hnil, fun xs ys => Build_skip T fl products c ?_ ?_ xs ys⟩
  · simp [changeRows, hnil]
  · simp [changeUnsupported, hnil]

/-- Witness for C21: an object bucket without actions changes nothing in the
report of an instance server. -/
theorem Build_no_transition_witness :
    Build CaseTables.ascii id
        ([] ++ { Typ := "scaleway_object_bucket".toList
                 After := [("name".toList, .str "logs".toList)] } ::
          [{ Typ := "scaleway_instance_server".toList
             Actions := ["create".toList]
             After := [("type".toList, .str "DEV1-M".toList)] }]) [dev1mPar1] =
      Build CaseTables.ascii id
        ([] ++ [{ Typ := "scaleway_instance_server".toList
                  Actions := ["create".toList]
                  After := [("type".toList, .str "DEV1-M".toList)] }]) [dev1mPar1] :=
  (Build_no_transition CaseTables.ascii id [dev1mPar1]
    { Typ := "scaleway_object_bucket".toList
      After := [("name".toList, .str "logs".toList)] }
    (Or.inr (by decide))).2 [] _

theorem Build_append_rows (T : CaseTables) (fl : ℚ → ℚ) (products : List Product)
    (xs ys : List ResourceChange) :
    (Build T fl (xs ++ ys) products).Rows =
      (Build T fl xs products).Rows ++ (Build T fl ys products).Rows := by
  simp [Build_rows, List.flatMap_append]

theorem Build_append_unsupported (T : CaseTables) (fl : ℚ → ℚ) (products : List Product)
    (xs ys : List ResourceChange) :
    (Build T fl (xs ++ ys) products).Unsupported =
      (Build T fl xs products).Unsupported ++ (Build T fl ys products).Unsupported := by
  simp [Build_unsupported, List.flatMap_append]

theorem transition_change (c : ResourceChange) (t : actionTransition)
    (h : t ∈ actionTransitions c) :
    t.Change.Typ = c.Typ ∧ t.Change.Address = c.Address := by
  rcases (mem_actionTransitions c t).mp h with ⟨h1, _⟩ | ⟨h1, _⟩ | ⟨⟨h1, _⟩ | ⟨h1, _⟩, _⟩ <;>
    · rw [h1]; exact ⟨rfl, rfl⟩

/-- C22: a resolver error never aborts the batch. On a transition on which
`Resolve` fails, the loop body of `Build` appends exactly one Unsupported entry
with the change's address and the error's code and reason, and touches neither
the rows nor the totals; an error that is no mapping error gets code
`no_catalog_match` and reason `no matching catalog product`. The rows and the
Unsupported entries of the changes before and after a change are those of
`Build` run without it, and a change all of whose transitions fail adds no row
and one Unsupported entry per transition. -/
theorem Build_resolve_error (T : CaseTables) (fl : ℚ → ℚ) (products : List Product)
    (c : ResourceChange) :
    (∀ (st : BuildState) (t : actionTransition) (e : Error),
      Resolve T t.Change products = .error e →
      buildTransition T fl products c st t =
        { st with report := { st.report with
            Unsupported := st.report.Unsupported ++
              [{ Address := c.Address, Code := e.Code.toStr, Reason := e.Reason }] } }) ∧
    (∀ address : Str, unsupportedFromError address none =
      { Address := address, Code := "no_catalog_match".toList
        Reason := "no matching catalog product".toList }) ∧
    (∀ xs ys : List ResourceChange,
      (Build T fl (xs ++ c :: ys) products).Rows =
        (Build T fl xs products).Rows ++ changeRows T fl products c ++
          (Build T fl ys products).Rows ∧
      (Build T fl (xs ++ c :: ys) products).Unsupported =
        (Build T fl xs products).Unsupported ++ changeUnsupported T products c ++
          (Build T fl ys products).Unsupported) ∧
    ((∀ t ∈ actionTransitions c, ∃ e, Resolve T t.Change products = .error e) →
      changeRows T fl products c = [] ∧
      (changeUnsupported T products c).length = (actionTransitions c).length) := by
  refine ⟨?_, fun _ => rfl, ?_, ?_⟩
  · intro st t e he
    unfold buildTransition
    rw [he]
    rfl
  · intro xs ys
    simp [Build_rows, Build_unsupported, List.flatMap_append, List.flatMap_cons]
  · intro hall
    unfold changeRows changeUnsupported
    generalize actionTransitions c = ts at hall
    induction ts with
    | nil => simp
    | cons t ts ih =>
      obtain ⟨e, he⟩ := hall t (List.mem_cons_self _ _)
      obtain ⟨ih1, ih2⟩ := ih (fun u hu => hall u (List.mem_cons_of_mem _ hu))
      constructor
      · rw [List.flatMap_cons, ih1]
        simp [transitionRows, he]
      · rw [List.flatMap_cons, List.length_append, ih2]
        simp [transitionUnsupported, he]
        omega

/-- Witness for C22: a VPC private network, whose type has no mapping rule,
between two instance servers adds one Unsupported entry and leaves the batch
running: the report has the entry of the network alone. -/
theorem Build_resolve_error_witness :
    (Build CaseTables.ascii id
        ([{ Typ := "scaleway_instance_server".toList
            Actions := ["create".toList]
            After := [("type".toList, .str "DEV1-M".toList)] }] ++
          { Address := "scaleway_vpc_private_network.main".toList
            Typ := "scaleway_vpc_private_network".toList
            Actions := ["create".toList]
            After := [("region".toList, .str "fr-par".toList)] } ::
          [{ Typ := "scaleway_instance_server".toList
             Actions := ["create".toList]
             After := [("type".toList, .str "DEV1-M".toList)] }]) [dev1mPar1]).Unsupported =
      [{ Address := "scaleway_vpc_private_network.main".toList
         Code := "not_implemented".toList, Reason := "not implemented".toList }] :=
  (((Build_resolve_error CaseTables.ascii id [dev1mPar1]
    { Address := "scaleway_vpc_private_network.main".toList
      Typ := "scaleway_vpc_private_network".toList
      Actions := ["create".toList]
      After := [("region".toList, .str "fr-par".toList)] }).2.2.1 _ _).2).trans (by decide)

/-- C23, counterexample: an object bucket with an update and non-empty `before`
and `after` yields two Unsupported entries, and one with no action yields
none. -/
theorem Build_unsupported_type_claim_fails :
    (Build CaseTables.ascii id
        [{ Address := "scaleway_object_bucket.logs".toList
           Typ := "scaleway_object_bucket".toList
           Actions := ["update".toList]
           Before := [("name".toList, .str "logs".toList)]
           After := [("name".toList, .str "logs2".toList)] }] []).Unsupported =
      [{ Address := "scaleway_object_bucket.logs".toList
         Code := "not_implemented".toList, Reason := "not implemented".toList },
       { Address := "scaleway_object_bucket.logs".toList
         Code := "not_implemented".toList, Reason := "not implemented".toList }] ∧
    (Build CaseTables.ascii id
        [{ Address := "scaleway_object_bucket.logs".toList
           Typ := "scaleway_object_bucket".toList
           After := [("name".toList, .str "logs".toList)] }] []).Unsupported = [] := by
  decide

/-- C23, amended: for every change whose resource type has no mapping rule,
`Build` of that single change yields zero rows and exactly one Unsupported entry
per action transition of the change, each with code `not_implemented`: one
entry when the change has a single transition, two for a replace or an update
with `before` and `after` both non-empty, none when it has no transition. -/
theorem Build_unsupported_type (T : CaseTables) (fl : ℚ → ℚ) (products : List Product)
    (c : ResourceChange) (h : c.Typ ∉ supportedTypes) :
    (Build T fl [c] products).Rows = [] ∧
    (Build T fl [c] products).Unsupported =
      (actionTransitions c).map (fun _ =>
        ({ Address := c.Address, Code := "not_implemented".toList
           Reason := "not implemented".toList } : UnsupportedResource)) ∧
    ((actionTransitions c).length = 1 →
      (Build T fl [c] products).Unsupported =
        [{ Address := c.Address, Code := "not_implemented".toList
           Reason := "not implemented".toList }]) := by
  have hres : ∀ t ∈ actionTransitions c,
      Resolve T t.Change products = .error ⟨.NotImplemented, "not implemented".toList⟩ := by
    intro t ht
    apply Resolve_unsupported
    rw [(transition_change c t ht).1]
    exact h
  have hrows : changeRows T fl products c = [] := by
    unfold changeRows
    generalize actionTransitions c = ts at hres
    induction ts with
    | nil => rfl
    | cons t ts ih =>
      rw [List.flatMap_cons, ih (fun u hu => hres u (List.mem_cons_of_mem _ hu))]
      simp [transitionRows, hres t (List.mem_cons_self _ _)]
  have huns : changeUnsupported T products c =
      (actionTransitions c).map fun _ =>
        ({ Address := c.Address, Code := "not_implemented".toList
           Reason := "not implemented".toList } : UnsupportedResource) := by
    unfold changeUnsupported
    generalize actionTransitions c = ts at hres
    induction ts with
    | nil => rfl
    | cons t ts ih =>
      rw [List.flatMap_cons, ih (fun u hu => hres u (List.mem_cons_of_mem _ hu))]
      simp only [transitionUnsupported, hres t (List.mem_cons_self _ _), List.map_cons]
      rfl
  have hU : (Build T fl [c] products).Unsupported =
      (actionTransitions c).map fun _ =>
        ({ Address := c.Address, Code := "not_implemented".toList
           Reason := "not implemented".toList } : UnsupportedResource) := by
    rw [Build_unsupported]
    simp [List.flatMap_cons, huns]
  refine ⟨?_, hU, ?_⟩
  · rw [Build_rows]
    simp [List.flatMap_cons, hrows]
  · intro hlen
    rw [hU]
    match hts : actionTransitions c, hlen with
    | [_], _ => rfl

/-- Witness for C23: the VPC private network of the estimator test, a create
with non-empty `after`, yields exactly one Unsupported entry, with code
`not_implemented`. -/
theorem Build_unsupported_type_witness :
    (Build CaseTables.ascii id
        [{ Address := "scaleway_vpc_private_network.main".toList
           Typ := "scaleway_vpc_private_network".toList
           Actions := ["create".toList]
           After := [("region".toList, .str "fr-par".toList)] }] []).Unsupported =
      [{ Address := "scaleway_vpc_private_network.main".toList
         Code := "not_implemented".toList, Reason := "not implemented".toList }] :=
  (Build_unsupported_type CaseTables.ascii id []
    { Address := "scaleway_vpc_private_network.main".toList
      Typ := "scaleway_vpc_private_network".toList
      Actions := ["create".toList]
      After := [("region".toList, .str "fr-par".toList)] } (by decide)).2.2 (by decide)

/-! ## Rows and totals -/

theorem mem_transitionRows (T : CaseTables) (fl : ℚ → ℚ) (products : List Product)
    (t : actionTransition) (row : Row) (h : row ∈ transitionRows T fl products t) :
    ∃ result, Resolve T t.Change products = .ok result ∧
      ∃ (product : Product) (qty : ℚ),
        ((result.Matches = [] ∧ result.Product = some product ∧ qty = result.Qty) ∨
          ({ Product := product, Qty := qty } : Match) ∈ result.Matches) ∧
        row = rowFromProduct T fl t.Change t.Action t.Multiplier qty product := by
  unfold transitionRows at h
  cases hres : Resolve T t.Change products with
  | error e => rw [hres] at h; simp at h
  | ok result =>
    rw [hres] at h
    refine ⟨result, rfl, ?_⟩
    simp only at h
    split at h
    · simp at h
    · unfold rowsFromMatch at h
      split at h
      · next hlen =>
        cases hp : result.Product with
        | none => rw [hp] at h; simp at h
        | some product =>
          rw [hp] at h
          simp only [List.mem_singleton] at h
          exact ⟨product, result.Qty, Or.inl ⟨List.length_eq_zero.mp hlen, rfl, rfl⟩, h⟩
      · obtain ⟨m, hm, hrow⟩ := List.mem_map.mp h
        exact ⟨m.Product, m.Qty, Or.inr hm, hrow.symm⟩

theorem mem_Build_rows (T : CaseTables) (fl : ℚ → ℚ) (changes : List ResourceChange)
    (products : List Product) (row : Row) :
    row ∈ (Build T fl changes products).Rows ↔
      ∃ c ∈ changes, ∃ t ∈ actionTransitions c, row ∈ transitionRows T fl products t := by
  rw [Build_rows]
  simp [List.mem_flatMap, changeRows]

/-- The rows of a single change with a single transition that resolves to a
single product. -/
theorem Build_single_row (T : CaseTables) (fl : ℚ → ℚ) (c : ResourceChange)
    (products : List Product) (t : actionTransition) (p : Product) (qty : ℚ)
    (ht : actionTransitions c = [t])
    (hres : Resolve T t.Change products = .ok { Product := some p, Qty := qty }) :
    (Build T fl [c] products).Rows = [rowFromProduct T fl t.Change t.Action t.Multiplier qty p] := by
  rw [Build_rows]
  simp [changeRows, ht, transitionRows, hres, rowsFromMatch]

theorem unitToMonthMultiplier_month (fl : ℚ → ℚ) :
    unitToMonthMultiplier CaseTables.ascii fl "month".toList = 1 := by
  unfold unitToMonthMultiplier
  rw [ToLower_ascii _ _ (by decide)]
  rw [show List.map asciiLower "month".toList = "month".toList by decide,
    if_neg (by decide), if_pos rfl]

theorem unitToMonthMultiplier_hour (fl : ℚ → ℚ) :
    unitToMonthMultiplier CaseTables.ascii fl "hour".toList = 730 := by
  unfold unitToMonthMultiplier
  rw [ToLower_ascii _ _ (by decide)]
  rw [show List.map asciiLower "hour".toList = "hour".toList by decide, if_pos rfl]
  rfl

/-- C24: the row of a match (product, qty) under a transition multiplier `m` has
`KgCO2eMonth = kgCO2Equivalent × billedQty × unitMultiplier × m` when the product
has a kgCO2Equivalent rate, and `M3WaterMonth` is the same formula on
m3WaterUsage, where `billedQty` is `qty / size`, or `qty` itself when the bundle
size is 0 or 1, so that the divisor is never zero; the products are taken from
left to right and every float64 operation is rounded by `fl`, so in exact
arithmetic the value is the plain product. Every row of a report is such a row,
of a product and quantity `Resolve` matched for a transition of a change. With
unit month, size 100, rate 2 and quantity 250 a create gives exactly 5, in exact
arithmetic and in float64 arithmetic. -/
theorem rowFromProduct_value (T : CaseTables) (fl : ℚ → ℚ) (change : ResourceChange)
    (action : Str) (m qty : ℚ) (product : Product) :
    (normalizeQtyByUnitSize fl qty product.UnitOfMeasure.Size =
      if product.UnitOfMeasure.Size = 0 ∨ product.UnitOfMeasure.Size = 1 then qty
      else fl (qty / fl (product.UnitOfMeasure.Size : ℚ))) ∧
    (¬ (product.UnitOfMeasure.Size = 0 ∨ product.UnitOfMeasure.Size = 1) →
      (product.UnitOfMeasure.Size : ℚ) ≠ 0 ∧
      roundFloat64 (product.UnitOfMeasure.Size : ℚ) ≠ 0) ∧
    (∀ est kg, product.EnvironmentalImpactEstimation = some est →
      est.KgCO2Equivalent = some kg →
      (rowFromProduct T fl change action m qty product).KgCO2eMonth =
        fl (fl (fl (kg * normalizeQtyByUnitSize fl qty product.UnitOfMeasure.Size) *
          unitToMonthMultiplier T fl product.UnitOfMeasure.Unit) * m) ∧
      (rowFromProduct T id change action m qty product).KgCO2eMonth =
        kg * normalizeQtyByUnitSize id qty product.UnitOfMeasure.Size *
          unitToMonthMultiplier T id product.UnitOfMeasure.Unit * m) ∧
    (∀ est w, product.EnvironmentalImpactEstimation = some est →
      est.M3WaterUsage = some w →
      (rowFromProduct T fl change action m qty product).M3WaterMonth =
        fl (fl (fl (w * normalizeQtyByUnitSize fl qty product.UnitOfMeasure.Size) *
          unitToMonthMultiplier T fl product.UnitOfMeasure.Unit) * m) ∧
      (rowFromProduct T id change action m qty product).M3WaterMonth =
        w * normalizeQtyByUnitSize id qty product.UnitOfMeasure.Size *
          unitToMonthMultiplier T id product.UnitOfMeasure.Unit * m) ∧
    (∀ (changes : List ResourceChange) (products : List Product),
      ∀ row ∈ (Build T fl changes products).Rows,
        ∃ c ∈ changes, ∃ t ∈ actionTransitions c, ∃ result,
          Resolve T t.Change products = .ok result ∧
          ∃ (p : Product) (q : ℚ),
            ((result.Matches = [] ∧ result.Product = some p ∧ q = result.Qty) ∨
              ({ Product := p, Qty := q } : Match) ∈ result.Matches) ∧
            row = rowFromProduct T fl t.Change t.Action t.Multiplier q p) ∧
    (Build CaseTables.ascii id [dataChange] [blockSnapshot]).Rows.map
      (fun r => r.KgCO2eMonth) = [5] ∧
    (Build CaseTables.ascii roundFloat64 [dataChange] [blockSnapshot]).Rows.map
      (fun r => r.KgCO2eMonth) = [5] := by
  have h1 : actionTransitions dataChange = [createTransition dataChange] := by decide
  have h2 : Resolve CaseTables.ascii (createTransition dataChange).Change [blockSnapshot] =
      .ok { Product := some blockSnapshot, Qty := 250 } := by decide
  refine ⟨rfl, ?_, ?_, ?_, ?_, ?_, ?_⟩
  · intro h
    have h2 : 2 ≤ product.UnitOfMeasure.Size := by omega
    have hq : (2 : ℚ) ≤ (product.UnitOfMeasure.Size : ℚ) := by exact_mod_cast h2
    refine ⟨by linarith, ne_of_gt (roundFloat64_pos _ (le_trans ?_ hq))⟩
    exact le_trans (zpow_le_zpow_right₀ (by norm_num) (by norm_num : (-1022 : ℤ) ≤ 0))
      (by norm_num)
  · intro est kg he hk
    simp [rowFromProduct, he, hk]
  · intro est w he hw
    simp [rowFromProduct, he, hw]
  · intro changes products row hrow
    obtain ⟨c, hc, t, ht, hmem⟩ := (mem_Build_rows T fl changes products row).mp hrow
    exact ⟨c, hc, t, ht, mem_transitionRows T fl products t row hmem⟩
  · rw [Build_single_row _ _ _ _ _ _ _ h1 h2]
    simp only [List.map_cons, List.map_nil, rowFromProduct, blockSnapshot,
      unitToMonthMultiplier_month, normalizeQtyByUnitSize, createTransition]
    norm_num
  · rw [Build_single_row _ _ _ _ _ _ _ h1 h2]
    simp only [List.map_cons, List.map_nil, rowFromProduct, blockSnapshot,
      unitToMonthMultiplier_month, normalizeQtyByUnitSize, createTransition]
    decide!

/-- Witness for C24: the block storage product of the estimator test, rate 2 per
month in bundles of 100, at quantity 250 on a create, gives exactly 5 in
float64 arithmetic. -/
theorem rowFromProduct_value_witness :
    (rowFromProduct CaseTables.ascii roundFloat64 dataChange "create".toList 1 250
        blockSnapshot).KgCO2eMonth = 5 :=
  ((rowFromProduct_value CaseTables.ascii roundFloat64 dataChange "create".toList 1 250
    blockSnapshot).2.2.1 { KgCO2Equivalent := some 2 } 2 rfl rfl).1.trans (by decide!)

/-- C25, counterexample: the unit strings `HOUR` and `Year` are not `hour` and
`year`, and map to 730 and 1/12, not to 1. -/
theorem unitToMonthMultiplier_claim_fails :
    "HOUR".toList ≠ "hour".toList ∧
    unitToMonthMultiplier CaseTables.ascii id "HOUR".toList = 730 ∧
    "Year".toList ≠ "year".toList ∧
    unitToMonthMultiplier CaseTables.ascii id "Year".toList = 1 / 12 := by
  refine ⟨by decide, ?_, by decide, ?_⟩
  · unfold unitToMonthMultiplier
    rw [show ToLower CaseTables.ascii "HOUR".toList = "hour".toList by decide, if_pos rfl]
    rfl
  · unfold unitToMonthMultiplier
    rw [show ToLower CaseTables.ascii "Year".toList = "year".toList by decide,
      if_neg (by decide), if_neg (by decide), if_pos rfl]
    rfl

/-- C25, amended: `unitToMonthMultiplier` compares the unit in lower case, so in
any letter case: a unit that lower-cases to hour maps to 730, to month to 1, to
year to 1/12 (rounded once in float64 arithmetic), and every other unit to 1.
Hence a product billed per hour with rate 0.001 and quantity 1 on a create
yields `KgCO2eMonth = 0.001 × 730 = 0.73`: in exact arithmetic, and in float64
arithmetic, where the rate is the float64 nearest to 0.001 and the result is
the float64 nearest to 0.73; so does the instance of the estimator test. -/
theorem unitToMonthMultiplier_spec (T : CaseTables) (fl : ℚ → ℚ) (unit : Str) :
    (ToLower T unit = "hour".toList → unitToMonthMultiplier T fl unit = 730) ∧
    (ToLower T unit = "month".toList → unitToMonthMultiplier T fl unit = 1) ∧
    (ToLower T unit = "year".toList → unitToMonthMultiplier T fl unit = fl (1 / 12) ∧
      unitToMonthMultiplier T id unit = 1 / 12) ∧
    (ToLower T unit ≠ "hour".toList → ToLower T unit ≠ "month".toList →
      ToLower T unit ≠ "year".toList → unitToMonthMultiplier T fl unit = 1) ∧
    unitToMonthMultiplier T fl "hour".toList = 730 ∧
    unitToMonthMultiplier T fl "month".toList = 1 ∧
    unitToMonthMultiplier T id "year".toList = 1 / 12 ∧
    (∀ (change : ResourceChange) (product : Product) (est : EnvironmentalEstimation),
      ToLower T product.UnitOfMeasure.Unit = "hour".toList →
      product.UnitOfMeasure.Size = 1 →
      product.EnvironmentalImpactEstimation = some est →
      est.KgCO2Equivalent = some (1 / 1000) →
      (rowFromProduct T id change "create".toList 1 1 product).KgCO2eMonth = 1 / 1000 * 730 ∧
      (rowFromProduct T id change "create".toList 1 1 product).KgCO2eMonth = 73 / 100) ∧
    (Build CaseTables.ascii id [webChange ["create".toList] false true]
      [dev1mHour]).Rows.map (fun r => r.KgCO2eMonth) = [73 / 100] ∧
    (∀ (change : ResourceChange) (product : Product) (est : EnvironmentalEstimation) (kg : ℚ),
      ToLower T product.UnitOfMeasure.Unit = "hour".toList →
      product.UnitOfMeasure.Size = 1 →
      product.EnvironmentalImpactEstimation = some est →
      est.KgCO2Equivalent = some kg →
      roundFloat64 kg = roundFloat64 (1 / 1000) →
      (rowFromProduct T roundFloat64 change "create".toList 1 1 product).KgCO2eMonth =
        roundFloat64 (73 / 100)) ∧
    (Build CaseTables.ascii roundFloat64 [webChange ["create".toList] false true]
      [dev1mHour]).Rows.map (fun r => r.KgCO2eMonth) = [roundFloat64 (73 / 100)] := by
  have hh : ToLower T "hour".toList = "hour".toList := by
    rw [ToLower_ascii T _ (by decide)]; decide
  have hm : ToLower T "month".toList = "month".toList := by
    rw [ToLower_ascii T _ (by decide)]; decide
  have hy : ToLower T "year".toList = "year".toList := by
    rw [ToLower_ascii T _ (by decide)]; decide
  have e1 : ∀ (g : ℚ → ℚ) (u : Str), ToLower T u = "hour".toList →
      unitToMonthMultiplier T g u = 730 := by
    intro g u h
    unfold unitToMonthMultiplier
    rw [h, if_pos rfl]
    rfl
  have e2 : ∀ (g : ℚ → ℚ) (u : Str), ToLower T u = "month".toList →
      unitToMonthMultiplier T g u = 1 := by
    intro g u h
    unfold unitToMonthMultiplier
    rw [h, if_neg (by decide), if_pos rfl]
  have e3 : ∀ (g : ℚ → ℚ) (u : Str), ToLower T u = "year".toList →
      unitToMonthMultiplier T g u = g (1 / 12) := by
    intro g u h
    unfold unitToMonthMultiplier
    rw [h, if_neg (by decide), if_neg (by decide), if_pos rfl]
  have h1 : actionTransitions (webChange ["create".toList] false true) =
      [createTransition (webChange ["create".toList] false true)] := by decide
  have h2 : Resolve CaseTables.ascii
      (createTransition (webChange ["create".toList] false true)).Change [dev1mHour] =
      .ok { Product := some dev1mHour, Qty := 1 } := by rfl
  have hfloat : roundFloat64 (roundFloat64 (roundFloat64 (1 / 1000) * 730)) =
      roundFloat64 (73 / 100) := by decide!
  refine ⟨e1 fl unit, e2 fl unit, fun h => ⟨e3 fl unit h, e3 id unit h⟩, ?_, e1 fl _ hh,
    e2 fl _ hm, e3 id _ hy, ?_, ?_, ?_, ?_⟩
  · intro h1 h2 h3
    unfold unitToMonthMultiplier
    simp only
    rw [if_neg h1, if_neg h2, if_neg h3]
  · intro change product est hu hs he hk
    have hval : (rowFromProduct T id change "create".toList 1 1 product).KgCO2eMonth =
        1 / 1000 * 730 := by
      simp [rowFromProduct, he, hk, e1 id _ hu, normalizeQtyByUnitSize, hs]
    exact ⟨hval, by rw [hval]; norm_num⟩
  · rw [Build_single_row _ _ _ _ _ _ _ h1 h2]
    simp only [List.map_cons, List.map_nil, rowFromProduct, dev1mHour,
      unitToMonthMultiplier_hour, normalizeQtyByUnitSize, createTransition]
    norm_num
  · intro change product est kg hu hs he hk hkg
    have hrow : (rowFromProduct T roundFloat64 change "create".toList 1 1 product).KgCO2eMonth =
        roundFloat64 (roundFloat64 (roundFloat64 kg * 730)) := by
      simp [rowFromProduct, he, hk, e1 roundFloat64 _ hu, normalizeQtyByUnitSize, hs]
    rw [hrow, hkg, hfloat]
  · rw [Build_single_row _ _ _ _ _ _ _ h1 h2]
    simp only [List.map_cons, List.map_nil, rowFromProduct, dev1mHour,
      unitToMonthMultiplier_hour, normalizeQtyByUnitSize, createTransition]
    decide!

/-- Witness for C25: `Hour` lower-cases to `hour` and maps to 730. -/
theorem unitToMonthMultiplier_spec_witness :
    unitToMonthMultiplier CaseTables.ascii roundFloat64 "Hour".toList = 730 :=
  (unitToMonthMultiplier_spec CaseTables.ascii roundFloat64 "Hour".toList).1 (by decide)

theorem Build_webCreate_rows (fl : ℚ → ℚ) (p : Product)
    (h : Resolve CaseTables.ascii
      (createTransition (webChange ["create".toList] false true)).Change [p] =
        .ok { Product := some p, Qty := 1 }) :
    (Build CaseTables.ascii fl [webChange ["create".toList] false true] [p]).Rows =
      [rowFromProduct CaseTables.ascii fl
        (createTransition (webChange ["create".toList] false true)).Change
        "create".toList 1 1 p] :=
  Build_single_row _ _ _ _ _ _ _ (by decide) h

/-- C26: in every row `KgCO2eKnown` is true exactly when the matched product has
an environmental estimation with a kgCO2Equivalent value, and `M3WaterKnown`
exactly when it has an m3WaterUsage value, neither depending on the other value.
The value of an unknown metric is 0 (for a rounding that keeps 0, as exact and
float64 arithmetic do), and the loop of `Build` leaves the total of a metric as
it is on a row where the metric is unknown. Every row of a report is the row of a
matched product. In the estimator tests, the product without footprint gives a
row with both flags false and totals 0, and the product with a carbon rate only
a row with `KgCO2eKnown` true and `M3WaterKnown` false. -/
theorem rowFromProduct_known (T : CaseTables) (fl : ℚ → ℚ) (change : ResourceChange)
    (action : Str) (m qty : ℚ) (product : Product) :
    ((rowFromProduct T fl change action m qty product).KgCO2eKnown = true ↔
      ∃ est kg, product.EnvironmentalImpactEstimation = some est ∧
        est.KgCO2Equivalent = some kg) ∧
    ((rowFromProduct T fl change action m qty product).M3WaterKnown = true ↔
      ∃ est w, product.EnvironmentalImpactEstimation = some est ∧
        est.M3WaterUsage = some w) ∧
    (∀ kg w w' : Option ℚ,
      (rowFromProduct T fl change action m qty { product with
          EnvironmentalImpactEstimation :=
            some { KgCO2Equivalent := kg, M3WaterUsage := w } }).KgCO2eKnown =
        (rowFromProduct T fl change action m qty { product with
          EnvironmentalImpactEstimation :=
            some { KgCO2Equivalent := kg, M3WaterUsage := w' } }).KgCO2eKnown) ∧
    (∀ kg kg' w : Option ℚ,
      (rowFromProduct T fl change action m qty { product with
          EnvironmentalImpactEstimation :=
            some { KgCO2Equivalent := kg, M3WaterUsage := w } }).M3WaterKnown =
        (rowFromProduct T fl change action m qty { product with
          EnvironmentalImpactEstimation :=
            some { KgCO2Equivalent := kg', M3WaterUsage := w } }).M3WaterKnown) ∧
    (fl 0 = 0 →
      ((rowFromProduct T fl change action m qty product).KgCO2eKnown = false →
        (rowFromProduct T fl change action m qty product).KgCO2eMonth = 0) ∧
      ((rowFromProduct T fl change action m qty product).M3WaterKnown = false →
        (rowFromProduct T fl change action m qty product).M3WaterMonth = 0)) ∧
    (∀ (st : BuildState) (row : Row),
      (row.KgCO2eKnown = false →
        (buildRow fl st row).report.Totals.KgCO2eMonth = st.report.Totals.KgCO2eMonth) ∧
      (row.M3WaterKnown = false →
        (buildRow fl st row).report.Totals.M3WaterMonth = st.report.Totals.M3WaterMonth)) ∧
    (∀ (changes : List ResourceChange) (products : List Product),
      ∀ row ∈ (Build T fl changes products).Rows,
        ∃ c ∈ changes, ∃ t ∈ actionTransitions c, ∃ result,
          Resolve T t.Change products = .ok result ∧
          ∃ (p : Product) (q : ℚ),
            ((result.Matches = [] ∧ result.Product = some p ∧ q = result.Qty) ∨
              ({ Product := p, Qty := q } : Match) ∈ result.Matches) ∧
            row = rowFromProduct T fl t.Change t.Action t.Multiplier q p) ∧
    ((Build CaseTables.ascii fl [webChange ["create".toList] false true]
        [dev1mNoFootprint]).Rows.map (fun r => (r.KgCO2eKnown, r.M3WaterKnown)) =
        [(false, false)] ∧
      (Build CaseTables.ascii fl [webChange ["create".toList] false true]
        [dev1mNoFootprint]).Totals.KgCO2eMonth = 0 ∧
      (Build CaseTables.ascii fl [webChange ["create".toList] false true]
        [dev1mNoFootprint]).Totals.M3WaterMonth = 0) ∧
    (Build CaseTables.ascii fl [webChange ["create".toList] false true]
      [dev1mKgOnly]).Rows.map (fun r => (r.KgCO2eKnown, r.M3WaterKnown)) =
      [(true, false)] := by
  refine ⟨?_, ?_, ?_, ?_, ?_, ?_, ?_, ⟨?_, ?_, ?_⟩, ?_⟩
  · unfold rowFromProduct
    cases product.EnvironmentalImpactEstimation with
    | none => simp
    | some est => cases hk : est.KgCO2Equivalent <;> simp [hk]
  · unfold rowFromProduct
    cases product.EnvironmentalImpactEstimation with
    | none => simp
    | some est => cases hk : est.M3WaterUsage <;> simp [hk]
  · intro kg w w'
    cases kg <;> rfl
  · intro kg kg' w
    cases w <;> rfl
  · intro h0
    unfold rowFromProduct
    cases product.EnvironmentalImpactEstimation with
    | none => simp [h0]
    | some est =>
      cases hk : est.KgCO2Equivalent <;> cases hw : est.M3WaterUsage <;> simp [hk, hw, h0]
  · intro st row
    constructor
    · intro h
      unfold buildRow
      rcases hm : row.M3WaterKnown <;> simp [h, hm]
    · intro h
      unfold buildRow
      rcases hk : row.KgCO2eKnown <;> simp [h, hk]
  · intro changes products row hrow
    obtain ⟨c, hc, t, ht, hmem⟩ := (mem_Build_rows T fl changes products row).mp hrow
    exact ⟨c, hc, t, ht, mem_transitionRows T fl products t row hmem⟩
  · rw [Build_webCreate_rows fl dev1mNoFootprint (by decide)]
    rfl
  · rw [Build_totals, Build_webCreate_rows fl dev1mNoFootprint (by decide)]
    rfl
  · rw [Build_totals, Build_webCreate_rows fl dev1mNoFootprint (by decide)]
    rfl
  · rw [Build_webCreate_rows fl dev1mKgOnly (by rfl)]
    rfl

/-- Witness for C26: in float64 arithmetic the row of the product without
footprint has both values 0. -/
theorem rowFromProduct_known_witness :
    (rowFromProduct CaseTables.ascii roundFloat64 (webChange ["create".toList] false true)
      "create".toList 1 1 dev1mNoFootprint).KgCO2eMonth = 0 ∧
    (rowFromProduct CaseTables.ascii roundFloat64 (webChange ["create".toList] false true)
      "create".toList 1 1 dev1mNoFootprint).M3WaterMonth = 0 :=
  ⟨((rowFromProduct_known CaseTables.ascii roundFloat64 (webChange ["create".toList] false true)
      "create".toList 1 1 dev1mNoFootprint).2.2.2.2.1 roundFloat64_zero).1 rfl,
   ((rowFromProduct_known CaseTables.ascii roundFloat64 (webChange ["create".toList] false true)
      "create".toList 1 1 dev1mNoFootprint).2.2.2.2.1 roundFloat64_zero).2 rfl⟩

/-- C27: the report's `Totals.KgCO2eMonth` is the sum of `KgCO2eMonth` over
exactly the rows with `KgCO2eKnown = true`, and `Totals.M3WaterMonth` the sum of
`M3WaterMonth` over exactly the rows with `M3WaterKnown = true`: the values are
added in row order starting from 0, every sum rounded by `fl`, which in exact
arithmetic is the plain sum; the total is 0 when no row knows the metric. -/
theorem Build_totals_sum (T : CaseTables) (fl : ℚ → ℚ) (changes : List ResourceChange)
    (products : List Product) :
    (Build T fl changes products).Totals.KgCO2eMonth =
      (((Build T fl changes products).Rows.filter fun r => r.KgCO2eKnown).foldl
        (fun acc r => fl (acc + r.KgCO2eMonth)) 0) ∧
    (Build T fl changes products).Totals.M3WaterMonth =
      (((Build T fl changes products).Rows.filter fun r => r.M3WaterKnown).foldl
        (fun acc r => fl (acc + r.M3WaterMonth)) 0) ∧
    (Build T id changes products).Totals.KgCO2eMonth =
      (((Build T id changes products).Rows.filter fun r => r.KgCO2eKnown).map
        fun r => r.KgCO2eMonth).sum ∧
    (Build T id changes products).Totals.M3WaterMonth =
      (((Build T id changes products).Rows.filter fun r => r.M3WaterKnown).map
        fun r => r.M3WaterMonth).sum ∧
    ((∀ row ∈ (Build T fl changes products).Rows, row.KgCO2eKnown = false) →
      (Build T fl changes products).Totals.KgCO2eMonth = 0) ∧
    ((∀ row ∈ (Build T fl changes products).Rows, row.M3WaterKnown = false) →
      (Build T fl changes products).Totals.M3WaterMonth = 0) := by
  refine ⟨?_, ?_, ?_, ?_, ?_, ?_⟩
  · rw [Build_totals]; rfl
  · rw [Build_totals]; rfl
  · rw [Build_totals]; exact sumKnownKg_exact _
  · rw [Build_totals]; exact sumKnownM3_exact _
  · intro h
    rw [Build_totals]
    show sumKnownKg fl _ = 0
    unfold sumKnownKg
    rw [List.filter_eq_nil_iff.mpr (fun row hrow => by simp [h row hrow])]
    rfl
  · intro h
    rw [Build_totals]
    show sumKnownM3 fl _ = 0
    unfold sumKnownM3
    rw [List.filter_eq_nil_iff.mpr (fun row hrow => by simp [h row hrow])]
    rfl

/-- Witness for C27: the report of the product with a carbon rate only has no
row that knows the water metric, and its water total is 0. -/
theorem Build_totals_sum_witness :
    (Build CaseTables.ascii roundFloat64 [webChange ["create".toList] false true]
      [dev1mKgOnly]).Totals.M3WaterMonth = 0 :=
  (Build_totals_sum CaseTables.ascii roundFloat64 [webChange ["create".toList] false true]
    [dev1mKgOnly]).2.2.2.2.2 (by
      rw [Build_webCreate_rows roundFloat64 dev1mKgOnly (by rfl)]
      intro row hrow
      rw [List.mem_singleton.mp hrow]
      rfl)

/-- C28, counterexample: a single replace change of the test instance, against
the product without footprint, yields two rows and raises `UnknownRows` by 2;
so does a single create of a two-node redis cluster. -/
theorem Build_unknownRows_claim_fails :
    (Build CaseTables.ascii id [webChange ["delete".toList, "create".toList] true true]
      [dev1mNoFootprint]).Totals.UnknownRows = 2 ∧
    (Build CaseTables.ascii id [{ redisChange 2 with Actions := ["create".toList] }]
      [redisMain, redisAdditional]).Totals.UnknownRows = 2 := by
  decide

/-- C28, amended: `Totals.UnknownRows` is the number of report rows for which at
least one of the two metrics is unknown; a row with both metrics unknown is
counted once, so `UnknownRows` never exceeds the number of rows. Every row of a
product with no kgCO2Equivalent raises it by exactly 1, so a change raises it
by the number of such rows it yields: by 1 when the change yields a single row,
by 2 for a replace or an update of a single product with both states. -/
theorem Build_unknownRows (T : CaseTables) (fl : ℚ → ℚ) (changes : List ResourceChange)
    (products : List Product) :
    (Build T fl changes products).Totals.UnknownRows =
      (((Build T fl changes products).Rows.countP
        fun r => !r.KgCO2eKnown || !r.M3WaterKnown : Nat) : Int) ∧
    (Build T fl changes products).Totals.UnknownRows ≤
      ((Build T fl changes products).Rows.length : Int) ∧
    (∀ (st : BuildState) (row : Row),
      (row.KgCO2eKnown = false ∨ row.M3WaterKnown = false →
        (buildRow fl st row).report.Totals.UnknownRows = st.report.Totals.UnknownRows + 1) ∧
      (row.KgCO2eKnown = true → row.M3WaterKnown = true →
        (buildRow fl st row).report.Totals.UnknownRows = st.report.Totals.UnknownRows)) ∧
    (∀ c : ResourceChange,
      (Build T fl (changes ++ [c]) products).Totals.UnknownRows =
        (Build T fl changes products).Totals.UnknownRows +
          (((changeRows T fl products c).countP
            fun r => !r.KgCO2eKnown || !r.M3WaterKnown : Nat) : Int)) ∧
    (∀ (c : ResourceChange) (row : Row), changeRows T fl products c = [row] →
      row.KgCO2eKnown = false →
      (Build T fl (changes ++ [c]) products).Totals.UnknownRows =
        (Build T fl changes products).Totals.UnknownRows + 1) := by
  have happ : ∀ c : ResourceChange,
      (Build T fl (changes ++ [c]) products).Totals.UnknownRows =
        (Build T fl changes products).Totals.UnknownRows +
          (((changeRows T fl products c).countP
            fun r => !r.KgCO2eKnown || !r.M3WaterKnown : Nat) : Int) := by
    intro c
    rw [Build_totals, Build_totals, Build_rows, Build_rows]
    simp [countUnknown, List.flatMap_append, List.countP_append]
  refine ⟨?_, ?_, ?_, happ, ?_⟩
  · rw [Build_totals]; rfl
  · rw [Build_totals]
    show ((countUnknown _ : Nat) : Int) ≤ _
    exact_mod_cast List.countP_le_length _
  · intro st row
    constructor
    · intro h
      unfold buildRow
      rcases h with h | h
      · rcases hm : row.M3WaterKnown <;> simp [h, hm]
      · rcases hk : row.KgCO2eKnown <;> simp [h, hk]
    · intro hk hm
      unfold buildRow
      simp [hk, hm]
  · intro c row hrows hk
    rw [happ c, hrows]
    simp [hk]

/-- Witness for C28: the create of the test instance against the product without
footprint yields one row and raises `UnknownRows` from 0 to 1. -/
theorem Build_unknownRows_witness :
    (Build CaseTables.ascii id ([] ++ [webChange ["create".toList] false true])
      [dev1mNoFootprint]).Totals.UnknownRows =
      (Build CaseTables.ascii id [] [dev1mNoFootprint]).Totals.UnknownRows + 1 :=
  (Build_unknownRows CaseTables.ascii id [] [dev1mNoFootprint]).2.2.2.2
    (webChange ["create".toList] false true)
    (rowFromProduct CaseTables.ascii id
      (createTransition (webChange ["create".toList] false true)).Change
      "create".toList 1 1 dev1mNoFootprint)
    (by
      have h := Build_webCreate_rows id dev1mNoFootprint (by decide)
      rw [Build_rows] at h
      simpa using h)
    rfl

/-- C29: `Totals.KgCO2eKnown` is true exactly when no report row has
`KgCO2eKnown = false`, and `Totals.M3WaterKnown` exactly when no row has
`M3WaterKnown = false`. The two flags are independent: the report whose only row
knows kg but not water has `KgCO2eKnown = true` and `M3WaterKnown = false`. A
single kg-unknown row makes `Totals.KgCO2eKnown` false whatever the other rows. -/
theorem Build_known_flags (T : CaseTables) (fl : ℚ → ℚ) (changes : List ResourceChange)
    (products : List Product) :
    ((Build T fl changes products).Totals.KgCO2eKnown = true ↔
      ∀ row ∈ (Build T fl changes products).Rows, row.KgCO2eKnown ≠ false) ∧
    ((Build T fl changes products).Totals.M3WaterKnown = true ↔
      ∀ row ∈ (Build T fl changes products).Rows, row.M3WaterKnown ≠ false) ∧
    ((∃ row ∈ (Build T fl changes products).Rows, row.KgCO2eKnown = false) →
      (Build T fl changes products).Totals.KgCO2eKnown = false) ∧
    ((∃ row ∈ (Build T fl changes products).Rows, row.M3WaterKnown = false) →
      (Build T fl changes products).Totals.M3WaterKnown = false) ∧
    ((Build CaseTables.ascii fl [webChange ["create".toList] false true]
        [dev1mKgOnly]).Rows.map (fun r => (r.KgCO2eKnown, r.M3WaterKnown)) = [(true, false)] ∧
      (Build CaseTables.ascii fl [webChange ["create".toList] false true]
        [dev1mKgOnly]).Totals.KgCO2eKnown = true ∧
      (Build CaseTables.ascii fl [webChange ["create".toList] false true]
        [dev1mKgOnly]).Totals.M3WaterKnown = false) := by
  have hkg : (Build T fl changes products).Totals.KgCO2eKnown = true ↔
      ∀ row ∈ (Build T fl changes products).Rows, row.KgCO2eKnown ≠ false := by
    rw [Build_totals]
    simp [countKgUnknown, List.countP_eq_zero]
  have hm3 : (Build T fl changes products).Totals.M3WaterKnown = true ↔
      ∀ row ∈ (Build T fl changes products).Rows, row.M3WaterKnown ≠ false := by
    rw [Build_totals]
    simp [countM3Unknown, List.countP_eq_zero]
  refine ⟨hkg, hm3, ?_, ?_, ?_, ?_, ?_⟩
  · rintro ⟨row, hrow, hk⟩
    rw [← Bool.not_eq_true, hkg]
    exact fun h => h row hrow hk
  · rintro ⟨row, hrow, hk⟩
    rw [← Bool.not_eq_true, hm3]
    exact fun h => h row hrow hk
  · rw [Build_webCreate_rows fl dev1mKgOnly (by rfl)]
    rfl
  · rw [Build_totals, Build_webCreate_rows fl dev1mKgOnly (by rfl)]
    rfl
  · rw [Build_totals, Build_webCreate_rows fl dev1mKgOnly (by rfl)]
    rfl

/-- Witness for C29: in a report with a row of the block volume, whose kg metric
is known, and a row of the instance without footprint, `Totals.KgCO2eKnown` is
false. -/
theorem Build_known_flags_witness :
    (Build CaseTables.ascii id [dataChange, webChange ["create".toList] false true]
      [blockSnapshot, dev1mNoFootprint]).Rows.map (fun r => r.KgCO2eKnown) = [true, false] ∧
    (Build CaseTables.ascii id [dataChange, webChange ["create".toList] false true]
      [blockSnapshot, dev1mNoFootprint]).Totals.KgCO2eKnown = false :=
  ⟨by decide,
   (Build_known_flags CaseTables.ascii id [dataChange, webChange ["create".toList] false true]
      [blockSnapshot, dev1mNoFootprint]).2.2.1
    ⟨rowFromProduct CaseTables.ascii id
      (createTransition (webChange ["create".toList] false true)).Change
      "create".toList 1 1 dev1mNoFootprint, by with_unfolding_all decide, rfl⟩⟩

/-! ## Replace changes -/

/-- A successful `Resolve` names a product. -/
theorem Resolve_ok_product (T : CaseTables) (c : ResourceChange) (products : List Product)
    (r : Result) (h : Resolve T c products = .ok r) : ∃ p, r.Product = some p := by
  by_cases hs : c.Typ ∈ supportedTypes
  · by_cases hr : c.Typ = "scaleway_redis_cluster".toList
    · obtain ⟨mainNode, _, hcases⟩ := Resolve_ok_redis T c products r hr h
      rcases hcases with ⟨_, _, _, hr'⟩ | ⟨_, hr'⟩ <;> exact ⟨mainNode, by rw [hr']⟩
    · have hT : c.Typ ∈ singleProductTypes := by
        simp only [supportedTypes, List.mem_cons, List.mem_singleton, List.mem_nil_iff,
          or_false] at hs
        simp only [singleProductTypes, List.mem_cons, List.mem_singleton, List.mem_nil_iff,
          or_false]
        rcases hs with h1 | h1 | h1 | h1 | h1 | h1 | h1
        · exact Or.inl h1
        · exact Or.inr (Or.inl h1)
        · exact Or.inr (Or.inr (Or.inl h1))
        · exact Or.inr (Or.inr (Or.inr (Or.inl h1)))
        · exact Or.inr (Or.inr (Or.inr (Or.inr (Or.inl h1))))
        · exact Or.inr (Or.inr (Or.inr (Or.inr (Or.inr h1))))
        · exact absurd h1 hr
      obtain ⟨p, hp, _⟩ := Resolve_ok_single T c products r hT h
      exact ⟨p, by rw [hp]⟩
  · rw [Resolve_unsupported T c products hs] at h
    cases h

theorem rowsFromMatch_eq (T : CaseTables) (fl : ℚ → ℚ) (change : ResourceChange)
    (action : Str) (m : ℚ) (r : Result) :
    rowsFromMatch T fl change action m r =
      (resultMatches r).map fun x => rowFromProduct T fl change action m x.Qty x.Product := by
  unfold rowsFromMatch resultMatches
  split
  · cases r.Product <;> rfl
  · rfl

theorem resultMatches_ne_nil (r : Result) (p : Product) (h : r.Product = some p) :
    resultMatches r ≠ [] := by
  unfold resultMatches
  split
  · rw [h]; simp
  · next hlen => exact fun h0 => hlen (by rw [h0]; rfl)

/-- The rows and Unsupported entries of a transition on which `Resolve`
succeeds. -/
theorem transitionRows_ok (T : CaseTables) (fl : ℚ → ℚ) (products : List Product)
    (t : actionTransition) (r : Result) (address : Str)
    (h : Resolve T t.Change products = .ok r) :
    transitionRows T fl products t =
      (resultMatches r).map (fun x =>
        rowFromProduct T fl t.Change t.Action t.Multiplier x.Qty x.Product) ∧
    transitionUnsupported T products address t = [] := by
  obtain ⟨p, hp⟩ := Resolve_ok_product T t.Change products r h
  have hg : ¬ (r.Product = none ∧ r.Matches.length = 0) := by
    rw [hp]; simp
  unfold transitionRows transitionUnsupported
  rw [h]
  simp only [hg, if_false]
  exact ⟨rowsFromMatch_eq T fl _ _ _ r, trivial⟩

theorem rowFromProduct_neg (T : CaseTables) (fl : ℚ → ℚ) (hodd : ∀ x, fl (-x) = -fl x)
    (c d : ResourceChange) (a b : Str) (qty : ℚ) (p : Product) :
    (rowFromProduct T fl c a (-1) qty p).KgCO2eMonth =
      -(rowFromProduct T fl d b 1 qty p).KgCO2eMonth ∧
    (rowFromProduct T fl c a (-1) qty p).M3WaterMonth =
      -(rowFromProduct T fl d b 1 qty p).M3WaterMonth ∧
    (rowFromProduct T fl c a (-1) qty p).KgCO2eKnown =
      (rowFromProduct T fl d b 1 qty p).KgCO2eKnown ∧
    (rowFromProduct T fl c a (-1) qty p).M3WaterKnown =
      (rowFromProduct T fl d b 1 qty p).M3WaterKnown := by
  unfold rowFromProduct
  simp only [mul_neg, mul_one, hodd, and_self]

theorem sum_known_neg (ms : List Match) (D C : Match → Row) (f : Row → ℚ) (k : Row → Bool)
    (h : ∀ m, k (D m) = k (C m) ∧ f (D m) = -f (C m)) :
    (((ms.map D).filter k).map f).sum = -(((ms.map C).filter k).map f).sum := by
  induction ms with
  | nil => simp
  | cons m ms ih =>
    obtain ⟨hk, hf⟩ := h m
    rcases hka : k (C m)
    · have hkd : k (D m) = false := by rw [hk, hka]
      simp only [List.map_cons, List.filter_cons, hka, hkd]
      exact ih
    · have hkd : k (D m) = true := by rw [hk, hka]
      simp only [List.map_cons, List.filter_cons, hka, hkd, if_true, List.sum_cons, ih, hf]
      ring

/-- C30, counterexample: the replace of a redis cluster of two nodes with the
same attributes before and after, against a catalog with carbon rates 0.1 for
the main node and 0.2 for the additional node, yields the four rows delete,
delete, create, create and, in float64 arithmetic, the total `-2 ^ (-55)`, not
0; with rates `2 ^ 53` and 1 the total is 1. -/
theorem Build_replace_claim_fails :
    (Build CaseTables.ascii roundFloat64 [redisReplace]
      [redisMainTenth, redisAdditionalFifth]).Rows.map (fun r => (r.Action, r.SKU)) =
      [("delete".toList, redisMain.SKU), ("delete".toList, redisAdditional.SKU),
       ("create".toList, redisMain.SKU), ("create".toList, redisAdditional.SKU)] ∧
    (Build CaseTables.ascii roundFloat64 [redisReplace]
      [redisMainTenth, redisAdditionalFifth]).Totals.KgCO2eMonth =
      -1 / 36028797018963968 ∧
    (Build CaseTables.ascii roundFloat64 [redisReplace]
      [redisMainBig, redisAdditionalOne]).Rows.map (fun r => r.KgCO2eMonth) =
      [-9007199254740992, -1, 9007199254740992, 1] ∧
    (Build CaseTables.ascii roundFloat64 [redisReplace]
      [redisMainBig, redisAdditionalOne]).Totals.KgCO2eMonth = 1 := by
  refine ⟨by decide, by decide!, by decide!, by decide!⟩

/-- C30, amended: for every replace change (delete and create among the
actions) whose non-empty `before` and `after` are identical and resolve against
the catalog, the create transition resolves to the same result, nothing is
Unsupported, and `Build` yields exactly two rows per match: the delete rows of
all matches, then their create rows, a match's two rows carrying its SKU, the
same Known flags and opposite values `-x` and `+x`. This holds when rounding
commutes with negation, as in exact and in float64 arithmetic. The totals
`KgCO2eMonth` and `M3WaterMonth` are exactly 0 when there is a single match,
rounding leaves rounded values alone and no float64 product behind the row
overflows (beyond `maxFloat64` the rows of the code are infinite and their sum
is NaN); in exact arithmetic they are 0 for any number of matches. -/
theorem Build_replace (T : CaseTables) (fl : ℚ → ℚ) (c : ResourceChange)
    (products : List Product) (r : Result)
    (hodd : ∀ x, fl (-x) = -fl x) (hidem : ∀ x, fl (fl x) = fl x)
    (hd : "delete".toList ∈ c.Actions) (hc : "create".toList ∈ c.Actions)
    (hba : c.Before = c.After) (hne : c.Before ≠ [])
    (hres : Resolve T (deleteTransition c).Change products = .ok r) :
    Resolve T (createTransition c).Change products = .ok r ∧
    resultMatches r ≠ [] ∧
    (Build T fl [c] products).Unsupported = [] ∧
    (Build T fl [c] products).Rows =
      (resultMatches r).map (fun m =>
        rowFromProduct T fl (deleteTransition c).Change "delete".toList (-1) m.Qty m.Product) ++
      (resultMatches r).map (fun m =>
        rowFromProduct T fl (createTransition c).Change "create".toList 1 m.Qty m.Product) ∧
    (Build T fl [c] products).Rows.length = 2 * (resultMatches r).length ∧
    (∀ m ∈ resultMatches r,
      (rowFromProduct T fl (deleteTransition c).Change "delete".toList (-1) m.Qty
          m.Product).SKU = m.Product.SKU ∧
      (rowFromProduct T fl (createTransition c).Change "create".toList 1 m.Qty
          m.Product).SKU = m.Product.SKU ∧
      (rowFromProduct T fl (deleteTransition c).Change "delete".toList (-1) m.Qty
          m.Product).Action = "delete".toList ∧
      (rowFromProduct T fl (createTransition c).Change "create".toList 1 m.Qty
          m.Product).Action = "create".toList ∧
      (rowFromProduct T fl (deleteTransition c).Change "delete".toList (-1) m.Qty
          m.Product).KgCO2eKnown =
        (rowFromProduct T fl (createTransition c).Change "create".toList 1 m.Qty
          m.Product).KgCO2eKnown ∧
      (rowFromProduct T fl (deleteTransition c).Change "delete".toList (-1) m.Qty
          m.Product).M3WaterKnown =
        (rowFromProduct T fl (createTransition c).Change "create".toList 1 m.Qty
          m.Product).M3WaterKnown ∧
      (rowFromProduct T fl (deleteTransition c).Change "delete".toList (-1) m.Qty
          m.Product).KgCO2eMonth =
        -(rowFromProduct T fl (createTransition c).Change "create".toList 1 m.Qty
          m.Product).KgCO2eMonth ∧
      (rowFromProduct T fl (deleteTransition c).Change "delete".toList (-1) m.Qty
          m.Product).M3WaterMonth =
        -(rowFromProduct T fl (createTransition c).Change "create".toList 1 m.Qty
          m.Product).M3WaterMonth) ∧
    ((resultMatches r).length = 1 →
      (Build T fl [c] products).Rows.length = 2 ∧
      ((∀ m ∈ resultMatches r, rowFinite T fl m.Qty m.Product) →
        (Build T fl [c] products).Totals.KgCO2eMonth = 0 ∧
        (Build T fl [c] products).Totals.M3WaterMonth = 0)) ∧
    (Build T id [c] products).Totals.KgCO2eMonth = 0 ∧
    (Build T id [c] products).Totals.M3WaterMonth = 0 := by
  have hne' : c.After ≠ [] := hba ▸ hne
  have hcreate : Resolve T (createTransition c).Change products = .ok r := by
    rw [← hres]
    apply Resolve_congr_attrs
    · rfl
    · rw [applicableAttrs_after c hne', applicableAttrs_before, hba]
    · rfl
    · rfl
  have hts : actionTransitions c = [deleteTransition c, createTransition c] := by
    rw [actionTransitions_eq, if_pos (Or.inl ⟨hd, hne⟩), if_pos ⟨hd, hne⟩, if_pos ⟨hc, hne'⟩]
    rfl
  obtain ⟨p, hp⟩ := Resolve_ok_product T _ products r hres
  have hrows : ∀ g : ℚ → ℚ, (Build T g [c] products).Rows =
      (resultMatches r).map (fun m =>
        rowFromProduct T g (deleteTransition c).Change "delete".toList (-1) m.Qty m.Product) ++
      (resultMatches r).map (fun m =>
        rowFromProduct T g (createTransition c).Change "create".toList 1 m.Qty m.Product) := by
    intro g
    rw [Build_rows]
    simp only [List.flatMap_cons, List.flatMap_nil, List.append_nil, changeRows, hts]
    rw [(transitionRows_ok T g products _ r [] hres).1,
      (transitionRows_ok T g products _ r [] hcreate).1]
    rfl
  have hexact : ∀ (f : Row → ℚ) (k : Row → Bool),
      (∀ m : Match,
        k (rowFromProduct T id (deleteTransition c).Change "delete".toList (-1) m.Qty
            m.Product) =
          k (rowFromProduct T id (createTransition c).Change "create".toList 1 m.Qty
            m.Product) ∧
        f (rowFromProduct T id (deleteTransition c).Change "delete".toList (-1) m.Qty
            m.Product) =
          -f (rowFromProduct T id (createTransition c).Change "create".toList 1 m.Qty
            m.Product)) →
      ((((Build T id [c] products).Rows).filter k).map f).sum = 0 := by
    intro f k h
    rw [hrows id, List.filter_append, List.map_append, List.sum_append,
      sum_known_neg (resultMatches r) _ _ f k h]
    ring
  refine ⟨hcreate, resultMatches_ne_nil r p hp, ?_, hrows fl, ?_, ?_, ?_, ?_, ?_⟩
  · rw [Build_unsupported]
    simp only [List.flatMap_cons, List.flatMap_nil, List.append_nil, changeUnsupported, hts]
    rw [(transitionRows_ok T fl products _ r c.Address hres).2,
      (transitionRows_ok T fl products _ r c.Address hcreate).2]
    rfl
  · rw [hrows fl]
    simp only [List.length_append, List.length_map]
    ring
  · intro m _
    obtain ⟨h1, h2, h3, h4⟩ := rowFromProduct_neg T fl hodd (deleteTransition c).Change
      (createTransition c).Change "delete".toList "create".toList m.Qty m.Product
    exact ⟨rfl, rfl, rfl, rfl, h3, h4, h1, h2⟩
  · intro hlen
    obtain ⟨m, hm⟩ := List.length_eq_one.mp hlen
    obtain ⟨h1, h2, h3, h4⟩ := rowFromProduct_neg T fl hodd (deleteTransition c).Change
      (createTransition c).Change "delete".toList "create".toList m.Qty m.Product
    have h0 : fl 0 = 0 := by
      have := hodd 0
      rw [neg_zero] at this
      linarith
    have hkfix : fl (rowFromProduct T fl (createTransition c).Change "create".toList 1 m.Qty
        m.Product).KgCO2eMonth =
        (rowFromProduct T fl (createTransition c).Change "create".toList 1 m.Qty
          m.Product).KgCO2eMonth := by
      unfold rowFromProduct
      exact hidem _
    have hwfix : fl (rowFromProduct T fl (createTransition c).Change "create".toList 1 m.Qty
        m.Product).M3WaterMonth =
        (rowFromProduct T fl (createTransition c).Change "create".toList 1 m.Qty
          m.Product).M3WaterMonth := by
      unfold rowFromProduct
      exact hidem _
    refine ⟨by rw [hrows fl, hm]; rfl, fun _ => ⟨?_, ?_⟩⟩
    · rw [Build_totals, hrows fl, hm]
      show sumKnownKg fl _ = 0
      simp only [sumKnownKg, List.map_cons, List.map_nil, List.singleton_append,
        List.filter_cons, List.filter_nil, h3]
      split
      · simp only [List.foldl_cons, List.foldl_nil, zero_add, h1, hodd, hkfix, neg_add_cancel,
          h0]
      · rfl
    · rw [Build_totals, hrows fl, hm]
      show sumKnownM3 fl _ = 0
      simp only [sumKnownM3, List.map_cons, List.map_nil, List.singleton_append,
        List.filter_cons, List.filter_nil, h4]
      split
      · simp only [List.foldl_cons, List.foldl_nil, zero_add, h2, hodd, hwfix, neg_add_cancel,
          h0]
      · rfl
  · rw [Build_totals]
    show sumKnownKg id _ = 0
    rw [sumKnownKg_exact]
    apply hexact
    intro m
    obtain ⟨h1, _, h3, _⟩ := rowFromProduct_neg T id (fun _ => rfl) (deleteTransition c).Change
      (createTransition c).Change "delete".toList "create".toList m.Qty m.Product
    exact ⟨h3, h1⟩
  · rw [Build_totals]
    show sumKnownM3 id _ = 0
    rw [sumKnownM3_exact]
    apply hexact
    intro m
    obtain ⟨_, h2, _, h4⟩ := rowFromProduct_neg T id (fun _ => rfl) (deleteTransition c).Change
      (createTransition c).Change "delete".toList "create".toList m.Qty m.Product
    exact ⟨h4, h2⟩

/-- Witness for C30: the replace of the estimator test, in float64 arithmetic:
no product overflows, there are two rows and the totals are exactly 0. A
quantity of `1e308` on an hourly product of rate 1 is not covered: its product
by 730 is beyond `maxFloat64`. -/
theorem Build_replace_witness :
    (∀ m ∈ resultMatches { Product := some dev1mKgOnly, Qty := 1 },
      rowFinite CaseTables.ascii roundFloat64 m.Qty m.Product) ∧
    ((Build CaseTables.ascii roundFloat64
        [webChange ["delete".toList, "create".toList] true true] [dev1mKgOnly]).Rows.length =
      2 ∧
    (Build CaseTables.ascii roundFloat64
        [webChange ["delete".toList, "create".toList] true true]
        [dev1mKgOnly]).Totals.KgCO2eMonth = 0 ∧
    (Build CaseTables.ascii roundFloat64
        [webChange ["delete".toList, "create".toList] true true]
        [dev1mKgOnly]).Totals.M3WaterMonth = 0) ∧
    roundFloat64 (roundFloat64 (10 ^ 308) * 730) > maxFloat64 ∧
    ¬ rowFinite CaseTables.ascii roundFloat64 (roundFloat64 (10 ^ 308)) blockHourly :=
  have h := (Build_replace CaseTables.ascii roundFloat64
    (webChange ["delete".toList, "create".toList] true true) [dev1mKgOnly]
    { Product := some dev1mKgOnly, Qty := 1 } roundFloat64_neg roundFloat64_idem
    (by decide) (by decide) rfl (by decide) (by rfl)).2.2.2.2.2.2.1 rfl
  have hfin : ∀ m ∈ resultMatches { Product := some dev1mKgOnly, Qty := 1 },
      rowFinite CaseTables.ascii roundFloat64 m.Qty m.Product := by decide!
  ⟨hfin, ⟨h.1, h.2 hfin⟩, by decide!, by decide!⟩

/-! ## Updates, matches and concatenation -/

/-- C32: on a transition of a change on which `Resolve` succeeds, `Build` emits
one row per underlying match, in match order: the matches are `Matches`, or
the single pair of `Product` and `Qty` when `Matches` is empty. Each row is
computed from its match's own product and quantity and carries the change's
address and type, the transition's action label and the product's SKU. A result
with a product and no `Matches` gives exactly one row, and the redis cluster of
the estimator test, with `cluster_size` 3, gives exactly two rows: the
main-node SKU with quantity 1, then the additional-node SKU with quantity 2. -/
theorem transitionRows_matches (T : CaseTables) (fl : ℚ → ℚ) (c : ResourceChange)
    (products : List Product) (t : actionTransition) (r : Result)
    (ht : t ∈ actionTransitions c) (h : Resolve T t.Change products = .ok r) :
    transitionRows T fl products t =
      (resultMatches r).map (fun m =>
        rowFromProduct T fl t.Change t.Action t.Multiplier m.Qty m.Product) ∧
    (transitionRows T fl products t).length = (resultMatches r).length ∧
    (∀ m : Match,
      (rowFromProduct T fl t.Change t.Action t.Multiplier m.Qty m.Product).Address =
        c.Address ∧
      (rowFromProduct T fl t.Change t.Action t.Multiplier m.Qty m.Product).Typ = c.Typ ∧
      (rowFromProduct T fl t.Change t.Action t.Multiplier m.Qty m.Product).Action =
        t.Action ∧
      (rowFromProduct T fl t.Change t.Action t.Multiplier m.Qty m.Product).SKU =
        m.Product.SKU) ∧
    (r.Matches = [] → ∃ p, r.Product = some p ∧
      transitionRows T fl products t =
        [rowFromProduct T fl t.Change t.Action t.Multiplier r.Qty p]) ∧
    (r.Matches ≠ [] → resultMatches r = r.Matches) ∧
    (actionTransitions c = [t] →
      (Build T fl [c] products).Rows =
        (resultMatches r).map (fun m =>
          rowFromProduct T fl t.Change t.Action t.Multiplier m.Qty m.Product)) ∧
    (Resolve CaseTables.ascii (createTransition redisCreate).Change
        [redisMain, redisAdditional] =
      .ok { Product := some redisMain, Qty := 3
            Matches := [{ Product := redisMain, Qty := 1 },
                        { Product := redisAdditional, Qty := 2 }] } ∧
      (Build CaseTables.ascii fl [redisCreate] [redisMain, redisAdditional]).Rows =
        [rowFromProduct CaseTables.ascii fl (createTransition redisCreate).Change
            "create".toList 1 1 redisMain,
         rowFromProduct CaseTables.ascii fl (createTransition redisCreate).Change
            "create".toList 1 2 redisAdditional] ∧
      (Build CaseTables.ascii fl [redisCreate] [redisMain, redisAdditional]).Rows.map
          (fun row => row.SKU) =
        ["/storage/redis/main-node/RED1-micro/fr-par-1".toList,
         "/storage/redis/additional-node/RED1-micro/fr-par-1".toList]) := by
  obtain ⟨hrows, _⟩ := transitionRows_ok T fl products t r [] h
  obtain ⟨hTyp, hAddr⟩ := transition_change c t ht
  have hredis : Resolve CaseTables.ascii (createTransition redisCreate).Change
      [redisMain, redisAdditional] =
      .ok { Product := some redisMain, Qty := 3
            Matches := [{ Product := redisMain, Qty := 1 },
                        { Product := redisAdditional, Qty := 2 }] } := by decide!
  have hbuild : (Build CaseTables.ascii fl [redisCreate] [redisMain, redisAdditional]).Rows =
      [rowFromProduct CaseTables.ascii fl (createTransition redisCreate).Change
          "create".toList 1 1 redisMain,
       rowFromProduct CaseTables.ascii fl (createTransition redisCreate).Change
          "create".toList 1 2 redisAdditional] := by
    rw [Build_rows]
    simp only [List.flatMap_cons, List.flatMap_nil, List.append_nil, changeRows,
      show actionTransitions redisCreate = [createTransition redisCreate] by decide]
    rw [(transitionRows_ok CaseTables.ascii fl _ _ _ [] hredis).1]
    rfl
  refine ⟨hrows, by rw [hrows, List.length_map], fun m => ⟨hAddr, hTyp, rfl, rfl⟩, ?_, ?_, ?_,
    hredis, hbuild, ?_⟩
  · intro hm
    obtain ⟨p, hp⟩ := Resolve_ok_product T t.Change products r h
    refine ⟨p, hp, ?_⟩
    rw [hrows]
    simp [resultMatches, hm, hp]
  · intro hm
    unfold resultMatches
    rw [if_neg]
    intro h0
    exact hm (List.length_eq_zero.mp h0)
  · intro hts
    rw [Build_rows]
    simp only [List.flatMap_cons, List.flatMap_nil, List.append_nil, changeRows, hts]
    exact hrows
  · rw [hbuild]
    rfl

/-- Witness for C32: the create of the test instance resolves to a single
product and gives exactly one row, with the SKU of that product. -/
theorem transitionRows_matches_witness :
    transitionRows CaseTables.ascii id [dev1mHour]
        (createTransition (webChange ["create".toList] false true)) =
      [rowFromProduct CaseTables.ascii id
        (createTransition (webChange ["create".toList] false true)).Change
        "create".toList 1 1 dev1mHour] :=
  ((transitionRows_matches CaseTables.ascii id (webChange ["create".toList] false true)
    [dev1mHour] (createTransition (webChange ["create".toList] false true))
    { Product := some dev1mHour, Qty := 1 } (by decide) (by rfl)).2.2.2.1 rfl).elim
    fun p hp => (Option.some.inj hp.1) ▸ hp.2

theorem noCatalogMatchError_reason (zone region typeKey typeValue : Str) :
    ∃ s, (noCatalogMatchError zone region typeKey typeValue).Reason =
      "no catalog match".toList ++ s := by
  have key : ∀ (b : Prop) [Decidable b] (a s : Str),
      ∃ s', (if b then a ++ s else a) = a ++ s' := by
    intro b _ a s
    by_cases h : b
    · exact ⟨s, by rw [if_pos h]⟩
    · exact ⟨[], by rw [if_neg h]; simp⟩
  exact key _ _ _

/-- The reason of an error of `Resolve` begins `not implemented`,
`missing required attribute` or `no catalog match`. -/
theorem Resolve_error_reason (T : CaseTables) (c : ResourceChange) (products : List Product)
    (e : Error) (he : Resolve T c products = .error e) :
    e.Reason = "not implemented".toList ∨
    e.Reason = "missing required attribute: type".toList ∨
    e.Reason = "missing required attribute: node_type".toList ∨
    ∃ s, e.Reason = "no catalog match".toList ++ s := by
  have hno : ∀ z r k v, noCatalogMatchError z r k v = e →
      ∃ s, e.Reason = "no catalog match".toList ++ s := by
    intro z r k v h
    rw [← h]
    exact noCatalogMatchError_reason z r k v
  by_cases hs : c.Typ ∈ supportedTypes
  · simp only [supportedTypes, List.mem_cons, List.mem_singleton, List.mem_nil_iff,
      or_false] at hs
    rcases hs with h | h | h | h | h | h | h
    · rw [Resolve_instance T c products h] at he
      split at he
      · cases he; exact Or.inr (Or.inl rfl)
      · split at he
        · cases he
        · exact Or.inr (Or.inr (Or.inr (hno _ _ _ _ (Except.error.inj he))))
    · rw [Resolve_baremetal T c products h] at he
      split at he
      · cases he
      · exact Or.inr (Or.inr (Or.inr (hno _ _ _ _ (Except.error.inj he))))
    · rw [Resolve_k8s T c products h] at he
      split at he
      · cases he; exact Or.inr (Or.inr (Or.inl rfl))
      · split at he
        · cases he
        · exact Or.inr (Or.inr (Or.inr (hno _ _ _ _ (Except.error.inj he))))
    · rw [Resolve_lb T c products h] at he
      split at he
      · cases he; exact Or.inr (Or.inl rfl)
      · split at he
        · cases he
        · exact Or.inr (Or.inr (Or.inr (hno _ _ _ _ (Except.error.inj he))))
    · rw [Resolve_block T c products h] at he
      split at he
      · cases he
      · exact Or.inr (Or.inr (Or.inr (hno _ _ _ _ (Except.error.inj he))))
    · rw [Resolve_rdb T c products h] at he
      split at he
      · cases he; exact Or.inr (Or.inr (Or.inl rfl))
      · split at he
        · cases he
        · exact Or.inr (Or.inr (Or.inr (hno _ _ _ _ (Except.error.inj he))))
    · rw [Resolve_redis T c products h] at he
      split at he
      · cases he; exact Or.inr (Or.inr (Or.inl rfl))
      · split at he
        · exact Or.inr (Or.inr (Or.inr (hno _ _ _ _ (Except.error.inj he))))
        · split at he
          · split at he
            · exact Or.inr (Or.inr (Or.inr (hno _ _ _ _ (Except.error.inj he))))
            · cases he
          · cases he
  · rw [Resolve_unsupported T c products hs] at he
    cases he
    exact Or.inl rfl

theorem Resolve_error_reason_ne_default (T : CaseTables) (c : ResourceChange)
    (products : List Product) (e : Error) (he : Resolve T c products = .error e) :
    e.Reason ≠ "no matching catalog product".toList := by
  rcases Resolve_error_reason T c products e he with h | h | h | ⟨s, h⟩ <;> rw [h]
  · decide
  · decide
  · decide
  · simp

theorem mem_transitionUnsupported (T : CaseTables) (products : List Product) (address : Str)
    (t : actionTransition) (u : UnsupportedResource)
    (h : u ∈ transitionUnsupported T products address t) :
    ∃ e, Resolve T t.Change products = .error e ∧
      u = { Address := address, Code := e.Code.toStr, Reason := e.Reason } := by
  cases hres : Resolve T t.Change products with
  | error e =>
    unfold transitionUnsupported at h
    rw [hres] at h
    simp only [List.mem_singleton] at h
    exact ⟨e, rfl, h⟩
  | ok r =>
    rw [(transitionRows_ok T id products t r address hres).2] at h
    cases h

/-- C38: whenever `Resolve` returns no error, `Result.Product` is present, and
for a redis cluster `Matches` is non-empty. So the guard of `Build`, no product
and no matches, is false after a success, `rowsFromMatch` never reads a missing
product, and `Build` never emits the default Unsupported entry
(`no_catalog_match`, `no matching catalog product`): every entry of a report
has the code and the reason of an error that `Resolve` returned on a transition
of a change, and that reason is never the default one. -/
theorem Resolve_ok_guard (T : CaseTables) (fl : ℚ → ℚ) (c : ResourceChange)
    (products : List Product) (r : Result) (h : Resolve T c products = .ok r) :
    (∃ p, r.Product = some p) ∧
    (c.Typ = "scaleway_redis_cluster".toList → r.Matches ≠ []) ∧
    ¬ (r.Product = none ∧ r.Matches.length = 0) ∧
    (r.Matches.length = 0 → r.Product ≠ none) ∧
    (∀ (st : BuildState) (d : ResourceChange) (t : actionTransition), t.Change = c →
      buildTransition T fl products d st t =
        (rowsFromMatch T fl t.Change t.Action t.Multiplier r).foldl (buildRow fl) st) ∧
    (∀ changes : List ResourceChange, ∀ u ∈ (Build T fl changes products).Unsupported,
      ∃ d ∈ changes, ∃ t ∈ actionTransitions d, ∃ e,
        Resolve T t.Change products = .error e ∧
        u = { Address := d.Address, Code := e.Code.toStr, Reason := e.Reason } ∧
        u ≠ unsupportedFromError d.Address none ∧
        u.Reason ≠ "no matching catalog product".toList) := by
  obtain ⟨p, hp⟩ := Resolve_ok_product T c products r h
  have hg : ¬ (r.Product = none ∧ r.Matches.length = 0) := by rw [hp]; simp
  refine ⟨⟨p, hp⟩, ?_, hg, fun _ => by rw [hp]; simp, ?_, ?_⟩
  · intro hT
    obtain ⟨mainNode, _, hcases⟩ := Resolve_ok_redis T c products r hT h
    rcases hcases with ⟨_, _, _, hr⟩ | ⟨_, hr⟩ <;> rw [hr] <;> simp
  · intro st d t ht
    unfold buildTransition
    rw [ht, h]
    simp only [hg, if_false]
  · intro changes u hu
    rw [Build_unsupported] at hu
    obtain ⟨d, hd, hu⟩ := List.mem_flatMap.mp hu
    unfold changeUnsupported at hu
    obtain ⟨t, ht, hu⟩ := List.mem_flatMap.mp hu
    obtain ⟨e, he, hue⟩ := mem_transitionUnsupported T products d.Address t u hu
    have hreason := Resolve_error_reason_ne_default T t.Change products e he
    refine ⟨d, hd, t, ht, e, he, hue, ?_, ?_⟩
    · intro heq
      apply hreason
      have := congrArg UnsupportedResource.Reason heq
      rw [hue] at this
      exact this
    · rw [hue]; exact hreason

/-- Witness for C38: the create of a redis cluster of three nodes resolves, with
the main node as `Product` and a non-empty `Matches`. -/
theorem Resolve_ok_guard_witness :
    ∃ r, Resolve CaseTables.ascii (createTransition redisCreate).Change
        [redisMain, redisAdditional] = .ok r ∧
      (∃ p, r.Product = some p) ∧ r.Matches ≠ [] :=
  have h : Resolve CaseTables.ascii (createTransition redisCreate).Change
      [redisMain, redisAdditional] =
      .ok { Product := some redisMain, Qty := 3
            Matches := [{ Product := redisMain, Qty := 1 },
                        { Product := redisAdditional, Qty := 2 }] } := by decide!
  ⟨_, h,
    (Resolve_ok_guard CaseTables.ascii id (createTransition redisCreate).Change
      [redisMain, redisAdditional] _ h).1,
    (Resolve_ok_guard CaseTables.ascii id (createTransition redisCreate).Change
      [redisMain, redisAdditional] _ h).2.1 rfl⟩

theorem decide_add_eq_zero (a b : Nat) :
    decide (a + b = 0) = (decide (a = 0) && decide (b = 0)) := by
  by_cases ha : a = 0 <;> by_cases hb : b = 0 <;> simp [ha, hb]

/-- C39: `Build` is a homomorphism over concatenation of change lists. The rows
of `Build (xs ++ ys)` are those of `Build xs` followed by those of `Build ys`,
and so are the Unsupported entries, for every rounding of the float64
operations; `UnknownRows` is the sum of the two counts and each Known flag the
conjunction of the two flags; in exact arithmetic the two total sums are the
sums of the totals of `Build xs` and `Build ys`. `Build` of the empty list has
no rows, no Unsupported entries, zero totals and both Known flags true. -/
theorem Build_append (T : CaseTables) (fl : ℚ → ℚ) (products : List Product)
    (xs ys : List ResourceChange) :
    (Build T fl (xs ++ ys) products).Rows =
      (Build T fl xs products).Rows ++ (Build T fl ys products).Rows ∧
    (Build T fl (xs ++ ys) products).Unsupported =
      (Build T fl xs products).Unsupported ++ (Build T fl ys products).Unsupported ∧
    (Build T id (xs ++ ys) products).Totals.KgCO2eMonth =
      (Build T id xs products).Totals.KgCO2eMonth +
        (Build T id ys products).Totals.KgCO2eMonth ∧
    (Build T id (xs ++ ys) products).Totals.M3WaterMonth =
      (Build T id xs products).Totals.M3WaterMonth +
        (Build T id ys products).Totals.M3WaterMonth ∧
    (Build T fl (xs ++ ys) products).Totals.UnknownRows =
      (Build T fl xs products).Totals.UnknownRows +
        (Build T fl ys products).Totals.UnknownRows ∧
    (Build T fl (xs ++ ys) products).Totals.KgCO2eKnown =
      ((Build T fl xs products).Totals.KgCO2eKnown &&
        (Build T fl ys products).Totals.KgCO2eKnown) ∧
    (Build T fl (xs ++ ys) products).Totals.M3WaterKnown =
      ((Build T fl xs products).Totals.M3WaterKnown &&
        (Build T fl ys products).Totals.M3WaterKnown) ∧
    Build T fl [] products =
      { Rows := [], Unsupported := []
        Totals := { KgCO2eMonth := 0, KgCO2eKnown := true, M3WaterMonth := 0
                    M3WaterKnown := true, UnknownRows := 0 } } := by
  have hrows : ∀ g : ℚ → ℚ, (Build T g (xs ++ ys) products).Rows =
      (Build T g xs products).Rows ++ (Build T g ys products).Rows :=
    fun g => Build_append_rows T g products xs ys
  refine ⟨hrows fl, Build_append_unsupported T fl products xs ys, ?_, ?_, ?_, ?_, ?_, ?_⟩
  · simp only [Build_totals, hrows id, sumKnownKg_exact, List.filter_append, List.map_append,
      List.sum_append]
  · simp only [Build_totals, hrows id, sumKnownM3_exact, List.filter_append, List.map_append,
      List.sum_append]
  · simp only [Build_totals, hrows fl, countUnknown_append]
    push_cast
    rfl
  · simp only [Build_totals, hrows fl, countKgUnknown_append, decide_add_eq_zero]
  · simp only [Build_totals, hrows fl, countM3Unknown_append, decide_add_eq_zero]
  · rw [Build_eq]
    rfl

/-! ## Node count -/

/-- C35, the failing input: a `cluster_size` of `1e19` is a float64 value, at
least 1, whose integer part `10 ^ 19` does not fit an `int`. `normalizeCount`
converts it to `-2 ^ 63`: the node count is below 1 and is not the integer part
of the value, and the redis cluster of the repository test with that size
resolves to the main node alone, with `Qty = -2 ^ 63`. -/
theorem normalizeCount_overflow :
    roundFloat64 (10 ^ 19) = 10 ^ 19 ∧
    (1 : ℚ) ≤ 10 ^ 19 ∧
    ⌊(10 ^ 19 : ℚ)⌋ = 10 ^ 19 ∧
    normalizeCount (10 ^ 19) = -2 ^ 63 ∧
    ¬ (1 ≤ normalizeCount (10 ^ 19)) ∧
    normalizeCount (10 ^ 19) ≠ ⌊(10 ^ 19 : ℚ)⌋ ∧
    nodeCount (redisChange (10 ^ 19)) = -2 ^ 63 ∧
    Resolve CaseTables.ascii (redisChange (10 ^ 19)) [redisMain, redisAdditional] =
      .ok { Product := some redisMain, Qty := -2 ^ 63
            Matches := [{ Product := redisMain, Qty := 1 }] } := by
  refine ⟨by decide!, by norm_num, by decide!, by decide!, by decide!, by decide!, by decide!,
    by decide!⟩

/-! ## `ParseCSV` -/

theorem Split_ne_nil (s : Str) (sep : Char) : Split s sep ≠ [] := by
  cases s with
  | nil => simp [Split]
  | cons c cs =>
    unfold Split
    split
    · simp
    · split <;> simp

theorem mem_Split_sep (s : Str) (sep : Char) : ∀ p ∈ Split s sep, sep ∉ p := by
  induction s with
  | nil => intro p hp; simp [Split] at hp; subst hp; simp
  | cons c cs ih =>
    intro p hp
    unfold Split at hp
    split at hp
    · rcases List.mem_cons.mp hp with h | h
      · subst h; simp
      · exact ih p h
    · next hne =>
      split at hp
      · next hnil => exact absurd hnil (Split_ne_nil cs sep)
      · next q qs hq =>
        rcases List.mem_cons.mp hp with h | h
        · subst h
          intro hmem
          rcases List.mem_cons.mp hmem with h1 | h1
          · exact hne h1.symm
          · exact ih q (by rw [hq]; exact List.mem_cons_self _ _) h1
        · exact ih p (by rw [hq]; exact List.mem_cons_of_mem _ h)

/-- `FieldsFunc` on a one-rune separator gives the non-empty pieces of `Split`. -/
theorem fieldsLoop_eq_Split (sep : Char) (s : Str) :
    fieldsLoop (fun r => r == sep) s none = (Split s sep).filter (fun p => p ≠ []) ∧
    ∀ w : Str, w ≠ [] →
      fieldsLoop (fun r => r == sep) s (some w) =
        match Split s sep with
        | p :: ps => (w ++ p) :: ps.filter (fun p => p ≠ [])
        | [] => [w] := by
  induction s with
  | nil =>
    refine ⟨by simp [fieldsLoop, Split], fun w _ => by simp [fieldsLoop, Split]⟩
  | cons c cs ih =>
    obtain ⟨ihA, ihB⟩ := ih
    by_cases hc : c = sep
    · subst hc
      refine ⟨?_, fun w _ => ?_⟩
      · simp [fieldsLoop, Split, ihA]
      · simp [fieldsLoop, Split, ihA]
    · have hc' : (c == sep) = false := by simpa using hc
      refine ⟨?_, fun w _ => ?_⟩
      · simp only [fieldsLoop, hc', Split, if_neg hc]
        rw [ihB [c] (by simp)]
        cases hs : Split cs sep with
        | nil => exact absurd hs (Split_ne_nil cs sep)
        | cons p ps => simp
      · simp only [fieldsLoop, hc', Split, if_neg hc]
        rw [ihB (w ++ [c]) (by simp)]
        cases hs : Split cs sep with
        | nil => exact absurd hs (Split_ne_nil cs sep)
        | cons p ps => simp

theorem FieldsFunc_eq_Split (s : Str) (sep : Char) :
    FieldsFunc s (fun r => r == sep) = (Split s sep).filter (fun p => p ≠ []) :=
  (fieldsLoop_eq_Split sep s).1

theorem TrimSpace_nil : TrimSpace [] = [] := by
  simp [TrimSpace, List.rdropWhile]

theorem foldl_trim_append (parts out : List Str) :
    parts.foldl (fun out part =>
        let part := TrimSpace part
        if part = [] then out else out ++ [part]) out =
      out ++ (parts.map TrimSpace).filter (fun p => p ≠ []) := by
  induction parts generalizing out with
  | nil => simp
  | cons p ps ih =>
    rw [List.foldl_cons, ih]
    by_cases h : TrimSpace p = [] <;> simp [h]

theorem filter_map_trim (l : List Str) :
    ((l.filter (fun p => p ≠ [])).map TrimSpace).filter (fun p => p ≠ []) =
      (l.map TrimSpace).filter (fun p => p ≠ []) := by
  rw [List.filter_map, List.filter_map, List.filter_filter]
  congr 1
  apply List.filter_congr
  intro x _
  by_cases hx : x = []
  · subst hx; simp [TrimSpace_nil]
  · simp [hx]

theorem parseCSVValue_eq (out : List Str) (value : Str) :
    parseCSVValue out value = out ++ csvPieces [value] := by
  unfold parseCSVValue csvPieces
  rw [foldl_trim_append, FieldsFunc_eq_Split, filter_map_trim]
  simp

theorem csvPieces_append (a b : List Str) : csvPieces (a ++ b) = csvPieces a ++ csvPieces b := by
  simp [csvPieces, List.flatMap_append]

theorem foldl_parseCSVValue (values : List Str) (out : List Str) :
    values.foldl parseCSVValue out = out ++ csvPieces values := by
  induction values generalizing out with
  | nil => simp [csvPieces]
  | cons v vs ih =>
    rw [List.foldl_cons, ih, parseCSVValue_eq, List.append_assoc, ← csvPieces_append]
    rfl

theorem TrimSpace_head (s : Str) (c : Char) (h : (TrimSpace s).head? = some c) :
    isSpace c = false := by
  unfold TrimSpace at h
  have hpre : (s.dropWhile isSpace).rdropWhile isSpace <+: s.dropWhile isSpace :=
    List.rdropWhile_prefix _ _
  obtain ⟨t, ht⟩ := hpre
  cases hr : (s.dropWhile isSpace).rdropWhile isSpace with
  | nil => rw [hr] at h; cases h
  | cons x xs =>
    rw [hr] at h ht
    simp only [List.head?_cons, Option.some.injEq] at h
    subst h
    have hhead : (s.dropWhile isSpace).head? = some x := by rw [← ht]; rfl
    have := List.head?_dropWhile_not isSpace s
    rw [hhead] at this
    simpa using this

theorem TrimSpace_getLast (s : Str) (c : Char) (h : (TrimSpace s).getLast? = some c) :
    isSpace c = false := by
  unfold TrimSpace at h
  cases hr : (s.dropWhile isSpace).rdropWhile isSpace with
  | nil => rw [hr] at h; cases h
  | cons x xs =>
    have hne : (s.dropWhile isSpace).rdropWhile isSpace ≠ [] := by rw [hr]; simp
    have hlast := List.rdropWhile_last_not isSpace (s.dropWhile isSpace) hne
    rw [List.getLast?_eq_getLast _ hne] at h
    simp only [Option.some.injEq] at h
    rw [h] at hlast
    simpa using hlast

theorem TrimSpace_sublist (s : Str) : (TrimSpace s).Sublist s :=
  ((List.rdropWhile_prefix _ _).sublist).trans (List.dropWhile_suffix _).sublist

/-- C34: `ParseCSV` returns the comma-separated pieces of all its arguments, in
argument order and then left to right, with the surrounding white space trimmed
and the empty pieces dropped. Every returned element is non-empty, contains no
comma and neither begins nor ends with a white-space rune, and the result is
nil, not an empty list, exactly when no piece remains. The three cases of the
repository test are evaluated. -/
theorem ParseCSV_spec (values : List Str) :
    ParseCSV values = (if csvPieces values = [] then none else some (csvPieces values)) ∧
    (ParseCSV values = none ↔ csvPieces values = []) ∧
    ParseCSV values ≠ some [] ∧
    (∀ out, ParseCSV values = some out →
      out = csvPieces values ∧ out ≠ [] ∧
      ∀ e ∈ out, e ≠ [] ∧ ',' ∉ e ∧
        (∀ c, e.head? = some c → isSpace c = false) ∧
        (∀ c, e.getLast? = some c → isSpace c = false) ∧
        ∃ v ∈ values, ∃ p ∈ Split v ',', e = TrimSpace p) ∧
    ParseCSV ["fr-par, nl-ams, , pl-waw".toList] =
      some ["fr-par".toList, "nl-ams".toList, "pl-waw".toList] ∧
    ParseCSV [" ".toList] = none ∧
    ParseCSV ["fr-par".toList, "nl-ams,pl-waw".toList] =
      some ["fr-par".toList, "nl-ams".toList, "pl-waw".toList] := by
  have hval : ParseCSV values =
      (if csvPieces values = [] then none else some (csvPieces values)) := by
    unfold ParseCSV
    simp only [foldl_parseCSVValue, List.nil_append, List.length_eq_zero]
  refine ⟨hval, ?_, ?_, ?_, by decide, by decide, by decide⟩
  · rw [hval]
    by_cases h : csvPieces values = [] <;> simp [h]
  · rw [hval]
    by_cases h : csvPieces values = [] <;> simp [h]
  · intro out hout
    rw [hval] at hout
    by_cases h : csvPieces values = []
    · rw [if_pos h] at hout; cases hout
    · rw [if_neg h] at hout
      have hout' : csvPieces values = out := Option.some.inj hout
      refine ⟨hout'.symm, hout' ▸ h, ?_⟩
      intro e he
      rw [← hout'] at he
      unfold csvPieces at he
      obtain ⟨hmem, hne⟩ := List.mem_filter.mp he
      obtain ⟨p, hp, hpe⟩ := List.mem_map.mp hmem
      obtain ⟨v, hv, hpv⟩ := List.mem_flatMap.mp hp
      have hne' : e ≠ [] := by simpa using hne
      refine ⟨hne', ?_, ?_, ?_, v, hv, p, hpv, hpe.symm⟩
      · intro hc
        rw [← hpe] at hc
        exact mem_Split_sep v ',' p hpv ((TrimSpace_sublist p).subset hc)
      · intro c hc
        rw [← hpe] at hc
        exact TrimSpace_head p c hc
      · intro c hc
        rw [← hpe] at hc
        exact TrimSpace_getLast p c hc

/-- Witness for C34: on the first case of the repository test the result is not
nil and its three elements hold no comma. -/
theorem ParseCSV_spec_witness :
    ∀ e ∈ ["fr-par".toList, "nl-ams".toList, "pl-waw".toList], e ≠ [] ∧ ',' ∉ e :=
  fun e he =>
    have h := ((ParseCSV_spec ["fr-par, nl-ams, , pl-waw".toList]).2.2.2.1
      ["fr-par".toList, "nl-ams".toList, "pl-waw".toList] (by decide)).2.2 e he
    ⟨h.1, h.2.1⟩

/-! ## The redis role lookup as a single filter -/

theorem Contains_iff_occurs (s sub : Str) : Contains s sub = true ↔ sub <:+: s := by
  induction s with
  | nil =>
    unfold Contains
    rw [List.infix_nil, List.isEmpty_iff]
  | cons c cs ih =>
    unfold Contains
    rw [Bool.or_eq_true, ih, List.infix_cons_iff]
    unfold HasPrefix
    rw [List.isPrefixOf_iff_prefix]

theorem skuAt_of_get (products : List Product) (k : Nat) (p : Product)
    (h : products[k]? = some p) : skuAt products (k : Int) = p.SKU := by
  unfold skuAt
  rw [Int.toNat_ofNat, h]

/-- One pass of the loop of `findBestProduct` and one pass of `pickBest` keep
the index in step with the entry it points at. -/
theorem pickBest_step (T : CaseTables) (products : List Product)
    (matchResource : Product → Bool) (zone region typeToken : Str) (requireType : Bool)
    (i : Nat) (x : Product) (st : Int × Int) (best : Option (Product × Int))
    (hx : products[i]? = some x)
    (h : (st.1 < 0 ∧ best = none) ∨
      ∃ (k : Nat) (p : Product), st.1 = (k : Int) ∧ products[k]? = some p ∧
        best = some (p, st.2)) :
    (fun st' best' => (st'.1 < 0 ∧ best' = none) ∨
      ∃ (k : Nat) (p : Product), st'.1 = (k : Int) ∧ products[k]? = some p ∧
        best' = some (p, st'.2))
      (findBestStep T products matchResource zone region typeToken requireType i x st)
      (if passesFilters T matchResource zone region typeToken requireType x = true then
        match best with
        | none => some (x, candidateScore T zone region typeToken x)
        | some (p, s) =>
          if candidateScore T zone region typeToken x > s ∨
              (candidateScore T zone region typeToken x = s ∧ Compare x.SKU p.SKU < 0) then
            some (x, candidateScore T zone region typeToken x)
          else some (p, s)
      else best) := by
  rw [findBestStep_eq]
  simp only
  by_cases hp : passesFilters T matchResource zone region typeToken requireType x = true
  · rw [if_pos hp, if_pos hp]
    unfold findBestUpdate
    rcases h with ⟨hneg, hnone⟩ | ⟨k, p, hk, hkp, hbest⟩
    · rw [if_pos (Or.inl hneg), hnone]
      exact Or.inr ⟨i, x, rfl, hx, rfl⟩
    · have hk0 : ¬ (st.1 < 0) := by rw [hk]; omega
      rw [hbest, hk, skuAt_of_get products k p hkp]
      simp only
      by_cases hc : candidateScore T zone region typeToken x > st.2 ∨
          (candidateScore T zone region typeToken x = st.2 ∧ Compare x.SKU p.SKU < 0)
      · rw [if_pos (Or.inr hc), if_pos hc]
        exact Or.inr ⟨i, x, rfl, hx, rfl⟩
      · have hc' : ¬ ((k : Int) < 0 ∨ candidateScore T zone region typeToken x > st.2 ∨
            (candidateScore T zone region typeToken x = st.2 ∧ Compare x.SKU p.SKU < 0)) := by
          rintro (h1 | h1)
          · omega
          · exact hc h1
        rw [if_neg hc', if_neg hc]
        exact Or.inr ⟨k, p, hk, hkp, rfl⟩
  · rw [if_neg hp, if_neg hp]
    exact h

theorem pickBest_loop (T : CaseTables) (products : List Product)
    (matchResource : Product → Bool) (zone region typeToken : Str) (requireType : Bool)
    (rest pre : List Product) (st : Int × Int) (best : Option (Product × Int))
    (hsplit : products = pre ++ rest)
    (h : (st.1 < 0 ∧ best = none) ∨
      ∃ (k : Nat) (p : Product), st.1 = (k : Int) ∧ products[k]? = some p ∧
        best = some (p, st.2)) :
    (fun st' best' => (st'.1 < 0 ∧ best' = none) ∨
      ∃ (k : Nat) (p : Product), st'.1 = (k : Int) ∧ products[k]? = some p ∧
        best' = some (p, st'.2))
      (findBestLoop T products matchResource zone region typeToken requireType rest
        pre.length st)
      (pickBest (passesFilters T matchResource zone region typeToken requireType)
        (candidateScore T zone region typeToken) rest best) := by
  induction rest generalizing pre st best with
  | nil => exact h
  | cons x rest ih =>
    unfold findBestLoop pickBest
    have hx : products[pre.length]? = some x := by
      rw [hsplit, List.getElem?_append_right (le_refl _)]
      simp
    have := ih (pre ++ [x]) _ _ (by rw [hsplit]; simp)
      (pickBest_step T products matchResource zone region typeToken requireType pre.length x
        st best hx h)
    rw [List.length_append, List.length_singleton] at this
    exact this

/-- `findBestProduct` returns the entry that `pickBest` ends with. -/
theorem findBestProduct_eq_pickBest (T : CaseTables) (products : List Product)
    (matchResource : Product → Bool) (zone region typeToken : Str) (requireType : Bool) :
    findBestProduct T products matchResource zone region typeToken requireType =
      (pickBest (passesFilters T matchResource zone region typeToken requireType)
        (candidateScore T zone region typeToken) products none).map Prod.fst := by
  have h := pickBest_loop T products matchResource zone region typeToken requireType
    products [] (-1, -1) none rfl (Or.inl ⟨by decide, rfl⟩)
  unfold findBestProduct
  simp only [List.length_nil] at h ⊢
  rcases h with ⟨hneg, hnone⟩ | ⟨k, p, hk, hkp, hbest⟩
  · rw [if_pos hneg, hnone]; rfl
  · rw [if_neg (by rw [hk]; omega), hk, Int.toNat_ofNat, hkp, hbest]; rfl

theorem pickBest_filter (g pass : Product → Bool) (score : Product → Int)
    (xs : List Product) (best : Option (Product × Int)) :
    pickBest pass score (xs.filter g) best =
      pickBest (fun x => g x && pass x) score xs best := by
  induction xs generalizing best with
  | nil => rfl
  | cons x xs ih =>
    by_cases hg : g x = true
    · rw [List.filter_cons_of_pos hg]
      unfold pickBest
      rw [ih]
      simp only [hg, Bool.true_and]
    · rw [List.filter_cons_of_neg hg]
      have hg' : g x = false := by simpa using hg
      conv_rhs => unfold pickBest
      simp only [hg', Bool.false_and, Bool.false_eq_true, if_false]
      exact ih best

theorem isRedisProduct_of_rolePath (T : CaseTables) (role : Str) (p : Product)
    (h : Contains (ToLower T p.SKU) (redisRolePath role) = true) : isRedisProduct T p = true := by
  unfold isRedisProduct
  rw [Contains_iff_occurs] at h ⊢
  refine List.IsInfix.trans ?_ h
  unfold redisRolePath
  exact ⟨[], role ++ "/".toList, by simp⟩

/-- C40: in the redis role lookup the general redis category predicate is
redundant after the role-path pre-filter. For every catalog, role, locality and
token, `findBestRedisRoleProduct` returns the very product that
`findBestProduct` returns over the whole catalog with the single predicate "the
lower-cased SKU contains `/storage/redis/<role>/`", and `none` when that returns
`none`; for the two roles the resolver asks for, the segment is
`/storage/redis/main-node/` and `/storage/redis/additional-node/`. -/
theorem findBestRedisRoleProduct_refines (T : CaseTables) (products : List Product)
    (role zone region nodeTypeToken : Str) :
    findBestRedisRoleProduct T products role zone region nodeTypeToken =
      findBestRedisRoleProductClaimed T products role zone region nodeTypeToken ∧
    (findBestRedisRoleProduct T products role zone region nodeTypeToken).map (fun p => p.SKU) =
      (findBestRedisRoleProductClaimed T products role zone region nodeTypeToken).map
        (fun p => p.SKU) ∧
    findBestRedisRoleProduct T products "main-node".toList zone region nodeTypeToken =
      findBestProduct T products
        (fun p => Contains (ToLower T p.SKU) "/storage/redis/main-node/".toList)
        zone region nodeTypeToken (nodeTypeToken ≠ []) ∧
    findBestRedisRoleProduct T products "additional-node".toList zone region nodeTypeToken =
      findBestProduct T products
        (fun p => Contains (ToLower T p.SKU) "/storage/redis/additional-node/".toList)
        zone region nodeTypeToken (nodeTypeToken ≠ []) := by
  have key : ∀ r : Str, findBestRedisRoleProduct T products r zone region nodeTypeToken =
      findBestRedisRoleProductClaimed T products r zone region nodeTypeToken := by
    intro r
    unfold findBestRedisRoleProduct findBestRedisRoleProductClaimed
    simp only
    rw [findBestProduct_eq_pickBest, findBestProduct_eq_pickBest, pickBest_filter]
    congr 2
    funext x
    unfold passesFilters
    by_cases hc : Contains (ToLower T x.SKU)
        ("/storage/redis/".toList ++ ToLower T (TrimSpace r) ++ "/".toList) = true
    · have hc' : Contains (ToLower T x.SKU) (redisRolePath (ToLower T (TrimSpace r))) = true :=
        hc
      show (_ && _) = (Contains (ToLower T x.SKU) (redisRolePath (ToLower T (TrimSpace r))) &&
        _ && _)
      rw [hc, hc', isRedisProduct_of_rolePath T _ x hc']
      simp
    · have hc1 : Contains (ToLower T x.SKU)
          ("/storage/redis/".toList ++ ToLower T (TrimSpace r) ++ "/".toList) = false := by
        simpa using hc
      have hc' : Contains (ToLower T x.SKU) (redisRolePath (ToLower T (TrimSpace r))) = false :=
        hc1
      show (_ && _) = (Contains (ToLower T x.SKU) (redisRolePath (ToLower T (TrimSpace r))) &&
        _ && _)
      rw [hc1, hc']
      simp
  refine ⟨key role, by rw [key role], ?_, ?_⟩
  · rw [key]
    unfold findBestRedisRoleProductClaimed
    rw [redisRolePath_main]
  · rw [key]
    unfold findBestRedisRoleProductClaimed
    rw [redisRolePath_additional]

/-! ## Independence of the catalog order -/

/-- Two catalogs with the same passing entries give `findBestProduct` results
with the same SKU, or no result on both. -/
theorem findBestProduct_sku_unique (T : CaseTables) (ps ps' : List Product)
    (f : Product → Bool) (zone region typeToken : Str) (requireType : Bool)
    (hmem : ∀ q, q ∈ ps ↔ q ∈ ps') :
    (findBestProduct T ps f zone region typeToken requireType = none ∧
      findBestProduct T ps' f zone region typeToken requireType = none) ∨
    ∃ p p', findBestProduct T ps f zone region typeToken requireType = some p ∧
      findBestProduct T ps' f zone region typeToken requireType = some p' ∧
      p ∈ ps ∧ p' ∈ ps ∧ p.SKU = p'.SKU := by
  cases h : findBestProduct T ps f zone region typeToken requireType with
  | none =>
    left
    refine ⟨rfl, ?_⟩
    rw [findBestProduct_eq_none_iff] at h ⊢
    exact fun q hq => h q ((hmem q).mpr hq)
  | some p =>
    right
    obtain ⟨hp, hpp, hbest⟩ := findBestProduct_some T ps f zone region typeToken requireType p h
    obtain ⟨p', h'⟩ := (findBestProduct_isSome_iff T ps' f zone region typeToken
      requireType).mpr ⟨p, (hmem p).mp hp, hpp⟩
    obtain ⟨hp', hpp', hbest'⟩ := findBestProduct_some T ps' f zone region typeToken
      requireType p' h'
    refine ⟨p, p', rfl, h', hp, (hmem p').mpr hp', ?_⟩
    obtain ⟨h1, h2⟩ := hbest p' ((hmem p').mpr hp') hpp'
    obtain ⟨h3, h4⟩ := hbest' p ((hmem p).mp hp) hpp
    have heq : candidateScore T zone region typeToken p' =
        candidateScore T zone region typeToken p := le_antisymm h1 h3
    have hc1 := h2 heq
    have hc2 := h4 heq.symm
    rw [Compare_neg] at hc2
    exact Compare_eq_zero (by omega)

/-- On a catalog with pairwise distinct SKUs `findBestProduct` does not depend
on the order of the catalog. -/
theorem findBestProduct_perm (T : CaseTables) (ps ps' : List Product)
    (f : Product → Bool) (zone region typeToken : Str) (requireType : Bool)
    (hperm : ps.Perm ps') (hnodup : (ps.map fun p => p.SKU).Nodup) :
    findBestProduct T ps f zone region typeToken requireType =
      findBestProduct T ps' f zone region typeToken requireType := by
  rcases findBestProduct_sku_unique T ps ps' f zone region typeToken requireType
    (fun q => hperm.mem_iff) with ⟨h, h'⟩ | ⟨p, p', h, h', hp, hp', hsku⟩
  · rw [h, h']
  · rw [h, h', List.inj_on_of_nodup_map hnodup hp hp' hsku]

theorem findBestRedisRoleProduct_perm (T : CaseTables) (ps ps' : List Product)
    (role zone region token : Str)
    (hperm : ps.Perm ps') (hnodup : (ps.map fun p => p.SKU).Nodup) :
    findBestRedisRoleProduct T ps role zone region token =
      findBestRedisRoleProduct T ps' role zone region token := by
  unfold findBestRedisRoleProduct
  exact findBestProduct_perm T _ _ _ _ _ _ _ (hperm.filter _)
    ((List.filter_sublist _).map _ |>.nodup hnodup)

/-- `Resolve` reads the catalog only through `findBestProduct` and
`findBestRedisRoleProduct`. -/
theorem Resolve_congr_products (T : CaseTables) (c : ResourceChange) (ps ps' : List Product)
    (h1 : ∀ f zone region typeToken requireType,
      findBestProduct T ps f zone region typeToken requireType =
        findBestProduct T ps' f zone region typeToken requireType)
    (h2 : ∀ role zone region token,
      findBestRedisRoleProduct T ps role zone region token =
        findBestRedisRoleProduct T ps' role zone region token) :
    Resolve T c ps = Resolve T c ps' := by
  unfold Resolve
  simp only [h1, h2]

/-- C36: the resolver's selection does not depend on the order of the catalog.
For every change and every two catalogs that are permutations of each other and
whose SKUs are pairwise distinct, `Resolve` returns the same value on both: the
same error, or the same products, with the same SKUs, and the same quantities;
and so does the estimator built on it. -/
theorem Resolve_perm (T : CaseTables) (c : ResourceChange) (products products' : List Product)
    (hperm : products.Perm products')
    (hnodup : (products.map fun p => p.SKU).Nodup) :
    Resolve T c products = Resolve T c products' ∧
    (∀ e, Resolve T c products = .error e → Resolve T c products' = .error e) ∧
    (∀ r, Resolve T c products = .ok r →
      ∃ r', Resolve T c products' = .ok r' ∧
        r'.Product.map (fun p => p.SKU) = r.Product.map (fun p => p.SKU) ∧
        r'.Qty = r.Qty ∧
        r'.Matches.map (fun m => (m.Product.SKU, m.Qty)) =
          r.Matches.map (fun m => (m.Product.SKU, m.Qty))) ∧
    (∀ (fl : ℚ → ℚ) (changes : List ResourceChange),
      Build T fl changes products = Build T fl changes products') := by
  have hres : ∀ d : ResourceChange, Resolve T d products = Resolve T d products' := fun d =>
    Resolve_congr_products T d products products'
      (fun f zone region typeToken requireType =>
        findBestProduct_perm T products products' f zone region typeToken requireType hperm
          hnodup)
      (fun role zone region token =>
        findBestRedisRoleProduct_perm T products products' role zone region token hperm hnodup)
  refine ⟨hres c, fun e he => by rw [← hres c]; exact he,
    fun r hr => ⟨r, by rw [← hres c]; exact hr, rfl, rfl, rfl⟩, ?_⟩
  intro fl changes
  rw [Build_eq, Build_eq]
  have h1 : changeRows T fl products = changeRows T fl products' := by
    funext d
    unfold changeRows transitionRows
    simp only [hres]
  have h2 : changeUnsupported T products = changeUnsupported T products' := by
    funext d
    unfold changeUnsupported transitionUnsupported
    simp only [hres]
  rw [h1, h2]

/-- Witness for C36: the two instance products of the update test in both
orders; the create of the test instance resolves to the same value on both. -/
theorem Resolve_perm_witness :
    Resolve CaseTables.ascii (webChange ["create".toList] false true)
        [dev1sTest, dev1mTest] =
      Resolve CaseTables.ascii (webChange ["create".toList] false true)
        [dev1mTest, dev1sTest] :=
  (Resolve_perm CaseTables.ascii (webChange ["create".toList] false true)
    [dev1sTest, dev1mTest] [dev1mTest, dev1sTest] (List.Perm.swap _ _ _) (by decide)).1

/-! ## Token matching on substrings -/

theorem infix_dropWhile_of_head {α : Type} (p : α → Bool) (x : α) (w l : List α)
    (hx : p x = false) (h : (x :: w) <:+: l) : (x :: w) <:+: l.dropWhile p := by
  obtain ⟨a, b, hab⟩ := h
  subst hab
  induction a with
  | nil =>
    simp only [List.nil_append, List.cons_append, List.dropWhile_cons, hx]
    exact ⟨[], b, by simp⟩
  | cons y a ih =>
    simp only [List.cons_append, List.dropWhile_cons]
    split
    · simpa using ih
    · exact ⟨y :: a, b, by simp⟩

theorem infix_rdropWhile_of_last {α : Type} (p : α → Bool) (w l : List α) (hne : w ≠ [])
    (hlast : p (w.getLast hne) = false) (h : w <:+: l) : w <:+: l.rdropWhile p := by
  unfold List.rdropWhile
  rw [← List.reverse_infix, List.reverse_reverse]
  have hrev : w.reverse = w.getLast hne :: w.dropLast.reverse := by
    conv_lhs => rw [← List.dropLast_append_getLast hne]
    simp
  rw [hrev]
  apply infix_dropWhile_of_head p _ _ _ hlast
  rw [← hrev, List.reverse_infix]
  exact h

/-- A trimmed substring of a string occurs in the trimmed string. -/
theorem TrimSpace_occurs (s l : Str) (h : s <:+: l) : TrimSpace s <:+: TrimSpace l := by
  have hsub : TrimSpace s <:+: l :=
    List.IsInfix.trans
      (List.IsInfix.trans (List.rdropWhile_prefix _ _).isInfix (List.dropWhile_suffix _).isInfix) h
  cases hw : TrimSpace s with
  | nil => exact ⟨[], TrimSpace l, by simp⟩
  | cons x w =>
    rw [hw] at hsub
    have hx : isSpace x = false := TrimSpace_head s x (by rw [hw]; rfl)
    have hne : x :: w ≠ [] := by simp
    have hlast : isSpace ((x :: w).getLast hne) = false :=
      TrimSpace_getLast s _ (by rw [hw, List.getLast?_eq_getLast _ hne])
    unfold TrimSpace
    exact infix_rdropWhile_of_last isSpace _ _ hne hlast
      (infix_dropWhile_of_head isSpace x w l hx hsub)

theorem normalizeToken_occurs (T : CaseTables) (s l : Str) (h : s <:+: l) :
    normalizeToken T s <:+: normalizeToken T l := by
  rw [normalizeToken_strip, normalizeToken_strip]
  unfold stripSeparators ToLower
  exact ((TrimSpace_occurs s l h).map _).filter _

/-- C37: token matching is insensitive to case and separators. For every
product `p` and every string `s` that occurs as a contiguous substring of the
SKU, the product name, the variant or the description of `p`, `matchesToken p
(normalizeToken s)` is true; so it is for a substring of the four fields joined
by single spaces, the text that `matchesToken` searches. -/
theorem matchesToken_substring (T : CaseTables) (p : Product) (s : Str)
    (h : s <:+: p.SKU ∨ s <:+: p.Product ∨ s <:+: p.Variant ∨ s <:+: p.Description) :
    matchesToken T p (normalizeToken T s) = true ∧
    (∀ t : Str,
      t <:+: p.SKU ++ " ".toList ++ p.Product ++ " ".toList ++ p.Variant ++ " ".toList ++
        p.Description →
      matchesToken T p (normalizeToken T t) = true) := by
  have hall : ∀ t : Str,
      t <:+: p.SKU ++ " ".toList ++ p.Product ++ " ".toList ++ p.Variant ++ " ".toList ++
        p.Description →
      matchesToken T p (normalizeToken T t) = true := by
    intro t ht
    unfold matchesToken
    rw [Contains_iff_occurs]
    exact normalizeToken_occurs T _ _ ht
  refine ⟨hall s ?_, hall⟩
  rcases h with h | h | h | h
  · exact h.trans ⟨[], " ".toList ++ p.Product ++ " ".toList ++ p.Variant ++ " ".toList ++
      p.Description, by simp⟩
  · exact h.trans ⟨p.SKU ++ " ".toList, " ".toList ++ p.Variant ++ " ".toList ++
      p.Description, by simp⟩
  · exact h.trans ⟨p.SKU ++ " ".toList ++ p.Product ++ " ".toList, " ".toList ++
      p.Description, by simp⟩
  · exact h.trans ⟨p.SKU ++ " ".toList ++ p.Product ++ " ".toList ++ p.Variant ++ " ".toList,
      [], by simp⟩

/-- Witness for C37: `DEV1_M` occurs in the SKU `/compute/DEV1_M/run_par1` and
its token `dev1m` matches the product. -/
theorem matchesToken_substring_witness :
    normalizeToken CaseTables.ascii "DEV1_M".toList = "dev1m".toList ∧
    matchesToken CaseTables.ascii { SKU := "/compute/DEV1_M/run_par1".toList }
      (normalizeToken CaseTables.ascii "DEV1_M".toList) = true :=
  ⟨by decide,
   (matchesToken_substring CaseTables.ascii { SKU := "/compute/DEV1_M/run_par1".toList }
      "DEV1_M".toList
      (Or.inl ⟨"/compute/".toList, "/run_par1".toList, by decide⟩)).1⟩

end Impact
